import Mathlib

/-!
# OpenNN: a shallow embedding of `bounding_layer.cpp`,
`kappa_coefficient_optimization_threshold.cpp` and `loss_index.h`

Conventions of the embedding.

* A `double` is a rational number: only finite values are modelled and arithmetic is exact.
  The layer itself only compares and copies values, and subtracts two of them in
  `calculate_second_derivatives`.
* `Vector<double>` is a `List ℚ`.
* A member function that can throw, or that can read or write outside a container, returns
  `Except Failure _`; a mutator returns an `Outcome` holding the object after the call together
  with what was thrown, so that a partial update before a throw stays visible.
* `__OPENNN_DEBUG__` is the Boolean argument `debug` of the functions whose body has a block
  compiled under that flag.
* The header `matrix.h` is not among the sources; the `Matrix<double>` operations the layer
  calls are modelled next to the structure `Matrix`.
* The `while` loop of `perform_threshold_selection` is run for a number of passes that is an
  argument; that enough passes give a result is proved for every positive step.
-/

namespace OpenNN

/-- Texts of the `logic_error` exceptions of `bounding_layer.cpp`, of
`kappa_coefficient_optimization_threshold.cpp` and of `loss_index.h`, one per site. -/
inductive Message
  /-- "Size of inputs must be equal to number of bounding neurons." -/
  | inputs_size
  /-- "Unknown bounding method." -/
  | unknown_method
  /-- "Output is equal to lower bound. The bounding function is not differentiable at this point." -/
  | equal_lower_bound
  /-- "Output is equal to upper bound. The bounding function is not differentiable at this point." -/
  | equal_upper_bound
  /-- "Index of bounding neuron is equal or greater than number of bounding neurons." -/
  | prune_index
  /-- "Size must be equal to number of bounding neurons number." (`set_lower_bounds`) -/
  | lower_bounds_size
  /-- "Size must be equal to number of bounding neurons." (`set_upper_bounds`) -/
  | upper_bounds_size
  /-- "Index of bounding neurons must be less than number of bounding neurons." (`set_lower_bound`) -/
  | lower_bound_index
  /-- "Index of bounding neuron must be less than number of bounding neurons." (`set_upper_bound`) -/
  | upper_bound_index
  /-- "Number of rows must be 2." -/
  | bounds_rows
  /-- "Number of columns must be equal to number of bounding neurons." -/
  | bounds_columns
  /-- "BoundingLayer element is nullptr." -/
  | xml_root
  /-- "BoundingNeuronsNumber element is nullptr." -/
  | xml_neurons_number
  /-- "Item i is nullptr." -/
  | xml_item (i : Nat)
  /-- "Index index is not correct." -/
  | xml_index (index : Nat)
  /-- "Unknown bounding method." (`from_XML`) -/
  | xml_method
  /-- "Size of derivatives must be equal to number of bounding neurons." -/
  | derivatives_size
  /-- "Unknown bounding method: name." (`set_bounding_method`) -/
  | unknown_method_name (name : String)
  /-- "KappaCoefficientOptimizationThreshold element is nullptr." -/
  | kappa_xml_root
  /-- "Minimum threshold must be between 0 and 1." -/
  | kappa_minimum_threshold
  /-- "Maximum threshold must be between 0 and 1." -/
  | kappa_maximum_threshold
  /-- "Step must be between 0 and 1." -/
  | kappa_step
  /-- "Neural network pointer is nullptr." (`LossIndex::get_neural_network_pointer`) -/
  | loss_index_neural_network
  /-- "DataSet pointer is nullptr." (`LossIndex::get_data_set_pointer`) -/
  | loss_index_data_set
  deriving DecidableEq, Repr

/-- The ways a call can end without returning: a thrown `logic_error`, or an access outside a
container, which C++ leaves undefined. -/
inductive Failure
  | logic_error (what : Message)
  | undefined
  deriving DecidableEq, Repr

instance instDecidableEqExcept {ε α : Type} [DecidableEq ε] [DecidableEq α] :
    DecidableEq (Except ε α)
  | .ok a, .ok b =>
    if h : a = b then isTrue (by rw [h]) else isFalse (by intro h2; cases h2; exact h rfl)
  | .error a, .error b =>
    if h : a = b then isTrue (by rw [h]) else isFalse (by intro h2; cases h2; exact h rfl)
  | .ok _, .error _ => isFalse (by intro h; cases h)
  | .error _, .ok _ => isFalse (by intro h; cases h)

/-- The C++ loop `for(size_t i = 0; i < n; i++) body`, threading the variables the body
assigns; a failure in the body leaves the loop. -/
def for_loop {σ : Type} (n : Nat) (body : Nat → σ → Except Failure σ) (init : σ) :
    Except Failure σ :=
  (List.range n).foldlM (fun s i => body i s) init

/-- Unchecked `operator[]` of `Vector<double>`: an index outside the vector is undefined. -/
def Vector.read (v : List ℚ) (i : Nat) : Except Failure ℚ :=
  match v[i]? with
  | some x => .ok x
  | none => .error .undefined

/-- `Vector<T>::set(new_size)`: resizes the vector, keeping the leading elements and filling
new positions with zero. -/
def Vector.set_size (v : List ℚ) (new_size : Nat) : List ℚ :=
  v.take new_size ++ List.replicate (new_size - v.length) 0

/-- `Vector<T>::set(new_size, value)`: a vector of `new_size` copies of `value`. -/
def Vector.set_size_value (new_size : Nat) (value : ℚ) : List ℚ :=
  List.replicate new_size value

/-- Modelled from the spec: the `Matrix<double>` container, whose header `matrix.h` is not among
the sources. A matrix has `rows_number` rows (one per evaluated point) and `columns_number`
columns (one per neuron); as in the library it extends the standard vector, so that `size()`
counts all stored elements and `operator[]` addresses the storage, in which the columns follow
one another. -/
structure Matrix where
  rows_number : Nat
  columns_number : Nat
  data : List ℚ
  deriving DecidableEq, Repr

namespace Matrix

/-- The storage holds exactly `rows_number * columns_number` elements. -/
def valid (m : Matrix) : Prop := m.data.length = m.rows_number * m.columns_number

instance (m : Matrix) : Decidable m.valid := by unfold valid; infer_instance

/-- Modelled from the spec: `Matrix(rows, columns, value)`, every element equal to `value`. -/
def filled (rows columns : Nat) (value : ℚ) : Matrix :=
  ⟨rows, columns, List.replicate (rows * columns) value⟩

/-- Modelled from the spec: `size()`, inherited from the standard vector: the number of stored
elements. -/
def size (m : Matrix) : Nat := m.data.length

/-- Modelled from the spec: `get_rows_number()`. -/
def get_rows_number (m : Matrix) : Nat := m.rows_number

/-- Modelled from the spec: `get_columns_number()`. -/
def get_columns_number (m : Matrix) : Nat := m.columns_number

/-- Modelled from the spec: `operator[]`, inherited from the standard vector: the element at a
position of the storage. -/
def linear (m : Matrix) (k : Nat) : Except Failure ℚ := Vector.read m.data k

/-- Modelled from the spec: `operator()(row, column)`, reading. -/
def read (m : Matrix) (row column : Nat) : Except Failure ℚ :=
  Vector.read m.data (m.rows_number * column + row)

/-- Modelled from the spec: `operator()(row, column)`, assigning. -/
def write (m : Matrix) (row column : Nat) (value : ℚ) : Except Failure Matrix :=
  if m.rows_number * column + row < m.data.length then
    .ok { m with data := m.data.set (m.rows_number * column + row) value }
  else .error .undefined

/-- Modelled from the spec: `Matrix<T>::calculate_lower_upper_bounded(lower, upper)`, which
"clips each element to [lower_bounds[j], upper_bounds[j]]": in a copy of the matrix an element
of column `j` below `lower[j]` becomes `lower[j]`, one above `upper[j]` becomes `upper[j]`, and
any other element is kept. -/
def calculate_lower_upper_bounded (m : Matrix) (lower upper : List ℚ) : Except Failure Matrix :=
  for_loop m.rows_number (fun i bounded =>
    for_loop m.columns_number (fun j bounded => do
      let x ← m.read i j
      let lo ← Vector.read lower j
      let up ← Vector.read upper j
      if x < lo then bounded.write i j lo
      else if x > up then bounded.write i j up
      else pure bounded) bounded) m

/-- A matrix of `R` rows and `C` columns whose storage has the matching size. -/
def shaped (m : Matrix) (R C : Nat) : Prop :=
  m.rows_number = R ∧ m.columns_number = C ∧ m.data.length = R * C

/-- The value `operator()(row, column)` reads when the position lies in the storage. -/
def cell (m : Matrix) (row column : Nat) : ℚ :=
  (m.data[m.rows_number * column + row]?).getD 0

end Matrix

/-- The value `operator[]` reads from a vector when the index lies inside it. -/
def Vector.item (v : List ℚ) (i : Nat) : ℚ := (v[i]?).getD 0

/-- Unchecked assignment through `operator[]` of `Vector<double>`. -/
def Vector.write (v : List ℚ) (i : Nat) (value : ℚ) : Except Failure (List ℚ) :=
  if i < v.length then .ok (v.set i value) else .error .undefined

/-- `erase(begin() + index)` of the standard vector: undefined unless `index` is inside. -/
def Vector.erase (v : List ℚ) (index : Nat) : Except Failure (List ℚ) :=
  if index < v.length then .ok (v.eraseIdx index) else .error .undefined

/-- `numeric_limits<double>::epsilon()`. -/
def epsilon : ℚ := 1 / 2 ^ 52

/-- `numeric_limits<double>::max()`. -/
def double_max : ℚ := (2 ^ 53 - 1) * 2 ^ 971

/-- The enumeration `BoundingLayer::BoundingMethod`. -/
inductive BoundingMethod
  | NoBounding
  | Bounding
  deriving DecidableEq, Repr

/-- The members of `class BoundingLayer`. -/
structure BoundingLayer where
  lower_bounds : List ℚ
  upper_bounds : List ℚ
  bounding_method : BoundingMethod
  display : Bool
  deriving DecidableEq, Repr

namespace BoundingLayer

/-- `get_bounding_neurons_number`: the size of `lower_bounds`. -/
def get_bounding_neurons_number (L : BoundingLayer) : Nat := L.lower_bounds.length

/-- `calculate_outputs(inputs)`. The enumeration has two values, so the final `else` of the
source, which throws "Unknown bounding method", has no case here. -/
def calculate_outputs (debug : Bool) (L : BoundingLayer) (inputs : Matrix) :
    Except Failure Matrix :=
  if debug = true ∧ inputs.size ≠ L.get_bounding_neurons_number then
    .error (.logic_error .inputs_size)
  else
    match L.bounding_method with
    | .NoBounding => .ok inputs
    | .Bounding => inputs.calculate_lower_upper_bounded L.lower_bounds L.upper_bounds

/-- `calculate_second_derivatives(inputs)`. The loop runs over the neurons and reads the
outputs through `operator[]`. -/
def calculate_second_derivatives (debug : Bool) (L : BoundingLayer) (inputs : Matrix) :
    Except Failure Matrix := do
  let points_number := inputs.get_rows_number
  let bounding_neurons_number := L.get_bounding_neurons_number
  let outputs ← L.calculate_outputs debug inputs
  let _ ← for_loop bounding_neurons_number (fun i (_ : Unit) => do
    let o ← outputs.linear i
    let lo ← Vector.read L.lower_bounds i
    if |o - lo| < epsilon then throw (.logic_error .equal_lower_bound)
    else
      let up ← Vector.read L.upper_bounds i
      if |o - up| < epsilon then throw (.logic_error .equal_upper_bound)
      else pure ()) ()
  pure (Matrix.filled points_number bounding_neurons_number 0)

end BoundingLayer

/-- The object after a call of a mutator, and what the call threw (`none`: it returned). -/
structure Outcome where
  layer : BoundingLayer
  thrown : Option Failure
  deriving DecidableEq, Repr

namespace Outcome

/-- The call returned. -/
def returned (L : BoundingLayer) : Outcome := ⟨L, none⟩

/-- The call threw `logic_error(what)`, the object being `L` at that point. -/
def throws (L : BoundingLayer) (what : Message) : Outcome := ⟨L, some (.logic_error what)⟩

/-- The call made an access outside a container, the object being `L` at that point. -/
def undefined_at (L : BoundingLayer) : Outcome := ⟨L, some .undefined⟩

/-- Sequencing of two calls: the second one runs when the first one returned. -/
def andThen (o : Outcome) (next : BoundingLayer → Outcome) : Outcome :=
  match o.thrown with
  | none => next o.layer
  | some _ => o

end Outcome

/-- An `Item` element of the bounding layer document, as `from_XML` reads it: the `Index`
attribute (`none` when `QueryUnsignedAttribute` does not find a number), and the numbers `atof`
gives for the texts of `LowerBound` and `UpperBound` (`none` when the element or its text is
absent). -/
structure XMLItem where
  index : Option Nat
  lower_bound : Option ℚ
  upper_bound : Option ℚ
  deriving DecidableEq, Repr

/-- The `BoundingLayer` element, as `from_XML` reads it: the number `atoi` gives for the text
of `BoundingNeuronsNumber`, cast to `size_t` (outer `none`: no such element; inner `none`: the
element has no text), the `Item` elements that follow it, and likewise the number read from
`UseBoundingLayer`. -/
structure XMLBoundingLayer where
  bounding_neurons_number : Option (Option Nat)
  items : List XMLItem
  use_bounding_layer : Option (Option Nat)
  deriving DecidableEq, Repr

/-- A document: its first `BoundingLayer` child element, when there is one. -/
structure XMLDocument where
  bounding_layer : Option XMLBoundingLayer
  deriving DecidableEq, Repr

namespace BoundingLayer

/-- The members as a constructor body finds them: the vectors are empty, `bounding_method` and
`display` hold whatever the storage held. -/
def raw (method : BoundingMethod) (display : Bool) : BoundingLayer := ⟨[], [], method, display⟩

/-- `set_default()`. -/
def set_default (L : BoundingLayer) : BoundingLayer :=
  { L with display := true, bounding_method := .Bounding }

/-- `set()`. -/
def set (L : BoundingLayer) : BoundingLayer :=
  set_default { L with
    bounding_method := .Bounding
    lower_bounds := Vector.set_size L.lower_bounds 0
    upper_bounds := Vector.set_size L.upper_bounds 0 }

/-- `set(new_bounding_neurons_number)`. -/
def set_size (L : BoundingLayer) (new_bounding_neurons_number : Nat) : BoundingLayer :=
  set_default { L with
    lower_bounds := Vector.set_size L.lower_bounds new_bounding_neurons_number
    upper_bounds := Vector.set_size L.upper_bounds new_bounding_neurons_number }

/-- `set(other_bounding_layer)`. -/
def set_other (L other_bounding_layer : BoundingLayer) : BoundingLayer :=
  { L with
    lower_bounds := other_bounding_layer.lower_bounds
    upper_bounds := other_bounding_layer.upper_bounds
    display := other_bounding_layer.display }

/-- `operator =`. Assigning an object to itself changes nothing either way. -/
def assign (L other_bounding_layer : BoundingLayer) : BoundingLayer :=
  { L with
    lower_bounds := other_bounding_layer.lower_bounds
    upper_bounds := other_bounding_layer.upper_bounds
    display := other_bounding_layer.display }

/-- `set_bounding_method(new_method)`. -/
def set_bounding_method (L : BoundingLayer) (new_method : BoundingMethod) : BoundingLayer :=
  { L with bounding_method := new_method }

/-- `set_display(new_display)`. -/
def set_display (L : BoundingLayer) (new_display : Bool) : BoundingLayer :=
  { L with display := new_display }

/-- `set_lower_bounds(new_lower_bounds)`. -/
def set_lower_bounds (debug : Bool) (L : BoundingLayer) (new_lower_bounds : List ℚ) : Outcome :=
  if debug = true ∧ new_lower_bounds.length ≠ L.get_bounding_neurons_number then
    Outcome.throws L .lower_bounds_size
  else
    Outcome.returned { L with lower_bounds := new_lower_bounds }

/-- `set_upper_bounds(new_upper_bounds)`. -/
def set_upper_bounds (debug : Bool) (L : BoundingLayer) (new_upper_bounds : List ℚ) : Outcome :=
  if debug = true ∧ new_upper_bounds.length ≠ L.get_bounding_neurons_number then
    Outcome.throws L .upper_bounds_size
  else
    Outcome.returned { L with upper_bounds := new_upper_bounds }

/-- `set_lower_bound(index, new_lower_bound)`. -/
def set_lower_bound (debug : Bool) (L : BoundingLayer) (index : Nat) (new_lower_bound : ℚ) :
    Outcome :=
  let bounding_neurons_number := L.get_bounding_neurons_number
  if debug = true ∧ index ≥ bounding_neurons_number then
    Outcome.throws L .lower_bound_index
  else
    let L1 :=
      if L.lower_bounds.length ≠ bounding_neurons_number then
        { L with lower_bounds := Vector.set_size_value bounding_neurons_number (-double_max) }
      else L
    match Vector.write L1.lower_bounds index new_lower_bound with
    | .ok v => Outcome.returned { L1 with lower_bounds := v }
    | .error _ => Outcome.undefined_at L1

/-- `set_upper_bound(index, new_upper_bound)`. -/
def set_upper_bound (debug : Bool) (L : BoundingLayer) (index : Nat) (new_upper_bound : ℚ) :
    Outcome :=
  let bounding_neurons_number := L.get_bounding_neurons_number
  if debug = true ∧ index ≥ bounding_neurons_number then
    Outcome.throws L .upper_bound_index
  else
    let L1 :=
      if L.upper_bounds.length ≠ bounding_neurons_number then
        { L with upper_bounds := Vector.set_size_value bounding_neurons_number double_max }
      else L
    match Vector.write L1.upper_bounds index new_upper_bound with
    | .ok v => Outcome.returned { L1 with upper_bounds := v }
    | .error _ => Outcome.undefined_at L1

/-- `set_bounds(new_bounds)`. -/
def set_bounds (debug : Bool) (L : BoundingLayer) (new_bounds : List (List ℚ)) : Outcome :=
  let bounding_neurons_number := L.get_bounding_neurons_number
  if debug = true ∧ new_bounds.length ≠ 2 then
    Outcome.throws L .bounds_rows
  else if debug = true ∧ ((new_bounds[0]?).getD []).length ≠ bounding_neurons_number
      ∧ ((new_bounds[1]?).getD []).length ≠ bounding_neurons_number then
    Outcome.throws L .bounds_columns
  else
    match new_bounds[0]? with
    | none => Outcome.undefined_at L
    | some row0 =>
      (set_lower_bounds debug L row0).andThen (fun L1 =>
        match new_bounds[1]? with
        | none => Outcome.undefined_at L1
        | some row1 => set_upper_bounds debug L1 row1)

/-- `prune_bounding_neuron(index)`. -/
def prune_bounding_neuron (debug : Bool) (L : BoundingLayer) (index : Nat) : Outcome :=
  if debug = true ∧ index ≥ L.get_bounding_neurons_number then
    Outcome.throws L .prune_index
  else
    match Vector.erase L.lower_bounds index with
    | .error _ => Outcome.undefined_at L
    | .ok lower =>
      let L1 := { L with lower_bounds := lower }
      match Vector.erase L1.upper_bounds index with
      | .error _ => Outcome.undefined_at L1
      | .ok upper => Outcome.returned { L1 with upper_bounds := upper }

/-- The loop of `from_XML` over the `Item` elements: `todo` iterations remain, `i` is the loop
counter, `index` the variable the `Index` attribute is read into, `siblings` the `Item`
elements after `start_element`. -/
def from_XML_items : Nat → Nat → Nat → List XMLItem → BoundingLayer → Outcome
  | 0, _, _, _, L => Outcome.returned L
  | todo + 1, i, index, siblings, L =>
    match siblings with
    | [] => Outcome.throws L (.xml_item (i + 1))
    | item_element :: rest =>
      let index := item_element.index.getD index
      if index ≠ i + 1 then Outcome.throws L (.xml_index index)
      else
        let L1 :=
          match item_element.lower_bound with
          | some x => { L with lower_bounds := L.lower_bounds.set (index - 1) x }
          | none => L
        let L2 :=
          match item_element.upper_bound with
          | some x => { L1 with upper_bounds := L1.upper_bounds.set (index - 1) x }
          | none => L1
        from_XML_items todo (i + 1) index rest L2

/-- `from_XML(document)`. -/
def from_XML (L : BoundingLayer) (document : XMLDocument) : Outcome :=
  match document.bounding_layer with
  | none => Outcome.throws L .xml_root
  | some bounding_layer_element =>
    match bounding_layer_element.bounding_neurons_number with
    | none => Outcome.throws L .xml_neurons_number
    | some none => Outcome.undefined_at L
    | some (some bounding_neurons_number) =>
      let L1 := set_size L bounding_neurons_number
      (from_XML_items L1.lower_bounds.length 0 0 bounding_layer_element.items L1).andThen
        (fun L2 =>
          match bounding_layer_element.use_bounding_layer with
          | none => Outcome.returned L2
          | some none => Outcome.undefined_at L2
          | some (some new_method) =>
            if new_method = 1 then Outcome.returned { L2 with bounding_method := .Bounding }
            else if new_method = 0 then
              Outcome.returned { L2 with bounding_method := .NoBounding }
            else Outcome.throws L2 .xml_method)

/-- `set(bounding_layer_document)`. -/
def set_document (L : BoundingLayer) (bounding_layer_document : XMLDocument) : Outcome :=
  from_XML (set_default L) bounding_layer_document

/-- The default constructor. -/
def construct (method : BoundingMethod) (display : Bool) : BoundingLayer :=
  set (raw method display)

/-- The bounding neurons number constructor. -/
def construct_size (method : BoundingMethod) (display : Bool) (bounding_neurons_number : Nat) :
    BoundingLayer :=
  set_default (set_size (raw method display) bounding_neurons_number)

/-- The XML constructor. -/
def construct_document (method : BoundingMethod) (display : Bool)
    (bounding_layer_document : XMLDocument) : Outcome :=
  set_document (raw method display) bounding_layer_document

/-- The copy constructor. -/
def construct_copy (method : BoundingMethod) (display : Bool)
    (other_bounding_layer : BoundingLayer) : BoundingLayer :=
  set_other (raw method display) other_bounding_layer

/-- The layers a program can hold: what a constructor leaves, and what a public member leaves
when it is called on such a layer, whether the call returned or threw. A constructor that
throws leaves no object, and a call that ran outside a container is not followed any further. -/
inductive Reachable (debug : Bool) : BoundingLayer → Prop
  | construct (method : BoundingMethod) (display : Bool) :
      Reachable debug (construct method display)
  | construct_size (method : BoundingMethod) (display : Bool) (n : Nat) :
      Reachable debug (construct_size method display n)
  | construct_document (method : BoundingMethod) (display : Bool) (document : XMLDocument) :
      (construct_document method display document).thrown = none →
      Reachable debug (construct_document method display document).layer
  | construct_copy (method : BoundingMethod) (display : Bool) (other : BoundingLayer) :
      Reachable debug other → Reachable debug (construct_copy method display other)
  | set (L : BoundingLayer) : Reachable debug L → Reachable debug L.set
  | set_size (L : BoundingLayer) (n : Nat) : Reachable debug L → Reachable debug (L.set_size n)
  | set_document (L : BoundingLayer) (document : XMLDocument) :
      Reachable debug L → (L.set_document document).thrown ≠ some .undefined →
      Reachable debug (L.set_document document).layer
  | set_other (L other : BoundingLayer) :
      Reachable debug L → Reachable debug other → Reachable debug (L.set_other other)
  | assign (L other : BoundingLayer) :
      Reachable debug L → Reachable debug other → Reachable debug (L.assign other)
  | set_bounding_method (L : BoundingLayer) (new_method : BoundingMethod) :
      Reachable debug L → Reachable debug (L.set_bounding_method new_method)
  | set_display (L : BoundingLayer) (new_display : Bool) :
      Reachable debug L → Reachable debug (L.set_display new_display)
  | set_default (L : BoundingLayer) : Reachable debug L → Reachable debug L.set_default
  | set_lower_bounds (L : BoundingLayer) (new_lower_bounds : List ℚ) :
      Reachable debug L → Reachable debug (L.set_lower_bounds debug new_lower_bounds).layer
  | set_upper_bounds (L : BoundingLayer) (new_upper_bounds : List ℚ) :
      Reachable debug L → Reachable debug (L.set_upper_bounds debug new_upper_bounds).layer
  | set_lower_bound (L : BoundingLayer) (index : Nat) (new_lower_bound : ℚ) :
      Reachable debug L →
      (L.set_lower_bound debug index new_lower_bound).thrown ≠ some .undefined →
      Reachable debug (L.set_lower_bound debug index new_lower_bound).layer
  | set_upper_bound (L : BoundingLayer) (index : Nat) (new_upper_bound : ℚ) :
      Reachable debug L →
      (L.set_upper_bound debug index new_upper_bound).thrown ≠ some .undefined →
      Reachable debug (L.set_upper_bound debug index new_upper_bound).layer
  | set_bounds (L : BoundingLayer) (new_bounds : List (List ℚ)) :
      Reachable debug L → (L.set_bounds debug new_bounds).thrown ≠ some .undefined →
      Reachable debug (L.set_bounds debug new_bounds).layer
  | prune_bounding_neuron (L : BoundingLayer) (index : Nat) :
      Reachable debug L → (L.prune_bounding_neuron debug index).thrown ≠ some .undefined →
      Reachable debug (L.prune_bounding_neuron debug index).layer
  | from_XML (L : BoundingLayer) (document : XMLDocument) :
      Reachable debug L → (L.from_XML document).thrown ≠ some .undefined →
      Reachable debug (L.from_XML document).layer

end BoundingLayer

namespace Matrix

/-- Modelled from the spec: `Matrix<T>::set_diagonal(new_diagonal)`, with which
`calculate_Jacobian` "builds a diagonal matrix from the per-neuron derivative vector": element
(i,i) becomes `new_diagonal[i]` for every row i, the other elements stay. -/
def set_diagonal (m : Matrix) (new_diagonal : List ℚ) : Except Failure Matrix :=
  for_loop m.rows_number (fun i diagonal => do
    let x ← Vector.read new_diagonal i
    diagonal.write i i x) m

/-- Modelled from the spec: a default-constructed `Matrix<double>`, with no rows and no
columns. -/
def empty : Matrix := ⟨0, 0, []⟩

end Matrix

/-- The conversions between numbers and text that the serialisation goes through: they belong to
the standard library and to TinyXML and are taken as given. -/
structure TextFormat where
  /-- `buffer << n` for a `size_t`. -/
  write_size : Nat → String
  /-- `SetAttribute("Index", unsigned)`: the text of the attribute. -/
  write_unsigned : Nat → String
  /-- `buffer << x` for a `double`. -/
  write_double : ℚ → String
  /-- `static_cast<size_t>(atoi(text))`. -/
  atoi : String → Nat
  /-- `atof(text)`. -/
  atof : String → ℚ
  /-- `QueryUnsignedAttribute`: the number in the text of an attribute, when it is one. -/
  query_unsigned : String → Option Nat

/-- An `Item` element as `to_XML` writes it: the text of the `Index` attribute and the texts of
`LowerBound` and `UpperBound` (`none`: no such attribute, or no such element or text). -/
structure XMLItemText where
  index : Option String
  lower_bound : Option String
  upper_bound : Option String
  deriving DecidableEq, Repr

/-- The `BoundingLayer` element as `to_XML` writes it: the text of `BoundingNeuronsNumber`, the
`Item` elements after it, the text of `UseBoundingLayer`. -/
structure XMLBoundingLayerText where
  bounding_neurons_number : Option (Option String)
  items : List XMLItemText
  use_bounding_layer : Option (Option String)
  deriving DecidableEq, Repr

/-- A written document: its first `BoundingLayer` child element, when there is one. -/
structure XMLDocumentText where
  bounding_layer : Option XMLBoundingLayerText
  deriving DecidableEq, Repr

/-- The numbers `from_XML` reads from the texts of an `Item` element. -/
def XMLItemText.read (format : TextFormat) (item : XMLItemText) : XMLItem :=
  ⟨item.index.bind format.query_unsigned, item.lower_bound.map format.atof,
    item.upper_bound.map format.atof⟩

/-- The numbers `from_XML` reads from the texts of the `BoundingLayer` element. -/
def XMLBoundingLayerText.read (format : TextFormat) (element : XMLBoundingLayerText) :
    XMLBoundingLayer :=
  ⟨element.bounding_neurons_number.map (Option.map format.atoi),
    element.items.map (XMLItemText.read format),
    element.use_bounding_layer.map (Option.map format.atoi)⟩

/-- The numbers `from_XML` reads from the texts of a document. -/
def XMLDocumentText.read (format : TextFormat) (document : XMLDocumentText) : XMLDocument :=
  ⟨document.bounding_layer.map (XMLBoundingLayerText.read format)⟩

/-- A sample of the conversions, exact on natural numbers and on whole `double` values: decimal
digits, with a leading minus sign for a negative value. -/
def TextFormat.decimal : TextFormat where
  write_size := fun n => Nat.repr n
  write_unsigned := fun n => Nat.repr n
  write_double := fun x => if x < 0 then "-" ++ Nat.repr (-x).floor.toNat
    else Nat.repr x.floor.toNat
  atoi := fun text => text.data.foldl (fun n c => 10 * n + (c.toNat - 48)) 0
  atof := fun text =>
    match text.data with
    | '-' :: digits => -((digits.foldl (fun n c => 10 * n + (c.toNat - 48)) 0 : Nat) : ℚ)
    | digits => ((digits.foldl (fun n c => 10 * n + (c.toNat - 48)) 0 : Nat) : ℚ)
  query_unsigned := fun text =>
    if text.data ≠ [] ∧ text.data.all Char.isDigit then
      some (text.data.foldl (fun n c => 10 * n + (c.toNat - 48)) 0)
    else none

namespace BoundingLayer

/-- `operator ==`. -/
def equal_to (L other_bounding_layer : BoundingLayer) : Bool :=
  if L.lower_bounds = other_bounding_layer.lower_bounds
      ∧ L.upper_bounds = other_bounding_layer.upper_bounds
      ∧ L.display = other_bounding_layer.display then
    true
  else
    false

/-- `is_empty()`. -/
def is_empty (L : BoundingLayer) : Bool :=
  if L.get_bounding_neurons_number = 0 then true else false

/-- `write_bounding_method()`. The enumeration has two values, so the final `else` of the
source, which throws "Unknown bounding method", has no case here. -/
def write_bounding_method (L : BoundingLayer) : String :=
  match L.bounding_method with
  | .Bounding => "Bounding"
  | .NoBounding => "NoBounding"

/-- `set_bounding_method(new_method_string)`. -/
def set_bounding_method_name (L : BoundingLayer) (new_method_string : String) : Outcome :=
  if new_method_string = "NoBounding" then
    Outcome.returned { L with bounding_method := .NoBounding }
  else if new_method_string = "Bounding" then
    Outcome.returned { L with bounding_method := .Bounding }
  else
    Outcome.throws L (.unknown_method_name new_method_string)

/-- `calculate_Jacobian(derivatives)`. -/
def calculate_Jacobian (debug : Bool) (L : BoundingLayer) (derivatives : List ℚ) :
    Except Failure Matrix :=
  let bounding_neurons_number := L.get_bounding_neurons_number
  if debug = true ∧ derivatives.length ≠ bounding_neurons_number then
    .error (.logic_error .derivatives_size)
  else
    (Matrix.filled bounding_neurons_number bounding_neurons_number 0).set_diagonal derivatives

/-- `calculate_Hessian(derivatives)`; the argument has no name in the source and is not read.
`bounded_Hessian` starts as `bounding_neurons_number` default-constructed matrices, and
`set(rows, columns, value)` makes each of them a matrix filled with `value`. -/
def calculate_Hessian (L : BoundingLayer) (_derivatives : List ℚ) :
    Except Failure (List Matrix) :=
  let bounding_neurons_number := L.get_bounding_neurons_number
  for_loop bounding_neurons_number (fun i bounded_Hessian =>
    if i < bounded_Hessian.length then
      .ok (bounded_Hessian.set i (Matrix.filled bounding_neurons_number bounding_neurons_number 0))
    else .error .undefined)
    (List.replicate bounding_neurons_number Matrix.empty)

/-- `to_XML()`: the `BoundingLayer` element with the number of neurons, one `Item` per neuron
carrying `Index` i+1 and the texts of the two bounds, and the flag `UseBoundingLayer`. -/
def to_XML (format : TextFormat) (L : BoundingLayer) : Except Failure XMLDocumentText := do
  let bounding_neurons_number := L.get_bounding_neurons_number
  let items ← for_loop bounding_neurons_number (fun i items => do
    let lo ← Vector.read L.lower_bounds i
    let up ← Vector.read L.upper_bounds i
    pure (items ++ [(⟨some (format.write_unsigned (i + 1)), some (format.write_double lo),
      some (format.write_double up)⟩ : XMLItemText)])) []
  let method_text :=
    match L.bounding_method with
    | .Bounding => "1"
    | .NoBounding => "0"
  pure ⟨some ⟨some (some (format.write_size bounding_neurons_number)), items,
    some (some method_text)⟩⟩

end BoundingLayer

/-- The members of `class KappaCoefficientOptimizationThreshold`: its own three settings and,
from `ThresholdSelectionAlgorithm`, the flags its member functions read or set. -/
structure KappaCoefficientOptimizationThreshold where
  minimum_threshold : ℚ
  maximum_threshold : ℚ
  step : ℚ
  reserve_binary_classification_tests_data : Bool
  reserve_function_data : Bool
  display : Bool
  deriving DecidableEq, Repr

/-- The object after a call of a member of `KappaCoefficientOptimizationThreshold`, what the
call threw (`none`: it returned), and the messages it wrote to `cerr`. -/
structure KappaOutcome where
  object : KappaCoefficientOptimizationThreshold
  thrown : Option Failure
  cerr : List Message
  deriving DecidableEq, Repr

/-- The `KappaCoefficientOptimizationThreshold` element as `from_XML` reads it: for each child
element the number `atof` gives for its text, and for `ReserveFunctionData` the text itself
(outer `none`: no such element; inner `none`: the element has no text). -/
structure XMLKappaElement where
  minimum_threshold : Option (Option ℚ)
  maximum_threshold : Option (Option ℚ)
  step : Option (Option ℚ)
  reserve_function_data : Option (Option String)
  deriving DecidableEq, Repr

/-- A document: its first `KappaCoefficientOptimizationThreshold` child element, when there is
one. -/
structure XMLKappaDocument where
  root_element : Option XMLKappaElement
  deriving DecidableEq, Repr

namespace KappaCoefficientOptimizationThreshold

/-- `get_minimum_threshold()`. -/
def get_minimum_threshold (K : KappaCoefficientOptimizationThreshold) : ℚ := K.minimum_threshold

/-- `get_maximum_threshold()`. -/
def get_maximum_threshold (K : KappaCoefficientOptimizationThreshold) : ℚ := K.maximum_threshold

/-- `get_step()`. -/
def get_step (K : KappaCoefficientOptimizationThreshold) : ℚ := K.step

/-- `set_default()`. -/
def set_default (K : KappaCoefficientOptimizationThreshold) :
    KappaCoefficientOptimizationThreshold :=
  { K with minimum_threshold := 0, maximum_threshold := 1, step := 1 / 1000 }

/-- `set_minimum_threshold(new_minimum_threshold)`. -/
def set_minimum_threshold (debug : Bool) (K : KappaCoefficientOptimizationThreshold)
    (new_minimum_threshold : ℚ) : KappaOutcome :=
  if debug = true ∧ (new_minimum_threshold ≤ 0 ∨ new_minimum_threshold ≥ 1) then
    ⟨K, some (.logic_error .kappa_minimum_threshold), []⟩
  else
    ⟨{ K with minimum_threshold := new_minimum_threshold }, none, []⟩

/-- `set_maximum_threshold(new_maximum_threshold)`. -/
def set_maximum_threshold (debug : Bool) (K : KappaCoefficientOptimizationThreshold)
    (new_maximum_threshold : ℚ) : KappaOutcome :=
  if debug = true ∧ (new_maximum_threshold ≤ 0 ∨ new_maximum_threshold ≥ 1) then
    ⟨K, some (.logic_error .kappa_maximum_threshold), []⟩
  else
    ⟨{ K with maximum_threshold := new_maximum_threshold }, none, []⟩

/-- `set_step(new_step)`. -/
def set_step (debug : Bool) (K : KappaCoefficientOptimizationThreshold) (new_step : ℚ) :
    KappaOutcome :=
  if debug = true ∧ (new_step ≤ 0 ∨ new_step ≥ 1) then
    ⟨K, some (.logic_error .kappa_step), []⟩
  else
    ⟨{ K with step := new_step }, none, []⟩

/-- Modelled from the spec: `ThresholdSelectionAlgorithm::set_reserve_function_data`, the
mutator of the flag `reserve_function_data` (the base class is not among the sources). -/
def set_reserve_function_data (K : KappaCoefficientOptimizationThreshold)
    (new_reserve_function_data : Bool) : KappaOutcome :=
  ⟨{ K with reserve_function_data := new_reserve_function_data }, none, []⟩

/-- The statement `try { call } catch(const logic_error& e) { cerr << e.what() << endl; }`: a
thrown `logic_error` ends there, its text going to `cerr`. -/
def try_catch (call : KappaOutcome) : KappaOutcome :=
  match call.thrown with
  | some (.logic_error what) => ⟨call.object, none, call.cerr ++ [what]⟩
  | _ => call

/-- Sequencing: the next statement runs when the previous one returned, and `cerr` keeps what
was written before. -/
def andThen (o : KappaOutcome) (next : KappaCoefficientOptimizationThreshold → KappaOutcome) :
    KappaOutcome :=
  match o.thrown with
  | none => ⟨(next o.object).object, (next o.object).thrown, o.cerr ++ (next o.object).cerr⟩
  | some _ => o

/-- One block of `from_XML` for a numeric setting: when the element is there, `atof` of its text
is passed to the setter inside `try`/`catch`; a text that is absent is handed to `atof` as a
null pointer. -/
def from_XML_setting (setter : KappaCoefficientOptimizationThreshold → ℚ → KappaOutcome)
    (element : Option (Option ℚ)) (K : KappaCoefficientOptimizationThreshold) : KappaOutcome :=
  match element with
  | none => ⟨K, none, []⟩
  | some none => ⟨K, some .undefined, []⟩
  | some (some value) => try_catch (setter K value)

/-- `from_XML(document)`. -/
def from_XML (debug : Bool) (K : KappaCoefficientOptimizationThreshold)
    (document : XMLKappaDocument) : KappaOutcome :=
  match document.root_element with
  | none => ⟨K, some (.logic_error .kappa_xml_root), []⟩
  | some root_element =>
    andThen (from_XML_setting (set_minimum_threshold debug) root_element.minimum_threshold K)
      (fun K1 =>
    andThen (from_XML_setting (set_maximum_threshold debug) root_element.maximum_threshold K1)
      (fun K2 =>
    andThen (from_XML_setting (set_step debug) root_element.step K2)
      (fun K3 =>
        match root_element.reserve_function_data with
        | none => ⟨K3, none, []⟩
        | some none => ⟨K3, some .undefined, []⟩
        | some (some new_reserve_function_data) =>
          try_catch (set_reserve_function_data K3
            (if new_reserve_function_data ≠ "0" then true else false)))))

end KappaCoefficientOptimizationThreshold

namespace Matrix

/-- Modelled from the spec: `Matrix<T>::get_row(i)`, "row i of that population": the elements
(i,0), (i,1), ... of the row, one per column. -/
def get_row (m : Matrix) (i : Nat) : Except Failure (List ℚ) :=
  for_loop m.columns_number (fun j row => do
    let x ← m.read i j
    pure (row ++ [x])) []

end Matrix

/-- The enumeration `LossIndex::RegularizationMethod`. -/
inductive RegularizationMethod
  | L1
  | L2
  | None
  deriving DecidableEq, Repr

/-- The members of `class LossIndex`. A pointer is the address it holds (`none`: `nullptr`);
`m_population` is the population matrix the weak reference points to, which the caller keeps
valid. -/
structure LossIndex where
  neural_network_pointer : Option Nat
  data_set_pointer : Option Nat
  regularization_method : RegularizationMethod
  regularization_weight : ℚ
  batch_size : Nat
  display : Bool
  m_population : Option Matrix
  deriving DecidableEq, Repr

/-- What a loss index reaches through its pointers and its pure virtual members: the parameters
stored in the neural network, `calculate_training_error()` and
`calculate_training_error(parameters)`. -/
structure LossEnvironment where
  parameters : List ℚ
  calculate_training_error : ℚ
  calculate_training_error_at : List ℚ → ℚ

/-- The value a loss evaluation returns together with the parameters the neural network stores
after the call. -/
structure LossEvaluation where
  value : ℚ
  parameters : List ℚ
  deriving DecidableEq, Repr

/-- The members of `struct LossIndex::FirstOrderError`. -/
structure FirstOrderError where
  error : ℚ
  gradient : List ℚ
  deriving DecidableEq, Repr

/-- The members of `struct LossIndex::SecondOrderErrorTerms`. -/
structure SecondOrderErrorTerms where
  loss : ℚ
  gradient : List ℚ
  Hessian_approximation : Matrix
  deriving DecidableEq, Repr

/-- `FirstOrderError(parameters_number)`. -/
def FirstOrderError.construct (parameters_number : Nat) : FirstOrderError :=
  ⟨0, Vector.set_size_value parameters_number 0⟩

/-- `SecondOrderErrorTerms(parameters_number)`; `set(rows, columns, value)` makes the
default-constructed matrix one of that shape filled with `value`. -/
def SecondOrderErrorTerms.construct (parameters_number : Nat) : SecondOrderErrorTerms :=
  ⟨0, Vector.set_size_value parameters_number 0,
    Matrix.filled parameters_number parameters_number 0⟩

namespace LossIndex

/-- `get_neural_network_pointer()`. -/
def get_neural_network_pointer (debug : Bool) (L : LossIndex) : Except Failure (Option Nat) :=
  if debug = true ∧ L.neural_network_pointer = none then
    .error (.logic_error .loss_index_neural_network)
  else
    .ok L.neural_network_pointer

/-- `get_data_set_pointer()`: the pointer returned and what was written to `cerr`; the `throw`
of the debug block is commented out in the source. -/
def get_data_set_pointer (debug : Bool) (L : LossIndex) : Option Nat × List Message :=
  if debug = true ∧ L.data_set_pointer = none then
    (L.data_set_pointer, [.loss_index_data_set])
  else
    (L.data_set_pointer, [])

/-- Modelled from the spec: `calculate_regularization(parameters)` of `loss_index.cpp`, which is
not among the sources: "L1 (sum of absolute parameter values, subgradient at 0 taken as 0), L2
(sum of squares, smooth), or None (always contributes exactly 0 to loss, gradient, and
Hessian)". -/
def calculate_regularization_at (L : LossIndex) (parameters : List ℚ) : ℚ :=
  match L.regularization_method with
  | .L1 => (parameters.map (fun p => |p|)).sum
  | .L2 => (parameters.map (fun p => p * p)).sum
  | .None => 0

/-- Modelled from the spec: `calculate_regularization_gradient(parameters)` of `loss_index.cpp`:
the sign of each parameter for L1 (0 at 0), twice each parameter for L2, the zero vector for
None. -/
def calculate_regularization_gradient_at (L : LossIndex) (parameters : List ℚ) : List ℚ :=
  match L.regularization_method with
  | .L1 => parameters.map (fun p => if 0 < p then 1 else if p < 0 then -1 else 0)
  | .L2 => parameters.map (fun p => 2 * p)
  | .None => List.replicate parameters.length 0

/-- Modelled from the spec: `calculate_regularization_Hessian(parameters)` of `loss_index.cpp`:
the zero matrix for None; for L1 and L2 the second derivatives of the sums the spec names, zero
and twice the identity. -/
def calculate_regularization_Hessian_at (L : LossIndex) (parameters : List ℚ) :
    Except Failure Matrix :=
  match L.regularization_method with
  | .L1 => .ok (Matrix.filled parameters.length parameters.length 0)
  | .L2 => (Matrix.filled parameters.length parameters.length 0).set_diagonal
      (List.replicate parameters.length 2)
  | .None => .ok (Matrix.filled parameters.length parameters.length 0)

/-- Modelled from the spec: `calculate_training_loss()` of `loss_index.cpp`:
"error(training partition) + regularization_weight × regularization(parameters)". -/
def calculate_training_loss (environment : LossEnvironment) (L : LossIndex) : ℚ :=
  environment.calculate_training_error
    + L.regularization_weight * L.calculate_regularization_at environment.parameters

/-- Modelled from the spec: `calculate_training_loss(parameters)` of `loss_index.cpp`, which
"evaluates at an arbitrary parameter vector without mutating the network's stored parameters
(pure function of input)". -/
def calculate_training_loss_at (environment : LossEnvironment) (L : LossIndex)
    (parameters : List ℚ) : LossEvaluation :=
  ⟨environment.calculate_training_error_at parameters
      + L.regularization_weight * L.calculate_regularization_at parameters,
    environment.parameters⟩

/-- `start_loss_calculation(population)`. -/
def start_loss_calculation (L : LossIndex) (population : Matrix) : LossIndex :=
  { L with m_population := some population }

/-- `calculate_loss_for_individual(i)`; without a population the null pointer is
dereferenced. -/
def calculate_loss_for_individual (environment : LossEnvironment) (L : LossIndex) (i : Nat) :
    Except Failure ℚ :=
  match L.m_population with
  | none => .error .undefined
  | some population => do
    let row ← population.get_row i
    pure (L.calculate_training_loss_at environment row).value

end LossIndex

/-- A confusion matrix of a binary classification as `perform_threshold_selection` reads it:
the elements (0,0), (0,1), (1,0) and (1,1) of `current_confusion`. -/
structure ConfusionMatrix where
  c00 : Nat
  c01 : Nat
  c10 : Nat
  c11 : Nat
  deriving DecidableEq, Repr

/-- The enumeration `ThresholdSelectionAlgorithm::StoppingCondition`, as far as
`perform_threshold_selection` assigns it. -/
inductive StoppingCondition
  | PerfectConfusionMatrix
  | AlgorithmFinished
  deriving DecidableEq, Repr

/-- What `perform_threshold_selection` reaches through the training strategy and the base class
`ThresholdSelectionAlgorithm`, neither of which is among the sources: the number of selection
instances, `calculate_confusion(threshold)` and `calculate_binary_classification_test`, whose
result has fifteen entries, the entry 1 being the one compared. -/
structure SelectionEnvironment where
  selection_instances_number : Nat
  calculate_confusion : ℚ → ConfusionMatrix
  calculate_binary_classification_test : ConfusionMatrix → List ℚ

/-- The members of `KappaCoefficientOptimizationThresholdResults` that
`perform_threshold_selection` fills, and the decision threshold it sets in the probabilistic
layer. A kappa coefficient that is no finite number is `none`. -/
structure KappaCoefficientOptimizationThresholdResults where
  threshold_data : List ℚ
  binary_classification_test_data : List (List ℚ)
  function_data : List (Option ℚ)
  stopping_condition : StoppingCondition
  iterations_number : Nat
  final_threshold : ℚ
  final_function_value : ℚ
  decision_threshold : ℚ
  deriving DecidableEq, Repr

/-- The local variables of `perform_threshold_selection` and the lists of the results, as they
stand at the head of the `while` loop. -/
structure SelectionState where
  current_threshold : ℚ
  optimum_threshold : ℚ
  optimal_binary_classification_test : List ℚ
  optimum_kappa_coefficient : ℚ
  iterations : Nat
  threshold_data : List ℚ
  binary_classification_test_data : List (List ℚ)
  function_data : List (Option ℚ)
  deriving DecidableEq, Repr

/-- A quotient of two `double` values: `none` when the divisor is zero, the result being then
no finite number. -/
def divide (a b : ℚ) : Option ℚ := if b = 0 then none else some (a / b)

namespace KappaCoefficientOptimizationThreshold

/-- The kappa coefficient as the body of the loop computes it from a confusion matrix: `po`,
`prA`, `prB`, `pe` and `(po-pe)/(1-pe)`. Arithmetic on a value that is no finite number gives
no finite number. -/
def kappa_coefficient (instances_number : Nat) (current_confusion : ConfusionMatrix) :
    Option ℚ := do
  let po ← divide ((current_confusion.c00 + current_confusion.c11 : Nat) : ℚ) instances_number
  let prA ← divide ((current_confusion.c00 + current_confusion.c01 : Nat) : ℚ) instances_number
  let prB ← divide ((current_confusion.c00 + current_confusion.c10 : Nat) : ℚ) instances_number
  let pe := prA * prB + (1 - prA) * (1 - prB)
  divide (po - pe) (1 - pe)

/-- The test of the `if` that replaces the optimum. A comparison with a value that is no finite
number is false, as it is for the not-a-number that `0/0` gives; for a confusion matrix whose
entries sum to the number of instances this is the only division by zero there is. -/
def improves (current_kappa_coefficient : Option ℚ) (optimum_kappa_coefficient : ℚ)
    (current_binary_classification_test optimal_binary_classification_test : List ℚ) : Prop :=
  match current_kappa_coefficient with
  | none => False
  | some k =>
    k > optimum_kappa_coefficient ∨
      (|k - optimum_kappa_coefficient| < epsilon ∧
        Vector.item current_binary_classification_test 1
          < Vector.item optimal_binary_classification_test 1)

instance (k : Option ℚ) (o : ℚ) (c t : List ℚ) : Decidable (improves k o c t) := by
  unfold improves
  cases k <;> infer_instance

/-- One pass through the body of the `while` loop: the state at the next head of the loop and,
when `end` was set, the stopping condition. -/
def iterate (K : KappaCoefficientOptimizationThreshold) (environment : SelectionEnvironment)
    (s : SelectionState) : SelectionState × Option StoppingCondition :=
  let current_confusion := environment.calculate_confusion s.current_threshold
  let current_binary_classification_test :=
    environment.calculate_binary_classification_test current_confusion
  let current_kappa_coefficient :=
    kappa_coefficient environment.selection_instances_number current_confusion
  let replace := improves current_kappa_coefficient s.optimum_kappa_coefficient
    current_binary_classification_test s.optimal_binary_classification_test
  let stop : Option StoppingCondition :=
    if current_confusion.c01 = 0 ∧ current_confusion.c10 = 0 then
      some .PerfectConfusionMatrix
    else if |s.current_threshold - K.maximum_threshold| < epsilon then
      some .AlgorithmFinished
    else none
  ({ current_threshold := min K.maximum_threshold (s.current_threshold + K.step)
     optimum_threshold := if replace then s.current_threshold else s.optimum_threshold
     optimal_binary_classification_test :=
       if replace then current_binary_classification_test
       else s.optimal_binary_classification_test
     optimum_kappa_coefficient :=
       if replace then current_kappa_coefficient.getD 0 else s.optimum_kappa_coefficient
     iterations := s.iterations + 1
     threshold_data := s.threshold_data ++ [s.current_threshold]
     binary_classification_test_data :=
       if K.reserve_binary_classification_tests_data = true then
         s.binary_classification_test_data ++ [current_binary_classification_test]
       else s.binary_classification_test_data
     function_data :=
       if K.reserve_function_data = true then s.function_data ++ [current_kappa_coefficient]
       else s.function_data }, stop)

/-- The `while(!end)` loop, run for at most `fuel` passes: `none` when `end` is not set within
them. -/
def selection_loop (K : KappaCoefficientOptimizationThreshold)
    (environment : SelectionEnvironment) :
    Nat → SelectionState → Option (SelectionState × StoppingCondition)
  | 0, _ => none
  | fuel + 1, s =>
    match iterate K environment s with
    | (next, some stop) => some (next, stop)
    | (next, none) => selection_loop K environment fuel next

/-- The variables as `perform_threshold_selection` initialises them before the loop. -/
def initial_state (K : KappaCoefficientOptimizationThreshold) : SelectionState :=
  { current_threshold := K.minimum_threshold
    optimum_threshold := 0
    optimal_binary_classification_test := Vector.set_size_value 15 1
    optimum_kappa_coefficient := 0
    iterations := 0
    threshold_data := []
    binary_classification_test_data := []
    function_data := [] }

/-- `perform_threshold_selection()`, with the loop run for at most `fuel` passes. `check()` of
the debug build belongs to the base class and verifies the pointers, which are taken as set. -/
def perform_threshold_selection (K : KappaCoefficientOptimizationThreshold)
    (environment : SelectionEnvironment) (fuel : Nat) :
    Option KappaCoefficientOptimizationThresholdResults :=
  match selection_loop K environment fuel (initial_state K) with
  | none => none
  | some (s, stop) =>
    some { threshold_data := s.threshold_data
           binary_classification_test_data := s.binary_classification_test_data
           function_data := s.function_data
           stopping_condition := stop
           iterations_number := s.iterations
           final_threshold := s.optimum_threshold
           final_function_value := s.optimum_kappa_coefficient
           decision_threshold := s.optimum_threshold }

/-- The kappa coefficient that the body of the loop computes when the current threshold is
`threshold`. -/
def kappa_at (environment : SelectionEnvironment) (threshold : ℚ) : Option ℚ :=
  kappa_coefficient environment.selection_instances_number
    (environment.calculate_confusion threshold)

/-- No two of the thresholds have kappa coefficients that differ by less than machine epsilon
without being equal. -/
def separated (environment : SelectionEnvironment) (thresholds : List ℚ) : Prop :=
  ∀ t, t ∈ thresholds → ∀ t', t' ∈ thresholds → ∀ k k', kappa_at environment t = some k →
    kappa_at environment t' = some k' → k ≠ k' → epsilon ≤ |k - k'|

/-- The relation between the optimum held at the head of the loop and the thresholds
evaluated so far: either the optimum is still the initial 0 and no evaluated kappa coefficient
is positive, or the optimum is the kappa coefficient of an evaluated threshold and no evaluated
kappa coefficient is larger. -/
def optimum_invariant (environment : SelectionEnvironment) (s : SelectionState) : Prop :=
  (s.optimum_kappa_coefficient = 0 ∧
    ∀ t, t ∈ s.threshold_data → ∀ k, kappa_at environment t = some k → k ≤ 0) ∨
  ((∃ t, t ∈ s.threshold_data ∧ s.optimum_threshold = t ∧
      kappa_at environment t = some s.optimum_kappa_coefficient) ∧
    ∀ t, t ∈ s.threshold_data → ∀ k, kappa_at environment t = some k →
      k ≤ s.optimum_kappa_coefficient)

end KappaCoefficientOptimizationThreshold

/-- An element with one text child, as the serializers of the kappa class write it: the name of
the element and the text. -/
structure XMLTextElement where
  name : String
  text : String
  deriving DecidableEq, Repr

/-- An element with child elements: its name and its children in document order. -/
structure XMLParentElement where
  name : String
  children : List XMLTextElement
  deriving DecidableEq, Repr

/-- A written document of the kappa class: the elements at its top level. -/
structure XMLKappaDocumentText where
  elements : List XMLParentElement
  deriving DecidableEq, Repr

/-- `FirstChildElement(name)` among elements with a text: the first one of that name. -/
def FirstChildElement (children : List XMLTextElement) (name : String) : Option XMLTextElement :=
  children.find? (fun element => element.name = name)

/-- What `from_XML` reads from a written document: the first top-level element named
`KappaCoefficientOptimizationThreshold` and, in it, the first children named `MinimumThreshold`,
`MaximumThreshold`, `Step` and `ReserveFunctionData`, with `atof` of the text for the first
three. -/
def XMLKappaDocumentText.read (format : TextFormat) (document : XMLKappaDocumentText) :
    XMLKappaDocument :=
  ⟨(document.elements.find?
      (fun element => element.name = "KappaCoefficientOptimizationThreshold")).map
    (fun root_element =>
      ⟨(FirstChildElement root_element.children "MinimumThreshold").map
          (fun element => some (format.atof element.text)),
        (FirstChildElement root_element.children "MaximumThreshold").map
          (fun element => some (format.atof element.text)),
        (FirstChildElement root_element.children "Step").map
          (fun element => some (format.atof element.text)),
        (FirstChildElement root_element.children "ReserveFunctionData").map
          (fun element => some element.text)⟩)⟩

namespace KappaCoefficientOptimizationThreshold

/-- `to_XML()`: the root element `KappaCoefficientOptimizationThreshold` with the three settings
as children. -/
def to_XML (format : TextFormat) (K : KappaCoefficientOptimizationThreshold) :
    XMLKappaDocumentText :=
  ⟨[⟨"KappaCoefficientOptimizationThreshold",
      [⟨"MinimumThreshold", format.write_double K.minimum_threshold⟩,
        ⟨"MaximumThreshold", format.write_double K.maximum_threshold⟩,
        ⟨"Step", format.write_double K.step⟩]⟩]⟩

/-- `write_XML(file_stream)`: the elements pushed to the printer, in order. The call that opens
the element `KappaCoefficientOptimizationThreshold` is commented out in the source, so the
elements go into whatever element the caller has open. `buffer << reserve_function_data`
writes a `bool` as `1` or `0`. -/
def write_XML (format : TextFormat) (K : KappaCoefficientOptimizationThreshold) :
    List XMLTextElement :=
  [⟨"MinimumThreshold", format.write_double K.minimum_threshold⟩,
    ⟨"MaximumThreshold", format.write_double K.maximum_threshold⟩,
    ⟨"Strep", format.write_double K.step⟩,
    ⟨"ReserveFunctionData", if K.reserve_function_data = true then "1" else "0"⟩]

/-- The chance agreement `pe` that the body of the loop of `perform_threshold_selection`
computes from `prA` and `prB`, for a number of instances that is not zero. -/
def chance_agreement (instances_number : Nat) (current_confusion : ConfusionMatrix) : ℚ :=
  let prA := ((current_confusion.c00 + current_confusion.c01 : Nat) : ℚ) / instances_number
  let prB := ((current_confusion.c00 + current_confusion.c10 : Nat) : ℚ) / instances_number
  prA * prB + (1 - prA) * (1 - prB)

end KappaCoefficientOptimizationThreshold

/-! ## Lemmas on loops and on the matrix container -/

theorem for_loop_succ {σ : Type} (n : Nat) (body : Nat → σ → Except Failure σ) (init : σ) :
    for_loop (n + 1) body init = (for_loop n body init) >>= body n := by
  unfold for_loop
  rw [List.range_succ, List.foldlM_append]
  simp

theorem for_loop_invariant {σ : Type} (P : Nat → σ → Prop) (n : Nat)
    (body : Nat → σ → Except Failure σ) (init : σ) (h0 : P 0 init)
    (hstep : ∀ i s, i < n → P i s → ∃ s', body i s = .ok s' ∧ P (i + 1) s') :
    ∃ s', for_loop n body init = .ok s' ∧ P n s' := by
  induction n with
  | zero => exact ⟨init, rfl, h0⟩
  | succ k ih =>
    obtain ⟨s, hs, hP⟩ := ih (fun i s hi => hstep i s (Nat.lt_succ_of_lt hi))
    obtain ⟨s', hs', hP'⟩ := hstep k s (Nat.lt_succ_self k) hP
    refine ⟨s', ?_, hP'⟩
    rw [for_loop_succ, hs]
    exact hs'

namespace Matrix

theorem linear_lt {R C i j : Nat} (hi : i < R) (hj : j < C) : R * j + i < R * C := by
  calc R * j + i < R * j + R := by omega
    _ = R * (j + 1) := by ring
    _ ≤ R * C := Nat.mul_le_mul_left R hj

theorem linear_inj {R i j i' j' : Nat} (hi : i < R) (hi' : i' < R)
    (h : R * j + i = R * j' + i') : i = i' ∧ j = j' := by
  have h1 : (R * j + i) % R = (R * j' + i') % R := by rw [h]
  rw [Nat.mul_add_mod, Nat.mul_add_mod, Nat.mod_eq_of_lt hi, Nat.mod_eq_of_lt hi'] at h1
  subst h1
  have h2 : R * j = R * j' := by omega
  have hR : 0 < R := by omega
  exact ⟨rfl, Nat.eq_of_mul_eq_mul_left hR h2⟩

theorem write_spec (m : Matrix) {R C i j : Nat} (hs : m.shaped R C) (hi : i < R) (hj : j < C)
    (v : ℚ) :
    ∃ m', m.write i j v = .ok m' ∧ m'.shaped R C ∧ m'.read i j = .ok v ∧
      ∀ i' j', i' < R → ¬ (i' = i ∧ j' = j) → m'.read i' j' = m.read i' j' := by
  obtain ⟨hr, hc, hl⟩ := hs
  have hlt : m.rows_number * j + i < m.data.length := by
    rw [hr, hl]; exact linear_lt hi hj
  refine ⟨{ m with data := m.data.set (m.rows_number * j + i) v }, ?_, ?_, ?_, ?_⟩
  · simp [write, hlt]
  · exact ⟨hr, hc, by simp [hl]⟩
  · simp [read, Vector.read, hlt]
  · intro i' j' hi' hne
    have hidx : m.rows_number * j + i ≠ m.rows_number * j' + i' := by
      intro h
      rw [hr] at h
      obtain ⟨h1, h2⟩ := linear_inj hi hi' h
      exact hne ⟨h1.symm, h2.symm⟩
    simp [read, Vector.read, List.getElem?_set_ne hidx]

end Matrix

/-! ## The clamp -/

theorem Vector.read_of_lt {v : List ℚ} {i : Nat} (h : i < v.length) :
    Vector.read v i = .ok (Vector.item v i) := by
  simp [Vector.read, Vector.item, List.getElem?_eq_getElem h]

namespace Matrix

theorem read_of_shaped {m : Matrix} {R C i j : Nat} (hs : m.shaped R C) (hi : i < R)
    (hj : j < C) : m.read i j = .ok (m.cell i j) := by
  obtain ⟨hr, _, hl⟩ := hs
  have hlt : m.rows_number * j + i < m.data.length := by
    rw [hr, hl]; exact linear_lt hi hj
  simp [read, cell, Vector.read, List.getElem?_eq_getElem hlt]

theorem shaped_of_valid {m : Matrix} (h : m.valid) :
    m.shaped m.rows_number m.columns_number := ⟨rfl, rfl, h⟩

end Matrix

namespace BoundingLayer

end BoundingLayer

namespace BoundingLayer

end BoundingLayer

theorem Matrix.filled_shaped (R C : Nat) (x : ℚ) : (Matrix.filled R C x).shaped R C :=
  ⟨rfl, rfl, by simp [Matrix.filled]⟩

namespace BoundingLayer

/-- C5. The code at a two-row input: with lower bound -1 and upper bound 1 the rows 0 and 5
give the outputs 0 and 1; the second output equals the upper bound, yet
`calculate_second_derivatives` returns the zero matrix, its loop having compared only the first
stored output with the bounds. On the single row 5 it throws. -/
theorem calculate_second_derivatives_skips_rows :
    (BoundingLayer.mk [-1] [1] .Bounding true).calculate_outputs false ⟨2, 1, [0, 5]⟩
      = .ok ⟨2, 1, [0, 1]⟩ ∧
    Matrix.read ⟨2, 1, [0, 1]⟩ 1 0 = .ok 1 ∧ Vector.read [1] 0 = .ok 1 ∧
    (BoundingLayer.mk [-1] [1] .Bounding true).calculate_second_derivatives false
      ⟨2, 1, [0, 5]⟩ = .ok ⟨2, 1, [0, 0]⟩ ∧
    (BoundingLayer.mk [-1] [1] .Bounding true).calculate_second_derivatives false
      ⟨1, 1, [5]⟩ = .error (.logic_error .equal_upper_bound) := by
  decide!

/-- C6. The code at a two-row, two-neuron input: with bounds [0, 10] and [5, 20] the rows
(1, 7) and (5, 8) are their own outputs and none of them is within machine epsilon of a bound
of its own neuron, yet `calculate_second_derivatives` throws: its loop compares the second
stored output, the element 5 of row 1 and neuron 0, with the lower bound 5 of neuron 1. -/
theorem calculate_second_derivatives_wrong_neuron :
    (BoundingLayer.mk [0, 5] [10, 20] .Bounding true).calculate_outputs false
      ⟨2, 2, [1, 5, 7, 8]⟩ = .ok ⟨2, 2, [1, 5, 7, 8]⟩ ∧
    (∀ i, i < 2 → ∀ j, j < 2 →
      epsilon ≤ |Matrix.cell ⟨2, 2, [1, 5, 7, 8]⟩ i j - Vector.item [0, 5] j| ∧
      epsilon ≤ |Matrix.cell ⟨2, 2, [1, 5, 7, 8]⟩ i j - Vector.item [10, 20] j|) ∧
    (BoundingLayer.mk [0, 5] [10, 20] .Bounding true).calculate_second_derivatives false
      ⟨2, 2, [1, 5, 7, 8]⟩ = .error (.logic_error .equal_lower_bound) := by
  decide!

/-- C10. The code with the debug checks: a two-row input of the right width (one column for
one neuron) is rejected, and a two-row input of the wrong width (one column for two neurons) is
accepted, the guard comparing the number of stored elements with the number of neurons. -/
theorem calculate_outputs_guard_counts_elements :
    (BoundingLayer.mk [-1] [1] .Bounding true).get_bounding_neurons_number = 1 ∧
    (BoundingLayer.mk [-1] [1] .Bounding true).calculate_outputs true ⟨2, 1, [0, 5]⟩
      = .error (.logic_error .inputs_size) ∧
    (BoundingLayer.mk [-1, -1] [1, 1] .Bounding true).get_bounding_neurons_number = 2 ∧
    (BoundingLayer.mk [-1, -1] [1, 1] .Bounding true).calculate_outputs true ⟨2, 1, [0, 5]⟩
      = .ok ⟨2, 1, [0, 1]⟩ := by
  decide

/-! ## Pruning a neuron -/

theorem prune_bounding_neuron_of_lt (debug : Bool) (L : BoundingLayer) (k : Nat)
    (hk : k < L.get_bounding_neurons_number)
    (hupper : L.upper_bounds.length = L.lower_bounds.length) :
    L.prune_bounding_neuron debug k = Outcome.returned
      { L with lower_bounds := L.lower_bounds.eraseIdx k
               upper_bounds := L.upper_bounds.eraseIdx k } := by
  unfold get_bounding_neurons_number at hk
  have hk2 : k < L.upper_bounds.length := by omega
  unfold prune_bounding_neuron
  rw [if_neg (by unfold get_bounding_neurons_number; rintro ⟨_, h⟩; omega)]
  simp [Vector.erase, hk, hk2]

/-- C7. For a layer with n neurons and an index k < n, `prune_bounding_neuron(k)` returns and
leaves exactly n-1 neurons: the lower and upper bound at every index i < k are the former ones,
those at every index i >= k are the former ones of index i+1, and the bounding method is the
former one. -/
theorem prune_bounding_neuron_shifts (debug : Bool) (L : BoundingLayer) (k : Nat)
    (hk : k < L.get_bounding_neurons_number)
    (hupper : L.upper_bounds.length = L.lower_bounds.length) :
    (L.prune_bounding_neuron debug k).thrown = none ∧
    (L.prune_bounding_neuron debug k).layer.get_bounding_neurons_number
      = L.get_bounding_neurons_number - 1 ∧
    (L.prune_bounding_neuron debug k).layer.upper_bounds.length
      = L.get_bounding_neurons_number - 1 ∧
    (∀ i, i < k →
      (L.prune_bounding_neuron debug k).layer.lower_bounds[i]? = L.lower_bounds[i]? ∧
      (L.prune_bounding_neuron debug k).layer.upper_bounds[i]? = L.upper_bounds[i]?) ∧
    (∀ i, k ≤ i →
      (L.prune_bounding_neuron debug k).layer.lower_bounds[i]? = L.lower_bounds[i + 1]? ∧
      (L.prune_bounding_neuron debug k).layer.upper_bounds[i]? = L.upper_bounds[i + 1]?) ∧
    (L.prune_bounding_neuron debug k).layer.bounding_method = L.bounding_method ∧
    (L.prune_bounding_neuron debug k).layer.display = L.display := by
  rw [prune_bounding_neuron_of_lt debug L k hk hupper]
  unfold get_bounding_neurons_number at hk ⊢
  have hk2 : k < L.upper_bounds.length := by omega
  refine ⟨rfl, ?_, ?_, ?_, ?_, rfl, rfl⟩
  · simp [Outcome.returned, List.length_eraseIdx_of_lt hk]
  · simp [Outcome.returned, List.length_eraseIdx_of_lt hk2, hupper]
  · intro i hi
    exact ⟨List.getElem?_eraseIdx_of_lt _ _ _ hi, List.getElem?_eraseIdx_of_lt _ _ _ hi⟩
  · intro i hi
    exact ⟨List.getElem?_eraseIdx_of_ge _ _ _ hi, List.getElem?_eraseIdx_of_ge _ _ _ hi⟩

/-- C7, at the layer with the pairs (1,10), (2,20), (3,30), pruned at index 1. -/
theorem prune_bounding_neuron_shifts_witness :
    (BoundingLayer.mk [1, 2, 3] [10, 20, 30] .NoBounding false).prune_bounding_neuron false 1
      = ⟨⟨[1, 3], [10, 30], .NoBounding, false⟩, none⟩ ∧
    ((BoundingLayer.mk [1, 2, 3] [10, 20, 30] .NoBounding false).prune_bounding_neuron
      true 1).layer.get_bounding_neurons_number = 3 - 1 :=
  ⟨by decide, (prune_bounding_neuron_shifts true ⟨[1, 2, 3], [10, 20, 30], .NoBounding, false⟩ 1
    (by decide) (by decide)).2.1⟩

/-- C8. With the debug checks enabled `prune_bounding_neuron(index)` throws if and only if
`index` is at least the number of bounding neurons, hence for every index on an empty layer,
and then the layer is unchanged; on a layer whose two bound vectors have one length the call
does not end in any other way than by returning or by that exception. -/
theorem prune_bounding_neuron_throws_iff (L : BoundingLayer) (index : Nat) :
    ((L.prune_bounding_neuron true index).thrown = some (.logic_error .prune_index) ↔
      L.get_bounding_neurons_number ≤ index) ∧
    (L.get_bounding_neurons_number ≤ index → (L.prune_bounding_neuron true index).layer = L) ∧
    (L.get_bounding_neurons_number = 0 →
      L.prune_bounding_neuron true index = ⟨L, some (.logic_error .prune_index)⟩) ∧
    (L.upper_bounds.length = L.lower_bounds.length →
      ((L.prune_bounding_neuron true index).thrown ≠ none ↔
        L.get_bounding_neurons_number ≤ index)) := by
  have hthrow : L.get_bounding_neurons_number ≤ index →
      L.prune_bounding_neuron true index = ⟨L, some (.logic_error .prune_index)⟩ := by
    intro h
    unfold prune_bounding_neuron
    rw [if_pos ⟨rfl, h⟩]
    rfl
  refine ⟨⟨?_, fun h => by rw [hthrow h]⟩, fun h => by rw [hthrow h], ?_, ?_⟩
  · intro h
    by_contra hlt
    have hlt2 : index < L.lower_bounds.length := by
      unfold get_bounding_neurons_number at hlt; omega
    unfold prune_bounding_neuron at h
    rw [if_neg (by rintro ⟨_, h2⟩; exact hlt h2)] at h
    simp only [Vector.erase, hlt2, if_true] at h
    split at h <;> simp [Outcome.returned, Outcome.undefined_at] at h
  · intro h
    exact hthrow (by omega)
  · intro hupper
    constructor
    · intro h
      by_contra hlt
      rw [prune_bounding_neuron_of_lt true L index (by omega) hupper] at h
      exact h rfl
    · intro h
      rw [hthrow h]
      simp

/-- C8, at a layer with two neurons: index 2 throws and leaves the layer as it was, index 1
does not. -/
theorem prune_bounding_neuron_throws_iff_witness :
    (BoundingLayer.mk [1, 2] [10, 20] .Bounding true).prune_bounding_neuron true 2
      = ⟨⟨[1, 2], [10, 20], .Bounding, true⟩, some (.logic_error .prune_index)⟩ ∧
    ((BoundingLayer.mk [1, 2] [10, 20] .Bounding true).prune_bounding_neuron true 1).thrown
      ≠ some (.logic_error .prune_index) :=
  ⟨by decide, fun h => absurd
    ((prune_bounding_neuron_throws_iff ⟨[1, 2], [10, 20], .Bounding, true⟩ 1).1.1 h)
    (by decide)⟩

end BoundingLayer

/-! ## The length invariant -/

theorem Vector.length_set_size (v : List ℚ) (n : Nat) : (Vector.set_size v n).length = n := by
  simp [Vector.set_size]
  omega

namespace BoundingLayer

/-- The loop over the items changes no length. -/
theorem from_XML_items_lengths (todo i index : Nat) (siblings : List XMLItem)
    (L : BoundingLayer) :
    (from_XML_items todo i index siblings L).layer.lower_bounds.length = L.lower_bounds.length ∧
    (from_XML_items todo i index siblings L).layer.upper_bounds.length
      = L.upper_bounds.length := by
  induction todo generalizing i index siblings L with
  | zero => exact ⟨rfl, rfl⟩
  | succ n ih =>
    unfold from_XML_items
    cases siblings with
    | nil => exact ⟨rfl, rfl⟩
    | cons item rest =>
      simp only
      split_ifs with h
      · exact ⟨rfl, rfl⟩
      · obtain ⟨h1, h2⟩ := ih (i + 1) (item.index.getD index) rest
          (match item.upper_bound with
            | some x =>
              { (match item.lower_bound with
                  | some x => { L with lower_bounds :=
                      L.lower_bounds.set (item.index.getD index - 1) x }
                  | none => L) with
                upper_bounds := (match item.lower_bound with
                  | some x => { L with lower_bounds :=
                      L.lower_bounds.set (item.index.getD index - 1) x }
                  | none => L).upper_bounds.set (item.index.getD index - 1) x }
            | none => (match item.lower_bound with
                  | some x => { L with lower_bounds :=
                      L.lower_bounds.set (item.index.getD index - 1) x }
                  | none => L))
        rw [h1, h2]
        cases item.lower_bound <;> cases item.upper_bound <;> simp

theorem from_XML_lengths (L : BoundingLayer) (document : XMLDocument)
    (h : L.upper_bounds.length = L.lower_bounds.length) :
    (L.from_XML document).layer.upper_bounds.length
      = (L.from_XML document).layer.lower_bounds.length := by
  unfold from_XML
  cases document.bounding_layer with
  | none => exact h
  | some e =>
    simp only
    cases e.bounding_neurons_number with
    | none => exact h
    | some t =>
      cases t with
      | none => exact h
      | some n =>
        simp only
        have hl := from_XML_items_lengths (L.set_size n).lower_bounds.length 0 0 e.items
          (L.set_size n)
        have h0 : (L.set_size n).upper_bounds.length = (L.set_size n).lower_bounds.length := by
          simp [set_size, set_default, Vector.length_set_size]
        generalize from_XML_items (L.set_size n).lower_bounds.length 0 0 e.items
          (L.set_size n) = o at hl
        have ho : o.layer.upper_bounds.length = o.layer.lower_bounds.length := by
          rw [hl.1, hl.2]; exact h0
        unfold Outcome.andThen
        cases o.thrown with
        | some _ => exact ho
        | none =>
          simp only
          cases e.use_bounding_layer with
          | none => exact ho
          | some t =>
            cases t with
            | none => exact ho
            | some m =>
              simp only
              split_ifs <;> exact ho

theorem set_lower_bounds_lengths (L : BoundingLayer) (v : List ℚ)
    (h : L.upper_bounds.length = L.lower_bounds.length) :
    (L.set_lower_bounds true v).layer.upper_bounds.length
      = (L.set_lower_bounds true v).layer.lower_bounds.length := by
  unfold set_lower_bounds
  split_ifs with hc
  · exact h
  · have hv : v.length = L.lower_bounds.length := by
      by_contra hne
      exact hc ⟨rfl, hne⟩
    simp [Outcome.returned, h, hv]

theorem set_upper_bounds_lengths (L : BoundingLayer) (v : List ℚ)
    (h : L.upper_bounds.length = L.lower_bounds.length) :
    (L.set_upper_bounds true v).layer.upper_bounds.length
      = (L.set_upper_bounds true v).layer.lower_bounds.length := by
  unfold set_upper_bounds
  split_ifs with hc
  · exact h
  · have hv : v.length = L.lower_bounds.length := by
      by_contra hne
      exact hc ⟨rfl, hne⟩
    simp [Outcome.returned, hv]

theorem set_lower_bound_lengths (debug : Bool) (L : BoundingLayer) (index : Nat) (x : ℚ)
    (h : L.upper_bounds.length = L.lower_bounds.length) :
    (L.set_lower_bound debug index x).layer.upper_bounds.length
      = (L.set_lower_bound debug index x).layer.lower_bounds.length := by
  unfold set_lower_bound
  simp only [get_bounding_neurons_number, ne_eq, not_true_eq_false, if_false]
  split_ifs with hc
  · exact h
  · unfold Vector.write
    split_ifs <;> simp [Outcome.returned, Outcome.undefined_at, h]

theorem set_upper_bound_lengths (debug : Bool) (L : BoundingLayer) (index : Nat) (x : ℚ)
    (h : L.upper_bounds.length = L.lower_bounds.length) :
    (L.set_upper_bound debug index x).layer.upper_bounds.length
      = (L.set_upper_bound debug index x).layer.lower_bounds.length := by
  unfold set_upper_bound
  simp only [get_bounding_neurons_number, ne_eq, h, not_true_eq_false, if_false]
  split_ifs with hc
  · exact h
  · unfold Vector.write
    split_ifs <;> simp [Outcome.returned, Outcome.undefined_at, h]

theorem set_bounds_lengths (L : BoundingLayer) (b : List (List ℚ))
    (h : L.upper_bounds.length = L.lower_bounds.length) :
    (L.set_bounds true b).layer.upper_bounds.length
      = (L.set_bounds true b).layer.lower_bounds.length := by
  unfold set_bounds
  simp only
  split_ifs with h1 h2
  · exact h
  · exact h
  · cases h0 : b[0]? with
    | none => exact h
    | some row0 =>
      simp only
      have hl := set_lower_bounds_lengths L row0 h
      unfold Outcome.andThen
      cases (L.set_lower_bounds true row0).thrown with
      | some _ => exact hl
      | none =>
        simp only
        cases b[1]? with
        | none => exact hl
        | some row1 => exact set_upper_bounds_lengths _ row1 hl

theorem prune_bounding_neuron_lengths (debug : Bool) (L : BoundingLayer) (index : Nat)
    (h : L.upper_bounds.length = L.lower_bounds.length)
    (hdef : (L.prune_bounding_neuron debug index).thrown ≠ some .undefined) :
    (L.prune_bounding_neuron debug index).layer.upper_bounds.length
      = (L.prune_bounding_neuron debug index).layer.lower_bounds.length := by
  by_cases hlt : index < L.get_bounding_neurons_number
  · rw [prune_bounding_neuron_of_lt debug L index hlt h]
    unfold get_bounding_neurons_number at hlt
    simp [Outcome.returned, List.length_eraseIdx_of_lt hlt,
      List.length_eraseIdx_of_lt (show index < L.upper_bounds.length by omega), h]
  · unfold prune_bounding_neuron at hdef ⊢
    split_ifs at hdef ⊢ with hc
    · exact h
    · unfold get_bounding_neurons_number at hlt
      simp [Vector.erase, hlt, Outcome.undefined_at] at hdef

/-- With the debug checks enabled every reachable layer has bound vectors of one length. -/
theorem reachable_lengths {L : BoundingLayer} (h : Reachable true L) :
    L.upper_bounds.length = L.lower_bounds.length := by
  induction h with
  | construct method display => rfl
  | construct_size method display n =>
    simp [construct_size, set_default, set_size, Vector.length_set_size]
  | construct_document method display document _ =>
    exact from_XML_lengths _ document rfl
  | construct_copy method display other _ ih => exact ih
  | set L _ ih => simp [set, set_default, Vector.length_set_size]
  | set_size L n _ ih => simp [set_size, set_default, Vector.length_set_size]
  | set_document L document _ _ ih => exact from_XML_lengths _ document ih
  | set_other L other _ _ _ ih => exact ih
  | assign L other _ _ _ ih => exact ih
  | set_bounding_method L m _ ih => exact ih
  | set_display L d _ ih => exact ih
  | set_default L _ ih => exact ih
  | set_lower_bounds L v _ ih => exact set_lower_bounds_lengths L v ih
  | set_upper_bounds L v _ ih => exact set_upper_bounds_lengths L v ih
  | set_lower_bound L i x _ _ ih => exact set_lower_bound_lengths true L i x ih
  | set_upper_bound L i x _ _ ih => exact set_upper_bound_lengths true L i x ih
  | set_bounds L b _ _ ih => exact set_bounds_lengths L b ih
  | prune_bounding_neuron L i _ hdef ih => exact prune_bounding_neuron_lengths true L i ih hdef
  | from_XML L document _ _ ih => exact from_XML_lengths L document ih

/-- C9, as stated, fails in the build without the debug checks: after the default constructor,
`set_lower_bounds` with a vector of one element leaves one lower bound and no upper bound. -/
theorem lengths_differ_without_debug :
    Reachable false (BoundingLayer.mk [1] [] .Bounding true) ∧
    (BoundingLayer.mk [1] [] .Bounding true).lower_bounds.length
      ≠ (BoundingLayer.mk [1] [] .Bounding true).upper_bounds.length :=
  ⟨Reachable.set_lower_bounds (construct .Bounding true) [1]
    (Reachable.construct .Bounding true), by decide⟩

/-- C9, amended. With the debug checks enabled, after every sequence of constructors and public
mutators (`set`, `set(n)`, `set_lower_bounds`, `set_upper_bounds`, `set_lower_bound`,
`set_upper_bound`, `set_bounds`, `prune_bounding_neuron`, assignment, `from_XML`, and the other
setters), `lower_bounds` and `upper_bounds` have identical length, and that length is what
`get_bounding_neurons_number` returns. -/
theorem length_invariant (L : BoundingLayer) (h : Reachable true L) :
    L.lower_bounds.length = L.upper_bounds.length ∧
    L.get_bounding_neurons_number = L.lower_bounds.length ∧
    L.get_bounding_neurons_number = L.upper_bounds.length :=
  ⟨(reachable_lengths h).symm, rfl, (reachable_lengths h).symm⟩

/-- C9, amended, at the layer built by the size constructor with three neurons, then
`set_bounds` with two rows of three values, then `prune_bounding_neuron(0)`. -/
theorem length_invariant_witness :
    ((BoundingLayer.set_bounds true (construct_size .NoBounding false 3)
        [[1, 2, 3], [4, 5, 6]]).layer.prune_bounding_neuron true 0).layer
      = ⟨[2, 3], [5, 6], .Bounding, true⟩ ∧
    (BoundingLayer.mk [2, 3] [5, 6] .Bounding true).lower_bounds.length
      = (BoundingLayer.mk [2, 3] [5, 6] .Bounding true).upper_bounds.length ∧
    (BoundingLayer.mk [2, 3] [5, 6] .Bounding true).get_bounding_neurons_number = 2 :=
  have hrun : ((BoundingLayer.set_bounds true (construct_size .NoBounding false 3)
        [[1, 2, 3], [4, 5, 6]]).layer.prune_bounding_neuron true 0).layer
      = ⟨[2, 3], [5, 6], .Bounding, true⟩ := by decide
  have hreach : Reachable true (BoundingLayer.mk [2, 3] [5, 6] .Bounding true) :=
    hrun ▸ Reachable.prune_bounding_neuron _ 0
      (Reachable.set_bounds _ [[1, 2, 3], [4, 5, 6]]
        (Reachable.construct_size .NoBounding false 3) (by decide)) (by decide)
  ⟨hrun, (length_invariant _ hreach).1, (length_invariant _ hreach).2.1⟩

end BoundingLayer

/-! ## The Jacobian and the Hessian form -/

theorem Matrix.filled_read {R C i j : Nat} (x : ℚ) (hi : i < R) (hj : j < C) :
    (Matrix.filled R C x).read i j = .ok x := by
  have hlt : R * j + i < R * C := Matrix.linear_lt hi hj
  simp [Matrix.filled, Matrix.read, Vector.read, List.getElem?_replicate, hlt]

theorem Matrix.set_diagonal_spec (m : Matrix) (d : List ℚ) {n : Nat} (hs : m.shaped n n)
    (hd : n ≤ d.length) :
    ∃ out, m.set_diagonal d = .ok out ∧ out.shaped n n ∧
      ∀ i j, i < n → j < n →
        out.read i j = if i = j then .ok (Vector.item d i) else m.read i j := by
  unfold Matrix.set_diagonal
  rw [hs.1]
  obtain ⟨out, hrun, hshape, hcells⟩ := for_loop_invariant
    (fun p e => e.shaped n n ∧ ∀ i j, i < n → j < n →
      e.read i j = if i = j ∧ i < p then .ok (Vector.item d i) else m.read i j)
    n (fun i diagonal => do
      let x ← Vector.read d i
      diagonal.write i i x) m
    ⟨hs, fun i j _ _ => by simp⟩
    (by
      intro p e hp ⟨he, hecells⟩
      have hx : Vector.read d p = .ok (Vector.item d p) := Vector.read_of_lt (by omega)
      obtain ⟨e', hrun, he', hset, hkeep⟩ := Matrix.write_spec e he hp hp (Vector.item d p)
      refine ⟨e', ?_, he', ?_⟩
      · simp only [hx, bind, Except.bind]
        exact hrun
      · intro i j hi hj
        by_cases hsame : i = p ∧ j = p
        · obtain ⟨h1, h2⟩ := hsame
          subst h1; subst h2
          rw [hset]; simp
        · rw [hkeep i j hi hsame, hecells i j hi hj]
          have : (i = j ∧ i < p + 1) ↔ (i = j ∧ i < p) := by
            constructor
            · rintro ⟨h1, h2⟩
              refine ⟨h1, ?_⟩
              have : i ≠ p := fun h => hsame ⟨h, h1 ▸ h⟩
              omega
            · rintro ⟨h1, h2⟩
              exact ⟨h1, by omega⟩
          simp only [this])
  refine ⟨out, hrun, hshape, ?_⟩
  intro i j hi hj
  rw [hcells i j hi hj]
  by_cases h : i = j
  · simp [h, hj]
  · simp [h]

namespace BoundingLayer

/-- C11. For a layer with n neurons and a derivative vector d of length n,
`calculate_Jacobian(d)` is the n-by-n matrix with entry (i,i) equal to `d[i]` and every
off-diagonal entry equal to 0.0; with the debug checks enabled it throws when the length of d
differs from n. -/
theorem calculate_Jacobian_diagonal (debug : Bool) (L : BoundingLayer) (derivatives : List ℚ) :
    (derivatives.length = L.get_bounding_neurons_number →
      ∃ J, L.calculate_Jacobian debug derivatives = .ok J ∧
        J.rows_number = L.get_bounding_neurons_number ∧
        J.columns_number = L.get_bounding_neurons_number ∧ J.valid ∧
        (∀ i, i < L.get_bounding_neurons_number →
          ∃ x, Vector.read derivatives i = .ok x ∧ J.read i i = .ok x) ∧
        (∀ i j, i < L.get_bounding_neurons_number → j < L.get_bounding_neurons_number →
          i ≠ j → J.read i j = .ok 0)) ∧
    (derivatives.length ≠ L.get_bounding_neurons_number →
      L.calculate_Jacobian true derivatives = .error (.logic_error .derivatives_size)) := by
  constructor
  · intro hlen
    obtain ⟨J, hrun, hshape, hcells⟩ := Matrix.set_diagonal_spec
      (Matrix.filled L.get_bounding_neurons_number L.get_bounding_neurons_number 0) derivatives
      (Matrix.filled_shaped _ _ _) (le_of_eq hlen.symm)
    refine ⟨J, ?_, hshape.1, hshape.2.1, ?_, ?_, ?_⟩
    · unfold calculate_Jacobian
      simp only [hlen, ne_eq, not_true_eq_false, and_false, if_false]
      exact hrun
    · unfold Matrix.valid; rw [hshape.1, hshape.2.1]; exact hshape.2.2
    · intro i hi
      refine ⟨_, Vector.read_of_lt (by omega), ?_⟩
      rw [hcells i i hi hi]; simp
    · intro i j hi hj hne
      rw [hcells i j hi hj, if_neg hne]
      exact Matrix.filled_read 0 hi hj
  · intro hlen
    unfold calculate_Jacobian
    simp [hlen]

/-- C11, at a layer with two neurons: the derivatives 4 and 5 give the matrix with rows (4, 0)
and (0, 5), and three derivatives are refused by the debug check. -/
theorem calculate_Jacobian_diagonal_witness :
    (BoundingLayer.mk [-1, 0] [1, 3] .Bounding true).calculate_Jacobian false [4, 5]
      = .ok ⟨2, 2, [4, 0, 0, 5]⟩ ∧
    (∃ J, (BoundingLayer.mk [-1, 0] [1, 3] .Bounding true).calculate_Jacobian true [4, 5]
        = .ok J ∧ J.rows_number = 2 ∧ J.columns_number = 2 ∧ J.valid ∧
      (∀ i, i < 2 → ∃ x, Vector.read [4, 5] i = .ok x ∧ J.read i i = .ok x) ∧
      (∀ i j, i < 2 → j < 2 → i ≠ j → J.read i j = .ok 0)) ∧
    (BoundingLayer.mk [-1, 0] [1, 3] .Bounding true).calculate_Jacobian true [4, 5, 6]
      = .error (.logic_error .derivatives_size) :=
  ⟨by decide,
    (calculate_Jacobian_diagonal true ⟨[-1, 0], [1, 3], .Bounding, true⟩ [4, 5]).1 (by decide),
    (calculate_Jacobian_diagonal true ⟨[-1, 0], [1, 3], .Bounding, true⟩ [4, 5, 6]).2
      (by decide)⟩

theorem calculate_Hessian_eq (L : BoundingLayer) (derivatives : List ℚ) :
    L.calculate_Hessian derivatives = .ok (List.replicate L.get_bounding_neurons_number
      (Matrix.filled L.get_bounding_neurons_number L.get_bounding_neurons_number 0)) := by
  unfold calculate_Hessian
  generalize L.get_bounding_neurons_number = n
  obtain ⟨H, hrun, hlen, hitems⟩ := for_loop_invariant
    (fun p (H : List Matrix) => H.length = n ∧ ∀ k, k < n →
      H[k]? = some (if k < p then Matrix.filled n n 0 else Matrix.empty))
    n (fun i bounded_Hessian =>
      if i < bounded_Hessian.length then
        .ok (bounded_Hessian.set i (Matrix.filled n n 0))
      else .error .undefined)
    (List.replicate n Matrix.empty)
    ⟨by simp, fun k hk => by simp [List.getElem?_replicate, hk]⟩
    (by
      intro p H hp ⟨hlen, hitems⟩
      refine ⟨H.set p (Matrix.filled n n 0), by simp [hlen, hp], by simp [hlen], ?_⟩
      intro k hk
      by_cases hkp : k = p
      · subst hkp
        simp [hlen, hk]
      · rw [List.getElem?_set_ne (fun h => hkp h.symm), hitems k hk]
        have : (k < p + 1) ↔ (k < p) := by omega
        simp only [this])
  rw [hrun]
  congr 1
  apply List.ext_getElem?
  intro k
  by_cases hk : k < n
  · rw [hitems k hk]
    simp [List.getElem?_replicate, hk]
  · rw [List.getElem?_eq_none (by omega), List.getElem?_eq_none (by simp; omega)]

/-- C12. For a layer with n neurons and any argument vector, `calculate_Hessian` returns
exactly n matrices, each n-by-n with every entry 0.0, and the result is the same for any other
argument and any other layer with n neurons, whatever its bounds. -/
theorem calculate_Hessian_zero (L : BoundingLayer) (derivatives : List ℚ) :
    ∃ H, L.calculate_Hessian derivatives = .ok H ∧
      H.length = L.get_bounding_neurons_number ∧
      (∀ M, M ∈ H → M.rows_number = L.get_bounding_neurons_number ∧
        M.columns_number = L.get_bounding_neurons_number ∧ M.valid ∧ ∀ x, x ∈ M.data → x = 0) ∧
      ∀ (other : BoundingLayer) (argument : List ℚ),
        other.get_bounding_neurons_number = L.get_bounding_neurons_number →
        other.calculate_Hessian argument = .ok H := by
  refine ⟨_, calculate_Hessian_eq L derivatives, by simp, ?_, ?_⟩
  · intro M hM
    rw [List.eq_of_mem_replicate hM]
    refine ⟨rfl, rfl, ?_, ?_⟩
    · simp [Matrix.valid, Matrix.filled]
    · intro x hx
      exact List.eq_of_mem_replicate hx
  · intro other argument hn
    rw [calculate_Hessian_eq other argument, hn]

/-- C12, at a layer with two neurons and at the empty layer. -/
theorem calculate_Hessian_zero_witness :
    (BoundingLayer.mk [-1, 0] [1, 3] .Bounding true).calculate_Hessian [7]
      = .ok [⟨2, 2, [0, 0, 0, 0]⟩, ⟨2, 2, [0, 0, 0, 0]⟩] ∧
    (BoundingLayer.mk [] [] .Bounding true).calculate_Hessian [7] = .ok [] ∧
    ∃ H, (BoundingLayer.mk [-1, 0] [1, 3] .Bounding true).calculate_Hessian [7] = .ok H ∧
      H.length = 2 :=
  ⟨by decide, by decide,
    (calculate_Hessian_zero ⟨[-1, 0], [1, 3], .Bounding, true⟩ [7]).imp
      (fun _ h => ⟨h.1, h.2.1⟩)⟩

/-! ## Comparison, copies, the method name and the constructors -/

/-- C15. The code at two layers that differ in `bounding_method` only: `operator ==` returns
true, the comparison reading `lower_bounds`, `upper_bounds` and `display`. -/
theorem equal_to_ignores_bounding_method :
    (BoundingLayer.mk [-1] [1] .Bounding true).equal_to
      (BoundingLayer.mk [-1] [1] .NoBounding true) = true ∧
    (BoundingLayer.mk [-1] [1] .Bounding true).bounding_method
      ≠ (BoundingLayer.mk [-1] [1] .NoBounding true).bounding_method ∧
    ∀ a b : BoundingLayer, a.equal_to b = true ↔
      (a.lower_bounds = b.lower_bounds ∧ a.upper_bounds = b.upper_bounds ∧
        a.display = b.display) := by
  refine ⟨by decide, by decide, ?_⟩
  intro a b
  unfold equal_to
  split_ifs with h
  · simp [h]
  · simp only [Bool.false_eq_true, false_iff]
    exact h

/-- C16. The code at a copy into a layer whose method is NoBounding from a layer whose method
is Bounding: assignment, `set(other)` and the copy constructor (on storage that held
NoBounding) take the bounds and `display` and leave `bounding_method`, so the copy returns the
input 5 where the original returns 1. -/
theorem copies_leave_bounding_method :
    (BoundingLayer.mk [0] [0] .NoBounding false).assign (BoundingLayer.mk [-1] [1] .Bounding true)
      = ⟨[-1], [1], .NoBounding, true⟩ ∧
    (BoundingLayer.mk [0] [0] .NoBounding false).set_other
      (BoundingLayer.mk [-1] [1] .Bounding true) = ⟨[-1], [1], .NoBounding, true⟩ ∧
    construct_copy .NoBounding false (BoundingLayer.mk [-1] [1] .Bounding true)
      = ⟨[-1], [1], .NoBounding, true⟩ ∧
    (BoundingLayer.mk [-1] [1] .NoBounding true).calculate_outputs false ⟨1, 1, [5]⟩
      = .ok ⟨1, 1, [5]⟩ ∧
    (BoundingLayer.mk [-1] [1] .Bounding true).calculate_outputs false ⟨1, 1, [5]⟩
      = .ok ⟨1, 1, [1]⟩ := by
  decide

/-- C17. The text and the enumeration forms of the bounding method are inverse to each other:
`set_bounding_method(write_bounding_method())` returns and leaves the method as it was, and
`set_bounding_method(s)` returns if and only if s is "Bounding" or "NoBounding", setting that
method; otherwise it throws and leaves the layer as it was. -/
theorem set_bounding_method_name_inverse (L : BoundingLayer) (s : String) :
    L.set_bounding_method_name L.write_bounding_method = ⟨L, none⟩ ∧
    ((L.set_bounding_method_name s).thrown = none ↔ (s = "Bounding" ∨ s = "NoBounding")) ∧
    (s = "Bounding" → (L.set_bounding_method_name s).layer.bounding_method = .Bounding) ∧
    (s = "NoBounding" → (L.set_bounding_method_name s).layer.bounding_method = .NoBounding) ∧
    ((L.set_bounding_method_name s).thrown ≠ none →
      L.set_bounding_method_name s = ⟨L, some (.logic_error (.unknown_method_name s))⟩) := by
  refine ⟨?_, ?_, ?_, ?_, ?_⟩
  · cases L with
    | mk lo up m d =>
      cases m <;> simp [set_bounding_method_name, write_bounding_method, Outcome.returned]
  · unfold set_bounding_method_name
    split_ifs with h1 h2
    · simp [Outcome.returned, h1]
    · simp [Outcome.returned, h2]
    · simp [Outcome.throws, h1, h2]
  · intro h
    subst h
    simp [set_bounding_method_name, Outcome.returned]
  · intro h
    subst h
    simp [set_bounding_method_name, Outcome.returned]
  · unfold set_bounding_method_name
    split_ifs with h1 h2
    · simp [Outcome.returned]
    · simp [Outcome.returned]
    · intro _; rfl

/-- C17, at a layer with method NoBounding and the names "Bounding" and "bounding". -/
theorem set_bounding_method_name_inverse_witness :
    (BoundingLayer.mk [-1] [1] .NoBounding true).set_bounding_method_name "Bounding"
      = ⟨⟨[-1], [1], .Bounding, true⟩, none⟩ ∧
    (BoundingLayer.mk [-1] [1] .NoBounding true).set_bounding_method_name "bounding"
      = ⟨⟨[-1], [1], .NoBounding, true⟩, some (.logic_error (.unknown_method_name "bounding"))⟩ ∧
    (BoundingLayer.mk [-1] [1] .NoBounding true).set_bounding_method_name
      (BoundingLayer.mk [-1] [1] .NoBounding true).write_bounding_method
      = ⟨⟨[-1], [1], .NoBounding, true⟩, none⟩ :=
  ⟨by decide, by decide,
    (set_bounding_method_name_inverse ⟨[-1], [1], .NoBounding, true⟩ "Bounding").1⟩

/-- C18. A default-constructed layer is empty: zero bounding neurons, `is_empty()` true, method
Bounding and display true, whatever the storage held before; a layer constructed with size n
has exactly n neurons, with n lower and n upper bounds, and `is_empty()` is true if and only if
n is 0. -/
theorem constructed_layers (method : BoundingMethod) (display : Bool) (n : Nat) :
    (construct method display).get_bounding_neurons_number = 0 ∧
    (construct method display).is_empty = true ∧
    (construct method display).bounding_method = .Bounding ∧
    (construct method display).display = true ∧
    (construct method display).upper_bounds = [] ∧
    (construct_size method display n).get_bounding_neurons_number = n ∧
    (construct_size method display n).lower_bounds.length = n ∧
    (construct_size method display n).upper_bounds.length = n ∧
    ((construct_size method display n).is_empty = true ↔ n = 0) := by
  refine ⟨rfl, rfl, rfl, rfl, rfl, ?_, ?_, ?_, ?_⟩
  · simp [construct_size, set_default, set_size, raw, get_bounding_neurons_number,
      Vector.length_set_size]
  · simp [construct_size, set_default, set_size, raw, Vector.length_set_size]
  · simp [construct_size, set_default, set_size, raw, Vector.length_set_size]
  · simp [is_empty, construct_size, set_default, set_size, raw, get_bounding_neurons_number,
      Vector.length_set_size]

/-- C18, at the default constructor and at the size constructor with three neurons. -/
theorem constructed_layers_witness :
    construct .NoBounding false = ⟨[], [], .Bounding, true⟩ ∧
    construct_size .NoBounding false 3 = ⟨[0, 0, 0], [0, 0, 0], .Bounding, true⟩ ∧
    ((construct_size .NoBounding false 3).is_empty = true ↔ 3 = 0) :=
  ⟨by decide, by decide, (constructed_layers .NoBounding false 3).2.2.2.2.2.2.2.2⟩

end BoundingLayer

/-! ## The settings of the kappa coefficient threshold selection -/
namespace KappaCoefficientOptimizationThreshold

/-- C19. With the debug checks enabled each of `set_minimum_threshold`, `set_maximum_threshold`
and `set_step` throws if and only if its argument v satisfies v <= 0 or v >= 1; when it throws
the object is unchanged, and when it returns the matching getter gives v and the other members
are unchanged. -/
theorem setters_check_domain (K : KappaCoefficientOptimizationThreshold) (v : ℚ) :
    (((K.set_minimum_threshold true v).thrown ≠ none ↔ (v ≤ 0 ∨ v ≥ 1)) ∧
      ((v ≤ 0 ∨ v ≥ 1) → K.set_minimum_threshold true v
        = ⟨K, some (.logic_error .kappa_minimum_threshold), []⟩) ∧
      (¬ (v ≤ 0 ∨ v ≥ 1) →
        (K.set_minimum_threshold true v).object.get_minimum_threshold = v ∧
        (K.set_minimum_threshold true v).object = { K with minimum_threshold := v })) ∧
    (((K.set_maximum_threshold true v).thrown ≠ none ↔ (v ≤ 0 ∨ v ≥ 1)) ∧
      ((v ≤ 0 ∨ v ≥ 1) → K.set_maximum_threshold true v
        = ⟨K, some (.logic_error .kappa_maximum_threshold), []⟩) ∧
      (¬ (v ≤ 0 ∨ v ≥ 1) →
        (K.set_maximum_threshold true v).object.get_maximum_threshold = v ∧
        (K.set_maximum_threshold true v).object = { K with maximum_threshold := v })) ∧
    (((K.set_step true v).thrown ≠ none ↔ (v ≤ 0 ∨ v ≥ 1)) ∧
      ((v ≤ 0 ∨ v ≥ 1) → K.set_step true v = ⟨K, some (.logic_error .kappa_step), []⟩) ∧
      (¬ (v ≤ 0 ∨ v ≥ 1) →
        (K.set_step true v).object.get_step = v ∧
        (K.set_step true v).object = { K with step := v })) := by
  refine ⟨⟨?_, ?_, ?_⟩, ⟨?_, ?_, ?_⟩, ⟨?_, ?_, ?_⟩⟩
  · unfold set_minimum_threshold
    by_cases h : v ≤ 0 ∨ v ≥ 1 <;> simp [h]
  · intro h; unfold set_minimum_threshold; simp [h]
  · intro h; unfold set_minimum_threshold get_minimum_threshold; simp [h]
  · unfold set_maximum_threshold
    by_cases h : v ≤ 0 ∨ v ≥ 1 <;> simp [h]
  · intro h; unfold set_maximum_threshold; simp [h]
  · intro h; unfold set_maximum_threshold get_maximum_threshold; simp [h]
  · unfold set_step
    by_cases h : v ≤ 0 ∨ v ≥ 1 <;> simp [h]
  · intro h; unfold set_step; simp [h]
  · intro h; unfold set_step get_step; simp [h]

/-- C19, at the settings 1/4, 3/4, 1/10: the value 1 is refused and the value 1/2 is stored. -/
theorem setters_check_domain_witness :
    (KappaCoefficientOptimizationThreshold.mk (1 / 4) (3 / 4) (1 / 10) false false
        false).set_maximum_threshold true 1
      = ⟨⟨1 / 4, 3 / 4, 1 / 10, false, false, false⟩,
          some (.logic_error .kappa_maximum_threshold), []⟩ ∧
    (KappaCoefficientOptimizationThreshold.mk (1 / 4) (3 / 4) (1 / 10) false false
        false).set_minimum_threshold true (1 / 2)
      = ⟨⟨1 / 2, 3 / 4, 1 / 10, false, false, false⟩, none, []⟩ :=
  ⟨(setters_check_domain ⟨1 / 4, 3 / 4, 1 / 10, false, false, false⟩ 1).2.1.2.1
      (Or.inr (le_refl 1)),
    by decide!⟩

theorem from_XML_setting_minimum (K : KappaCoefficientOptimizationThreshold)
    (element : Option (Option ℚ)) (h : element ≠ some none) :
    ∃ K1 log, from_XML_setting (set_minimum_threshold true) element K = ⟨K1, none, log⟩ ∧
      K1 = { K with minimum_threshold := K1.minimum_threshold } ∧
      (element = none → K1.minimum_threshold = K.minimum_threshold) ∧
      ∀ v, element = some (some v) →
        (0 < v ∧ v < 1 → K1.minimum_threshold = v) ∧
        (v ≤ 0 ∨ v ≥ 1 → K1.minimum_threshold = K.minimum_threshold ∧
          Message.kappa_minimum_threshold ∈ log) := by
  match element, h with
  | none, _ => exact ⟨K, [], rfl, rfl, fun _ => rfl, fun v hv => by cases hv⟩
  | some none, h => exact absurd rfl h
  | some (some w), _ =>
    by_cases hw : w ≤ 0 ∨ w ≥ 1
    · refine ⟨K, [.kappa_minimum_threshold], ?_, rfl, (fun h => by cases h), ?_⟩
      · simp [from_XML_setting, set_minimum_threshold, try_catch, hw]
      · intro v hv
        simp only [Option.some.injEq] at hv
        subst hv
        refine ⟨fun h => ?_, fun _ => ⟨rfl, by simp⟩⟩
        rcases hw with h1 | h1
        · exact absurd h.1 (not_lt.mpr h1)
        · exact absurd h.2 (not_lt.mpr h1)
    · refine ⟨{ K with minimum_threshold := w }, [], ?_, rfl, (fun h => by cases h), ?_⟩
      · simp [from_XML_setting, set_minimum_threshold, try_catch, hw]
      · intro v hv
        simp only [Option.some.injEq] at hv
        subst hv
        exact ⟨fun _ => rfl, fun h => absurd h hw⟩

theorem from_XML_setting_maximum (K : KappaCoefficientOptimizationThreshold)
    (element : Option (Option ℚ)) (h : element ≠ some none) :
    ∃ K1 log, from_XML_setting (set_maximum_threshold true) element K = ⟨K1, none, log⟩ ∧
      K1 = { K with maximum_threshold := K1.maximum_threshold } ∧
      (element = none → K1.maximum_threshold = K.maximum_threshold) ∧
      ∀ v, element = some (some v) →
        (0 < v ∧ v < 1 → K1.maximum_threshold = v) ∧
        (v ≤ 0 ∨ v ≥ 1 → K1.maximum_threshold = K.maximum_threshold ∧
          Message.kappa_maximum_threshold ∈ log) := by
  match element, h with
  | none, _ => exact ⟨K, [], rfl, rfl, fun _ => rfl, fun v hv => by cases hv⟩
  | some none, h => exact absurd rfl h
  | some (some w), _ =>
    by_cases hw : w ≤ 0 ∨ w ≥ 1
    · refine ⟨K, [.kappa_maximum_threshold], ?_, rfl, (fun h => by cases h), ?_⟩
      · simp [from_XML_setting, set_maximum_threshold, try_catch, hw]
      · intro v hv
        simp only [Option.some.injEq] at hv
        subst hv
        refine ⟨fun h => ?_, fun _ => ⟨rfl, by simp⟩⟩
        rcases hw with h1 | h1
        · exact absurd h.1 (not_lt.mpr h1)
        · exact absurd h.2 (not_lt.mpr h1)
    · refine ⟨{ K with maximum_threshold := w }, [], ?_, rfl, (fun h => by cases h), ?_⟩
      · simp [from_XML_setting, set_maximum_threshold, try_catch, hw]
      · intro v hv
        simp only [Option.some.injEq] at hv
        subst hv
        exact ⟨fun _ => rfl, fun h => absurd h hw⟩

theorem from_XML_setting_step (K : KappaCoefficientOptimizationThreshold)
    (element : Option (Option ℚ)) (h : element ≠ some none) :
    ∃ K1 log, from_XML_setting (set_step true) element K = ⟨K1, none, log⟩ ∧
      K1 = { K with step := K1.step } ∧
      (element = none → K1.step = K.step) ∧
      ∀ v, element = some (some v) →
        (0 < v ∧ v < 1 → K1.step = v) ∧
        (v ≤ 0 ∨ v ≥ 1 → K1.step = K.step ∧ Message.kappa_step ∈ log) := by
  match element, h with
  | none, _ => exact ⟨K, [], rfl, rfl, fun _ => rfl, fun v hv => by cases hv⟩
  | some none, h => exact absurd rfl h
  | some (some w), _ =>
    by_cases hw : w ≤ 0 ∨ w ≥ 1
    · refine ⟨K, [.kappa_step], ?_, rfl, (fun h => by cases h), ?_⟩
      · simp [from_XML_setting, set_step, try_catch, hw]
      · intro v hv
        simp only [Option.some.injEq] at hv
        subst hv
        refine ⟨fun h => ?_, fun _ => ⟨rfl, by simp⟩⟩
        rcases hw with h1 | h1
        · exact absurd h.1 (not_lt.mpr h1)
        · exact absurd h.2 (not_lt.mpr h1)
    · refine ⟨{ K with step := w }, [], ?_, rfl, (fun h => by cases h), ?_⟩
      · simp [from_XML_setting, set_step, try_catch, hw]
      · intro v hv
        simp only [Option.some.injEq] at hv
        subst hv
        exact ⟨fun _ => rfl, fun h => absurd h hw⟩

/-- C20, as stated, fails: with the debug checks enabled and the settings 1/4, 3/4, 1/10, a
document whose MinimumThreshold is 2 makes `from_XML` return normally, the minimum threshold
still 1/4 and the setter's message on `cerr`. -/
theorem from_XML_swallows_setter_error :
    (KappaCoefficientOptimizationThreshold.mk (1 / 4) (3 / 4) (1 / 10) false false
        false).set_minimum_threshold true 2
      = ⟨⟨1 / 4, 3 / 4, 1 / 10, false, false, false⟩,
          some (.logic_error .kappa_minimum_threshold), []⟩ ∧
    (KappaCoefficientOptimizationThreshold.mk (1 / 4) (3 / 4) (1 / 10) false false
        false).from_XML true ⟨some ⟨some (some 2), none, none, none⟩⟩
      = ⟨⟨1 / 4, 3 / 4, 1 / 10, false, false, false⟩, none, [.kappa_minimum_threshold]⟩ := by
  decide!

/-- C20, amended. With the debug checks enabled `from_XML` does not fail when the document's
MinimumThreshold, MaximumThreshold or Step lies outside the open interval (0,1): for a document
with the root element, whose elements all have a text, it returns normally; a value strictly
between 0 and 1 is stored, and for any other value the setter's error is caught, its message
goes to `cerr` and the setting keeps its former value, as it does when the element is absent.
Without the root element it throws. -/
theorem from_XML_catches_setter_errors (K : KappaCoefficientOptimizationThreshold)
    (root_element : XMLKappaElement)
    (hmin : root_element.minimum_threshold ≠ some none)
    (hmax : root_element.maximum_threshold ≠ some none)
    (hstep : root_element.step ≠ some none)
    (hflag : root_element.reserve_function_data ≠ some none) :
    K.from_XML true ⟨none⟩ = ⟨K, some (.logic_error .kappa_xml_root), []⟩ ∧
    (K.from_XML true ⟨some root_element⟩).thrown = none ∧
    (∀ v, root_element.minimum_threshold = some (some v) →
      (0 < v ∧ v < 1 → (K.from_XML true ⟨some root_element⟩).object.minimum_threshold = v) ∧
      (v ≤ 0 ∨ v ≥ 1 →
        (K.from_XML true ⟨some root_element⟩).object.minimum_threshold = K.minimum_threshold ∧
        Message.kappa_minimum_threshold ∈ (K.from_XML true ⟨some root_element⟩).cerr)) ∧
    (root_element.minimum_threshold = none →
      (K.from_XML true ⟨some root_element⟩).object.minimum_threshold = K.minimum_threshold) ∧
    (∀ v, root_element.maximum_threshold = some (some v) →
      (0 < v ∧ v < 1 → (K.from_XML true ⟨some root_element⟩).object.maximum_threshold = v) ∧
      (v ≤ 0 ∨ v ≥ 1 →
        (K.from_XML true ⟨some root_element⟩).object.maximum_threshold = K.maximum_threshold ∧
        Message.kappa_maximum_threshold ∈ (K.from_XML true ⟨some root_element⟩).cerr)) ∧
    (root_element.maximum_threshold = none →
      (K.from_XML true ⟨some root_element⟩).object.maximum_threshold = K.maximum_threshold) ∧
    (∀ v, root_element.step = some (some v) →
      (0 < v ∧ v < 1 → (K.from_XML true ⟨some root_element⟩).object.step = v) ∧
      (v ≤ 0 ∨ v ≥ 1 →
        (K.from_XML true ⟨some root_element⟩).object.step = K.step ∧
        Message.kappa_step ∈ (K.from_XML true ⟨some root_element⟩).cerr)) ∧
    (root_element.step = none →
      (K.from_XML true ⟨some root_element⟩).object.step = K.step) := by
  obtain ⟨K1, log1, h1, e1, n1, v1⟩ :=
    from_XML_setting_minimum K root_element.minimum_threshold hmin
  obtain ⟨K2, log2, h2, e2, n2, v2⟩ :=
    from_XML_setting_maximum K1 root_element.maximum_threshold hmax
  obtain ⟨K3, log3, h3, e3, n3, v3⟩ :=
    from_XML_setting_step K2 root_element.step hstep
  have hrun : ∃ K4, K.from_XML true ⟨some root_element⟩ = ⟨K4, none, log1 ++ (log2 ++ log3)⟩ ∧
      K4.minimum_threshold = K3.minimum_threshold ∧
      K4.maximum_threshold = K3.maximum_threshold ∧ K4.step = K3.step := by
    unfold from_XML
    simp only [h1, h2, h3, andThen]
    match hf : root_element.reserve_function_data, hflag with
    | none, _ => exact ⟨K3, by simp, rfl, rfl, rfl⟩
    | some none, h => exact absurd rfl h
    | some (some t), _ =>
      exact ⟨{ K3 with reserve_function_data := (if t ≠ "0" then true else false) },
        by simp [try_catch, set_reserve_function_data], rfl, rfl, rfl⟩
  obtain ⟨K4, hK4, m4, x4, s4⟩ := hrun
  have hmin1 : K3.minimum_threshold = K1.minimum_threshold := by rw [e3, e2]
  have hmax1 : K3.maximum_threshold = K2.maximum_threshold := by rw [e3]
  have hmax0 : K1.maximum_threshold = K.maximum_threshold := by rw [e1]
  have hstep0 : K2.step = K.step := by rw [e2, e1]
  rw [hK4]
  refine ⟨rfl, rfl, ?_, ?_, ?_, ?_, ?_, ?_⟩
  · intro v hv
    refine ⟨fun h => ?_, fun h => ?_⟩
    · simp only [m4, hmin1]; exact (v1 v hv).1 h
    · simp only [m4, hmin1]
      exact ⟨((v1 v hv).2 h).1, List.mem_append_left _ ((v1 v hv).2 h).2⟩
  · intro h
    simp only [m4, hmin1]; exact n1 h
  · intro v hv
    refine ⟨fun h => ?_, fun h => ?_⟩
    · simp only [x4, hmax1]; exact (v2 v hv).1 h
    · simp only [x4, hmax1]
      exact ⟨((v2 v hv).2 h).1.trans hmax0,
        List.mem_append_right _ (List.mem_append_left _ ((v2 v hv).2 h).2)⟩
  · intro h
    simp only [x4, hmax1]; exact (n2 h).trans hmax0
  · intro v hv
    refine ⟨fun h => ?_, fun h => ?_⟩
    · simp only [s4]; exact (v3 v hv).1 h
    · simp only [s4]
      exact ⟨((v3 v hv).2 h).1.trans hstep0,
        List.mem_append_right _ (List.mem_append_right _ ((v3 v hv).2 h).2)⟩
  · intro h
    simp only [s4]; exact (n3 h).trans hstep0

/-- C20, amended, at the settings 1/4, 3/4, 1/10 and a document with MinimumThreshold 2,
MaximumThreshold 1/2, no Step and ReserveFunctionData "1": the call returns, the minimum
threshold is still 1/4 with the message on `cerr`, and the maximum threshold is 1/2. -/
theorem from_XML_catches_setter_errors_witness :
    ((KappaCoefficientOptimizationThreshold.mk (1 / 4) (3 / 4) (1 / 10) false false
        false).from_XML true
      ⟨some ⟨some (some 2), some (some (1 / 2)), none, some (some "1")⟩⟩).thrown = none ∧
    (((KappaCoefficientOptimizationThreshold.mk (1 / 4) (3 / 4) (1 / 10) false false
        false).from_XML true
      ⟨some ⟨some (some 2), some (some (1 / 2)), none, some (some "1")⟩⟩).object.minimum_threshold
        = 1 / 4 ∧
      Message.kappa_minimum_threshold ∈
        ((KappaCoefficientOptimizationThreshold.mk (1 / 4) (3 / 4) (1 / 10) false false
          false).from_XML true
        ⟨some ⟨some (some 2), some (some (1 / 2)), none, some (some "1")⟩⟩).cerr) ∧
    ((KappaCoefficientOptimizationThreshold.mk (1 / 4) (3 / 4) (1 / 10) false false
        false).from_XML true
      ⟨some ⟨some (some 2), some (some (1 / 2)), none, some (some "1")⟩⟩).object.maximum_threshold
        = 1 / 2 :=
  have h := from_XML_catches_setter_errors ⟨1 / 4, 3 / 4, 1 / 10, false, false, false⟩
    ⟨some (some 2), some (some (1 / 2)), none, some (some "1")⟩
    (by simp) (by simp) (by simp) (by simp)
  ⟨h.2.1, (h.2.2.1 2 rfl).2 (Or.inr (by norm_num)),
    (h.2.2.2.2.1 (1 / 2) rfl).1 (by norm_num)⟩

end KappaCoefficientOptimizationThreshold

/-! ## Reading and writing the bounding layer document -/
namespace BoundingLayer

/-- The loop of `from_XML` over items that carry the indices i+1, i+2, ... and both bounds:
it returns, having assigned the bounds at the positions i, i+1, ... -/
theorem from_XML_items_indexed (a b : Nat → ℚ) (k i : Nat) (L : BoundingLayer) :
    ∃ L', from_XML_items k i i
        ((List.range' i k).map (fun t => (⟨some (t + 1), some (a t), some (b t)⟩ : XMLItem))) L
        = Outcome.returned L' ∧
      L'.bounding_method = L.bounding_method ∧ L'.display = L.display ∧
      L'.lower_bounds.length = L.lower_bounds.length ∧
      L'.upper_bounds.length = L.upper_bounds.length ∧
      (∀ t, L'.lower_bounds[t]? =
        if i ≤ t ∧ t < i + k ∧ t < L.lower_bounds.length then some (a t)
        else L.lower_bounds[t]?) ∧
      (∀ t, L'.upper_bounds[t]? =
        if i ≤ t ∧ t < i + k ∧ t < L.upper_bounds.length then some (b t)
        else L.upper_bounds[t]?) := by
  induction k generalizing i L with
  | zero =>
    refine ⟨L, rfl, rfl, rfl, rfl, rfl, ?_, ?_⟩ <;>
    · intro t
      rw [if_neg (by omega)]
  | succ k ih =>
    obtain ⟨L', hrun, hm, hd, hl, hu, hlo, hup⟩ := ih (i + 1)
      { L with lower_bounds := L.lower_bounds.set i (a i)
               upper_bounds := L.upper_bounds.set i (b i) }
    refine ⟨L', ?_, hm, hd, by simpa using hl, by simpa using hu, ?_, ?_⟩
    · rw [List.range'_succ, List.map_cons]
      unfold from_XML_items
      simp only [Option.getD_some, ne_eq, not_true_eq_false, if_false, Nat.add_sub_cancel]
      exact hrun
    · intro t
      rw [hlo t]
      simp only [List.length_set, List.getElem?_set]
      by_cases h1 : i + 1 ≤ t ∧ t < i + 1 + k ∧ t < L.lower_bounds.length
      · rw [if_pos h1, if_pos (by omega)]
      · rw [if_neg h1]
        by_cases h2 : i = t
        · subst h2
          by_cases h3 : i < L.lower_bounds.length
          · rw [if_pos rfl, if_pos h3, if_pos (by omega)]
          · rw [if_pos rfl, if_neg h3, if_neg (by omega), List.getElem?_eq_none (by omega)]
        · rw [if_neg h2, if_neg (by omega)]
    · intro t
      rw [hup t]
      simp only [List.length_set, List.getElem?_set]
      by_cases h1 : i + 1 ≤ t ∧ t < i + 1 + k ∧ t < L.upper_bounds.length
      · rw [if_pos h1, if_pos (by omega)]
      · rw [if_neg h1]
        by_cases h2 : i = t
        · subst h2
          by_cases h3 : i < L.upper_bounds.length
          · rw [if_pos rfl, if_pos h3, if_pos (by omega)]
          · rw [if_pos rfl, if_neg h3, if_neg (by omega), List.getElem?_eq_none (by omega)]
        · rw [if_neg h2, if_neg (by omega)]

/-- The document `to_XML` writes for a layer whose two bound vectors have one length. -/
theorem to_XML_eq (format : TextFormat) (L : BoundingLayer)
    (hupper : L.upper_bounds.length = L.lower_bounds.length) :
    L.to_XML format = .ok ⟨some ⟨some (some (format.write_size L.get_bounding_neurons_number)),
      (List.range L.get_bounding_neurons_number).map (fun i =>
        (⟨some (format.write_unsigned (i + 1)),
          some (format.write_double (Vector.item L.lower_bounds i)),
          some (format.write_double (Vector.item L.upper_bounds i))⟩ : XMLItemText)),
      some (some (match L.bounding_method with
        | .Bounding => "1"
        | .NoBounding => "0"))⟩⟩ := by
  obtain ⟨items, hrun, hitems⟩ := for_loop_invariant
    (fun p (items : List XMLItemText) => items = (List.range p).map (fun i =>
      (⟨some (format.write_unsigned (i + 1)),
        some (format.write_double (Vector.item L.lower_bounds i)),
        some (format.write_double (Vector.item L.upper_bounds i))⟩ : XMLItemText)))
    L.get_bounding_neurons_number
    (fun i items => do
      let lo ← Vector.read L.lower_bounds i
      let up ← Vector.read L.upper_bounds i
      pure (items ++ [(⟨some (format.write_unsigned (i + 1)), some (format.write_double lo),
        some (format.write_double up)⟩ : XMLItemText)])) [] rfl
    (by
      intro p items hp hitems
      unfold get_bounding_neurons_number at hp
      have hlo : Vector.read L.lower_bounds p = .ok (Vector.item L.lower_bounds p) :=
        Vector.read_of_lt hp
      have hup : Vector.read L.upper_bounds p = .ok (Vector.item L.upper_bounds p) :=
        Vector.read_of_lt (by omega)
      refine ⟨_, by simp only [hlo, hup, bind, Except.bind]; rfl, ?_⟩
      simp only [hitems, List.range_succ, List.map_append, List.map_cons, List.map_nil])
  subst hitems
  unfold to_XML
  simp only [bind, Except.bind, pure, Except.pure] at hrun ⊢
  rw [hrun]

/-- What `from_XML` makes of a document that declares n neurons, carries n items with the
indices 1 to n and both bounds, and a flag that reads as `flag`. -/
theorem from_XML_indexed (receiver : BoundingLayer) (a b : Nat → ℚ) (n flag : Nat)
    (extra : List XMLItem) (hflag : flag = 1 ∨ flag = 0) :
    ∃ L', receiver.from_XML ⟨some ⟨some (some n),
        (List.range n).map (fun t => (⟨some (t + 1), some (a t), some (b t)⟩ : XMLItem))
          ++ extra, some (some flag)⟩⟩ = Outcome.returned L' ∧
      L'.bounding_method = (if flag = 1 then .Bounding else .NoBounding) ∧
      L'.lower_bounds.length = n ∧ L'.upper_bounds.length = n ∧
      ∀ t, t < n → L'.lower_bounds[t]? = some (a t) ∧ L'.upper_bounds[t]? = some (b t) := by
  have hl : (receiver.set_size n).lower_bounds.length = n := by
    simp [set_size, set_default, Vector.length_set_size]
  have hu : (receiver.set_size n).upper_bounds.length = n := by
    simp [set_size, set_default, Vector.length_set_size]
  have hextra : ∀ (k i : Nat) (items : List XMLItem) (L : BoundingLayer), items.length = k →
      from_XML_items k i i (items ++ extra) L = from_XML_items k i i items L := by
    intro k
    induction k with
    | zero =>
      intro i items L hlen
      unfold from_XML_items
      rfl
    | succ k ih =>
      intro i items L hlen
      cases items with
      | nil => simp at hlen
      | cons item rest =>
        unfold from_XML_items
        simp only [List.cons_append]
        split_ifs with hidx
        · rfl
        · have hi : item.index.getD i = i + 1 := by
            by_contra hne
            exact hidx hne
          rw [hi]
          exact ih (i + 1) rest _ (by simpa using hlen)
  obtain ⟨L1, hrun, hm, _, hl1, hu1, hlo, hup⟩ :=
    from_XML_items_indexed a b n 0 (receiver.set_size n)
  rw [← List.range_eq_range'] at hrun
  have hitems : from_XML_items (receiver.set_size n).lower_bounds.length 0 0
      ((List.range n).map (fun t => (⟨some (t + 1), some (a t), some (b t)⟩ : XMLItem))
        ++ extra) (receiver.set_size n) = Outcome.returned L1 := by
    rw [hl, hextra n 0 _ _ (by simp)]
    exact hrun
  have hcells : ∀ t, t < n → L1.lower_bounds[t]? = some (a t) ∧
      L1.upper_bounds[t]? = some (b t) := by
    intro t ht
    rw [hlo t, hup t, hl, hu]
    simp [ht]
  rcases hflag with h1 | h0
  · subst h1
    refine ⟨{ L1 with bounding_method := .Bounding }, ?_, by simp, by rw [← hl]; exact hl1,
      by rw [← hu]; exact hu1, hcells⟩
    unfold from_XML
    simp only [hitems, Outcome.andThen, Outcome.returned, if_true]
  · subst h0
    refine ⟨{ L1 with bounding_method := .NoBounding }, ?_, by simp, by rw [← hl]; exact hl1,
      by rw [← hu]; exact hu1, hcells⟩
    unfold from_XML
    simp [hitems, Outcome.andThen, Outcome.returned]

/-- C13. XML round trip of the bounding layer: for a layer L with n neurons, of either method,
`to_XML` writes a document whose flag `UseBoundingLayer` is "1" for Bounding and "0" for
NoBounding, and `from_XML` applied to that document, on any receiving layer, returns and leaves
n neurons, the method of L, and at each index the lower and the upper bound that `atof` reads
from the text written for that bound. The conversions of the count, of the indices and of the
flag are those of the standard library: the texts written for them read back as the same
numbers. -/
theorem from_XML_to_XML (format : TextFormat) (receiver L : BoundingLayer)
    (hupper : L.upper_bounds.length = L.lower_bounds.length)
    (hsize : format.atoi (format.write_size L.get_bounding_neurons_number)
      = L.get_bounding_neurons_number)
    (hindex : ∀ i, i < L.get_bounding_neurons_number →
      format.query_unsigned (format.write_unsigned (i + 1)) = some (i + 1))
    (hone : format.atoi "1" = 1) (hzero : format.atoi "0" = 0) :
    ∃ document, L.to_XML format = .ok document ∧
      (∃ e, document.bounding_layer = some e ∧ e.use_bounding_layer = some (some
        (match L.bounding_method with
          | .Bounding => "1"
          | .NoBounding => "0"))) ∧
      (receiver.from_XML (document.read format)).thrown = none ∧
      (receiver.from_XML (document.read format)).layer.get_bounding_neurons_number
        = L.get_bounding_neurons_number ∧
      (receiver.from_XML (document.read format)).layer.upper_bounds.length
        = L.get_bounding_neurons_number ∧
      (receiver.from_XML (document.read format)).layer.bounding_method = L.bounding_method ∧
      ∀ (i : Nat) (lo up : ℚ), L.lower_bounds[i]? = some lo → L.upper_bounds[i]? = some up →
        (receiver.from_XML (document.read format)).layer.lower_bounds[i]?
          = some (format.atof (format.write_double lo)) ∧
        (receiver.from_XML (document.read format)).layer.upper_bounds[i]?
          = some (format.atof (format.write_double up)) := by
  refine ⟨_, to_XML_eq format L hupper, ⟨_, rfl, rfl⟩, ?_⟩
  have hflag : format.atoi (match L.bounding_method with
      | .Bounding => "1"
      | .NoBounding => "0") = 1 ∨ format.atoi (match L.bounding_method with
      | .Bounding => "1"
      | .NoBounding => "0") = 0 := by
    cases L.bounding_method
    · exact Or.inr hzero
    · exact Or.inl hone
  have hmethod : (if format.atoi (match L.bounding_method with
      | .Bounding => "1"
      | .NoBounding => "0") = 1 then BoundingMethod.Bounding else BoundingMethod.NoBounding)
      = L.bounding_method := by
    cases L.bounding_method
    · simp [hzero]
    · simp [hone]
  have hread : XMLDocumentText.read format
      ⟨some ⟨some (some (format.write_size L.get_bounding_neurons_number)),
        (List.range L.get_bounding_neurons_number).map (fun i =>
          (⟨some (format.write_unsigned (i + 1)),
            some (format.write_double (Vector.item L.lower_bounds i)),
            some (format.write_double (Vector.item L.upper_bounds i))⟩ : XMLItemText)),
        some (some (match L.bounding_method with
          | .Bounding => "1"
          | .NoBounding => "0"))⟩⟩
      = ⟨some ⟨some (some L.get_bounding_neurons_number),
        (List.range L.get_bounding_neurons_number).map (fun t =>
          (⟨some (t + 1), some (format.atof (format.write_double (Vector.item L.lower_bounds t))),
            some (format.atof (format.write_double (Vector.item L.upper_bounds t)))⟩ : XMLItem))
          ++ [],
        some (some (format.atoi (match L.bounding_method with
          | .Bounding => "1"
          | .NoBounding => "0")))⟩⟩ := by
    simp only [XMLDocumentText.read, XMLBoundingLayerText.read, Option.map_some', hsize,
      List.map_map, List.append_nil]
    congr 3
    apply List.map_congr_left
    intro i hi
    have hq := hindex i (List.mem_range.mp hi)
    simp only [Function.comp, XMLItemText.read, Option.map_some', Option.bind, hq]
  obtain ⟨L', hrun, hm, hl, hu, hcells⟩ := from_XML_indexed receiver
    (fun t => format.atof (format.write_double (Vector.item L.lower_bounds t)))
    (fun t => format.atof (format.write_double (Vector.item L.upper_bounds t)))
    L.get_bounding_neurons_number _ [] hflag
  rw [hread, hrun]
  refine ⟨rfl, hl, hu, hm.trans hmethod, ?_⟩
  intro i lo up hlo hup
  have hi : i < L.get_bounding_neurons_number := by
    unfold get_bounding_neurons_number
    by_contra hge
    rw [List.getElem?_eq_none (by omega)] at hlo
    cases hlo
  have h1 : Vector.item L.lower_bounds i = lo := by simp [Vector.item, hlo]
  have h2 : Vector.item L.upper_bounds i = up := by simp [Vector.item, hup]
  have hc := hcells i hi
  simp only [h1, h2] at hc
  exact hc

/-- C13, at the layer with the pairs (-1, 1) and (0, 3) and method NoBounding, written and read
with decimal digits into a default-constructed layer. -/
theorem from_XML_to_XML_witness :
    (BoundingLayer.mk [-1, 0] [1, 3] .NoBounding true).to_XML TextFormat.decimal
      = .ok ⟨some ⟨some (some "2"), [⟨some "1", some "-1", some "1"⟩,
          ⟨some "2", some "0", some "3"⟩], some (some "0")⟩⟩ ∧
    ∃ document, (BoundingLayer.mk [-1, 0] [1, 3] .NoBounding true).to_XML TextFormat.decimal
        = .ok document ∧
      ((construct .Bounding false).from_XML (document.read TextFormat.decimal)).thrown = none ∧
      ((construct .Bounding false).from_XML
        (document.read TextFormat.decimal)).layer.get_bounding_neurons_number = 2 ∧
      ((construct .Bounding false).from_XML
        (document.read TextFormat.decimal)).layer.bounding_method = .NoBounding :=
  ⟨by decide!,
    (from_XML_to_XML TextFormat.decimal (construct .Bounding false)
      ⟨[-1, 0], [1, 3], .NoBounding, true⟩ (by decide) (by decide) (by decide) (by decide)
      (by decide)).imp (fun _ h => ⟨h.1, h.2.2.1, h.2.2.2.1, h.2.2.2.2.2.1⟩)⟩

end BoundingLayer

/-! ## The derivative and the bounding method, pruning and evaluation, `set_bounds` -/

namespace BoundingLayer

end BoundingLayer

namespace BoundingLayer

/-- C30. The code with the debug checks, at a layer with one neuron (bounds 0 and 1) and the
argument with the rows (5) and (6, 7): the first row has the right length, so the check of
`set_bounds`, which asks for both rows to be wrong, lets the call through, `set_lower_bounds`
installs 5, and `set_upper_bounds` then throws: the lower bound has changed and the upper
bound has not. -/
theorem set_bounds_half_installed :
    (BoundingLayer.mk [0] [1] .Bounding true).set_bounds true [[5], [6, 7]]
      = ⟨⟨[5], [1], .Bounding, true⟩, some (.logic_error .upper_bounds_size)⟩ ∧
    (BoundingLayer.mk [0] [1] .Bounding true).set_bounds true [[5, 4], [6, 7]]
      = ⟨⟨[0], [1], .Bounding, true⟩, some (.logic_error .bounds_columns)⟩ ∧
    (BoundingLayer.mk [0] [1] .Bounding true).set_bounds true [[5], [6]]
      = ⟨⟨[5], [6], .Bounding, true⟩, none⟩ := by
  decide

end BoundingLayer

namespace Matrix

end Matrix

namespace BoundingLayer

end BoundingLayer

/-! ## The loss index -/

theorem Matrix.get_row_eq {m : Matrix} {R C i : Nat} (hs : m.shaped R C) (hi : i < R) :
    m.get_row i = .ok ((List.range C).map (fun j => m.cell i j)) := by
  unfold Matrix.get_row
  rw [hs.2.1]
  obtain ⟨row, hrun, hrow⟩ := for_loop_invariant
    (fun p (row : List ℚ) => row = (List.range p).map (fun j => m.cell i j))
    C (fun j row => do
      let x ← m.read i j
      pure (row ++ [x])) [] rfl
    (by
      intro p row hp hrow
      refine ⟨row ++ [m.cell i p], ?_, ?_⟩
      · simp only [Matrix.read_of_shaped hs hi hp, bind, Except.bind]
        rfl
      · simp only [hrow, List.range_succ, List.map_append, List.map_cons, List.map_nil])
  rw [hrun, hrow]

namespace LossIndex

/-- C22. After `start_loss_calculation(population)`, `calculate_loss_for_individual(i)` is
`calculate_training_loss` applied to row i of that population, for every row index i of it; and
the population passed by a later call of `start_loss_calculation` replaces the one passed
before. -/
theorem calculate_loss_for_individual_row (environment : LossEnvironment) (L : LossIndex)
    (population earlier : Matrix) (i : Nat) (hvalid : population.valid)
    (hi : i < population.rows_number) :
    ∃ row, population.get_row i = .ok row ∧ row.length = population.columns_number ∧
      (∀ j, j < population.columns_number →
        ∃ x, population.read i j = .ok x ∧ row[j]? = some x) ∧
      (L.start_loss_calculation population).calculate_loss_for_individual environment i
        = .ok ((L.start_loss_calculation population).calculate_training_loss_at
            environment row).value ∧
      ((L.start_loss_calculation earlier).start_loss_calculation
          population).calculate_loss_for_individual environment i
        = .ok (L.calculate_training_loss_at environment row).value := by
  have hs := Matrix.shaped_of_valid hvalid
  have hrow := Matrix.get_row_eq hs hi
  refine ⟨_, hrow, by simp, ?_, ?_, ?_⟩
  · intro j hj
    refine ⟨_, Matrix.read_of_shaped hs hi hj, ?_⟩
    simp [List.getElem?_map, List.getElem?_range hj]
  · simp only [calculate_loss_for_individual, start_loss_calculation, hrow, bind, Except.bind]
    rfl
  · simp only [calculate_loss_for_individual, start_loss_calculation, hrow, bind, Except.bind]
    rfl

/-- C22, at a population with the rows (1, 2, 3) and (4, 5, 6), the training error being the
first parameter and the regularization L2 with weight 2: the loss of the individual 1 is
4 + 2 * (16 + 25 + 36). -/
theorem calculate_loss_for_individual_row_witness :
    calculate_loss_for_individual ⟨[], 0, fun p => Vector.item p 0⟩
      (start_loss_calculation ⟨none, none, .L2, 2, 1000, true, none⟩ ⟨2, 3, [1, 4, 2, 5, 3, 6]⟩)
      1 = .ok 158 ∧
    ∃ row, Matrix.get_row ⟨2, 3, [1, 4, 2, 5, 3, 6]⟩ 1 = .ok row ∧ row.length = 3 :=
  ⟨by decide!,
    (calculate_loss_for_individual_row ⟨[], 0, fun p => Vector.item p 0⟩
      ⟨none, none, .L2, 2, 1000, true, none⟩ ⟨2, 3, [1, 4, 2, 5, 3, 6]⟩ ⟨0, 0, []⟩ 1
      (by decide) (by decide)).imp (fun _ h => ⟨h.1, h.2.1⟩)⟩

end LossIndex

/-- C23. A freshly constructed `FirstOrderError(n)` has error 0.0 and a gradient of length n
with every entry 0.0; a freshly constructed `SecondOrderErrorTerms(n)` has loss 0.0, a gradient
of length n with every entry 0.0 and an n-by-n Hessian approximation with every entry 0.0. -/
theorem error_records_start_at_zero (n : Nat) :
    (FirstOrderError.construct n).error = 0 ∧
    (FirstOrderError.construct n).gradient.length = n ∧
    (∀ x, x ∈ (FirstOrderError.construct n).gradient → x = 0) ∧
    (SecondOrderErrorTerms.construct n).loss = 0 ∧
    (SecondOrderErrorTerms.construct n).gradient.length = n ∧
    (∀ x, x ∈ (SecondOrderErrorTerms.construct n).gradient → x = 0) ∧
    (SecondOrderErrorTerms.construct n).Hessian_approximation.rows_number = n ∧
    (SecondOrderErrorTerms.construct n).Hessian_approximation.columns_number = n ∧
    (SecondOrderErrorTerms.construct n).Hessian_approximation.valid ∧
    (∀ i j, i < n → j < n →
      (SecondOrderErrorTerms.construct n).Hessian_approximation.read i j = .ok 0) := by
  refine ⟨rfl, by simp [FirstOrderError.construct, Vector.set_size_value], ?_, rfl,
    by simp [SecondOrderErrorTerms.construct, Vector.set_size_value], ?_, rfl, rfl,
    by simp [SecondOrderErrorTerms.construct, Matrix.valid, Matrix.filled], ?_⟩
  · intro x hx
    exact List.eq_of_mem_replicate hx
  · intro x hx
    exact List.eq_of_mem_replicate hx
  · intro i j hi hj
    exact Matrix.filled_read 0 hi hj

/-- C23, at two parameters. -/
theorem error_records_start_at_zero_witness :
    FirstOrderError.construct 2 = ⟨0, [0, 0]⟩ ∧
    SecondOrderErrorTerms.construct 2 = ⟨0, [0, 0], ⟨2, 2, [0, 0, 0, 0]⟩⟩ ∧
    (SecondOrderErrorTerms.construct 2).gradient.length = 2 :=
  ⟨by decide, by decide, (error_records_start_at_zero 2).2.2.2.2.1⟩

namespace LossIndex

/-- C24, as stated, fails for the data set: with the debug checks enabled and no data set
attached `get_data_set_pointer` returns the null pointer, having written its message to
`cerr`. -/
theorem get_data_set_pointer_returns_null :
    get_data_set_pointer true ⟨some 1, none, .None, 0, 1000, true, none⟩
      = (none, [.loss_index_data_set]) := by
  decide

/-- C24, amended. With the debug checks enabled `get_neural_network_pointer` throws when no
neural network is attached and returns the attached pointer otherwise;
`get_data_set_pointer` does not throw: it returns the pointer, attached or null, and when it is
null writes its message to `cerr`. -/
theorem pointer_getters (L : LossIndex) :
    (L.neural_network_pointer = none →
      L.get_neural_network_pointer true = .error (.logic_error .loss_index_neural_network)) ∧
    (∀ a, L.neural_network_pointer = some a → L.get_neural_network_pointer true = .ok (some a)) ∧
    (L.get_data_set_pointer true).1 = L.data_set_pointer ∧
    (L.data_set_pointer = none → (L.get_data_set_pointer true).2 = [.loss_index_data_set]) ∧
    (∀ a, L.data_set_pointer = some a → L.get_data_set_pointer true = (some a, [])) := by
  refine ⟨?_, ?_, ?_, ?_, ?_⟩
  · intro h
    simp [get_neural_network_pointer, h]
  · intro a h
    simp [get_neural_network_pointer, h]
  · unfold get_data_set_pointer
    split_ifs <;> rfl
  · intro h
    simp [get_data_set_pointer, h]
  · intro a h
    simp [get_data_set_pointer, h]

/-- C24, amended, at a loss index with a neural network and no data set. -/
theorem pointer_getters_witness :
    get_neural_network_pointer true ⟨some 1, none, .None, 0, 1000, true, none⟩ = .ok (some 1) ∧
    get_neural_network_pointer true ⟨none, none, .None, 0, 1000, true, none⟩
      = .error (.logic_error .loss_index_neural_network) :=
  ⟨(pointer_getters ⟨some 1, none, .None, 0, 1000, true, none⟩).2.1 1 rfl,
    (pointer_getters ⟨none, none, .None, 0, 1000, true, none⟩).1 rfl⟩

/-- C25. `calculate_training_loss()` is the training error plus the regularization weight times
the regularization of the parameters stored in the network, and
`calculate_training_loss(parameters)` is the same sum at the given parameters, the stored
parameters being after the call what they were before. -/
theorem calculate_training_loss_sum (environment : LossEnvironment) (L : LossIndex)
    (parameters : List ℚ) :
    L.calculate_training_loss environment = environment.calculate_training_error
      + L.regularization_weight * L.calculate_regularization_at environment.parameters ∧
    (L.calculate_training_loss_at environment parameters).value
      = environment.calculate_training_error_at parameters
        + L.regularization_weight * L.calculate_regularization_at parameters ∧
    (L.calculate_training_loss_at environment parameters).parameters
      = environment.parameters ∧
    L.calculate_training_loss
        { environment with
          parameters := (L.calculate_training_loss_at environment parameters).parameters }
      = L.calculate_training_loss environment :=
  ⟨rfl, rfl, rfl, rfl⟩

/-- C25, at stored parameters (3, -4), training error 10, weight 2 and the L1 regularization:
the loss is 10 + 2 * 7, and at the parameters (1, 1) with the error their sum it is 2 + 2 * 2. -/
theorem calculate_training_loss_sum_witness :
    calculate_training_loss ⟨[3, -4], 10, fun p => p.sum⟩
      ⟨none, none, .L1, 2, 1000, true, none⟩ = 24 ∧
    calculate_training_loss_at ⟨[3, -4], 10, fun p => p.sum⟩
      ⟨none, none, .L1, 2, 1000, true, none⟩ [1, 1] = ⟨6, [3, -4]⟩ ∧
    (calculate_training_loss_at ⟨[3, -4], 10, fun p => p.sum⟩
      ⟨none, none, .L1, 2, 1000, true, none⟩ [1, 1]).parameters = [3, -4] :=
  ⟨by decide!, by decide!,
    (calculate_training_loss_sum ⟨[3, -4], 10, fun p => p.sum⟩
      ⟨none, none, .L1, 2, 1000, true, none⟩ [1, 1]).2.2.1⟩

/-- C26. With the regularization method None, for every parameter vector p of length n,
`calculate_regularization(p)` is 0.0, `calculate_regularization_gradient(p)` is the zero vector
of length n and `calculate_regularization_Hessian(p)` is the zero n-by-n matrix. -/
theorem regularization_none (L : LossIndex) (p : List ℚ)
    (hm : L.regularization_method = .None) :
    L.calculate_regularization_at p = 0 ∧
    L.calculate_regularization_gradient_at p = List.replicate p.length 0 ∧
    L.calculate_regularization_Hessian_at p = .ok (Matrix.filled p.length p.length 0) ∧
    (Matrix.filled p.length p.length 0).rows_number = p.length ∧
    (Matrix.filled p.length p.length 0).columns_number = p.length ∧
    (∀ i j, i < p.length → j < p.length →
      (Matrix.filled p.length p.length 0).read i j = .ok 0) := by
  refine ⟨?_, ?_, ?_, rfl, rfl, fun i j hi hj => Matrix.filled_read 0 hi hj⟩
  · simp [calculate_regularization_at, hm]
  · simp [calculate_regularization_gradient_at, hm]
  · simp [calculate_regularization_Hessian_at, hm]

/-- C26, at the parameters (2, -3) with the method None, next to the methods L1 and L2, whose
gradients at 2 are 1 and 4. -/
theorem regularization_none_witness :
    calculate_regularization_at ⟨none, none, .None, 1, 1000, true, none⟩ [2, -3] = 0 ∧
    calculate_regularization_gradient_at ⟨none, none, .None, 1, 1000, true, none⟩ [2, -3]
      = [0, 0] ∧
    calculate_regularization_Hessian_at ⟨none, none, .None, 1, 1000, true, none⟩ [2, -3]
      = .ok ⟨2, 2, [0, 0, 0, 0]⟩ ∧
    calculate_regularization_gradient_at ⟨none, none, .L1, 1, 1000, true, none⟩ [2] = [1] ∧
    calculate_regularization_gradient_at ⟨none, none, .L2, 1, 1000, true, none⟩ [2] = [4] :=
  ⟨(regularization_none ⟨none, none, .None, 1, 1000, true, none⟩ [2, -3] rfl).1,
    by decide, by decide, by decide!, by decide!⟩

end LossIndex

/-! ## The threshold selection loop -/

namespace KappaCoefficientOptimizationThreshold

theorem iterate_threshold_data (K : KappaCoefficientOptimizationThreshold)
    (environment : SelectionEnvironment) (s : SelectionState) :
    (iterate K environment s).1.threshold_data = s.threshold_data ++ [s.current_threshold] ∧
    (iterate K environment s).1.iterations = s.iterations + 1 ∧
    (iterate K environment s).1.current_threshold
      = min K.maximum_threshold (s.current_threshold + K.step) :=
  ⟨rfl, rfl, rfl⟩

theorem iterate_stops (K : KappaCoefficientOptimizationThreshold)
    (environment : SelectionEnvironment) (s : SelectionState)
    (h : |s.current_threshold - K.maximum_threshold| < epsilon) :
    ∃ stop, (iterate K environment s).2 = some stop := by
  unfold iterate
  simp only
  split_ifs with h1
  · exact ⟨_, rfl⟩
  · exact ⟨_, rfl⟩

/-- The loop records the current threshold and counts one pass for each recorded threshold. -/
theorem selection_loop_appends (K : KappaCoefficientOptimizationThreshold)
    (environment : SelectionEnvironment) (fuel : Nat) (s s' : SelectionState)
    (stop : StoppingCondition) (h : selection_loop K environment fuel s = some (s', stop)) :
    (∃ later, s'.threshold_data = s.threshold_data ++ s.current_threshold :: later) ∧
    s'.iterations + s.threshold_data.length = s.iterations + s'.threshold_data.length := by
  induction fuel generalizing s with
  | zero => simp [selection_loop] at h
  | succ n ih =>
    unfold selection_loop at h
    obtain ⟨hd, hi, _⟩ := iterate_threshold_data K environment s
    cases hr : (iterate K environment s).2 with
    | some r =>
      have hit : iterate K environment s = ((iterate K environment s).1, some r) := by
        rw [← hr]
      rw [hit] at h
      simp only [Option.some.injEq, Prod.mk.injEq] at h
      obtain ⟨h1, _⟩ := h
      subst h1
      exact ⟨⟨[], hd⟩, by rw [hd, hi]; simp; omega⟩
    | none =>
      have hit : iterate K environment s = ((iterate K environment s).1, none) := by
        rw [← hr]
      rw [hit] at h
      simp only at h
      obtain ⟨⟨later, hl⟩, hcount⟩ := ih _ h
      rw [hd] at hl hcount
      rw [hi] at hcount
      refine ⟨⟨(iterate K environment s).1.current_threshold :: later, ?_⟩, ?_⟩
      · rw [hl]; simp
      · simp at hcount; omega

theorem optimum_invariant_iterate (K : KappaCoefficientOptimizationThreshold)
    (environment : SelectionEnvironment) (s : SelectionState) (thresholds : List ℚ)
    (hsep : separated environment thresholds)
    (hdata : ∀ t, t ∈ s.threshold_data → t ∈ thresholds)
    (hcur : s.current_threshold ∈ thresholds)
    (hinv : optimum_invariant environment s) :
    optimum_invariant environment (iterate K environment s).1 := by
  have heps : (0 : ℚ) < epsilon := by unfold epsilon; positivity
  by_cases hrep : improves (kappa_at environment s.current_threshold)
      s.optimum_kappa_coefficient
      (environment.calculate_binary_classification_test
        (environment.calculate_confusion s.current_threshold))
      s.optimal_binary_classification_test
  · -- the optimum is replaced
    cases hk : kappa_at environment s.current_threshold with
    | none => rw [hk] at hrep; exact absurd hrep (by simp [improves])
    | some k =>
      rw [hk] at hrep
      have hopt : (iterate K environment s).1.optimum_kappa_coefficient = k := by
        have : improves (kappa_coefficient environment.selection_instances_number
            (environment.calculate_confusion s.current_threshold))
            s.optimum_kappa_coefficient
            (environment.calculate_binary_classification_test
              (environment.calculate_confusion s.current_threshold))
            s.optimal_binary_classification_test := by
          have := hk
          unfold kappa_at at this
          rw [this]; exact hrep
        simp only [iterate, this, if_true]
        have := hk
        unfold kappa_at at this
        rw [this]; rfl
      have hthr : (iterate K environment s).1.optimum_threshold = s.current_threshold := by
        have : improves (kappa_coefficient environment.selection_instances_number
            (environment.calculate_confusion s.current_threshold))
            s.optimum_kappa_coefficient
            (environment.calculate_binary_classification_test
              (environment.calculate_confusion s.current_threshold))
            s.optimal_binary_classification_test := by
          have := hk
          unfold kappa_at at this
          rw [this]; exact hrep
        simp only [iterate, this, if_true]
      right
      rw [hopt, hthr, (iterate_threshold_data K environment s).1]
      refine ⟨⟨s.current_threshold, by simp, rfl, hk⟩, ?_⟩
      intro t ht kj hkj
      rw [List.mem_append, List.mem_singleton] at ht
      rcases ht with ht | ht
      · by_contra hlt
        have hlt : k < kj := not_le.mp hlt
        have hne : kj ≠ k := ne_of_gt hlt
        have hfar := hsep t (hdata t ht) s.current_threshold hcur kj k hkj hk hne
        rw [abs_of_pos (sub_pos.mpr hlt)] at hfar
        simp only [improves] at hrep
        rcases hinv with ⟨h0, hall⟩ | ⟨⟨t0, ht0, _, hk0⟩, hall⟩
        · have hkj0 := hall t ht kj hkj
          rw [h0] at hrep
          rcases hrep with hpos | ⟨htie, _⟩
          · linarith
          · have := (abs_lt.mp htie).1
            linarith
        · have hkjo := hall t ht kj hkj
          rcases hrep with hgt | ⟨htie, _⟩
          · linarith
          · by_cases hko : k = s.optimum_kappa_coefficient
            · rw [hko] at hlt; linarith
            · have := hsep s.current_threshold hcur t0 (hdata t0 ht0) k
                s.optimum_kappa_coefficient hk hk0 hko
              linarith
      · rw [ht, hk] at hkj
        injection hkj with hkj
        rw [hkj]
  · -- the optimum stays
    have hnot : ¬ improves (kappa_coefficient environment.selection_instances_number
        (environment.calculate_confusion s.current_threshold))
        s.optimum_kappa_coefficient
        (environment.calculate_binary_classification_test
          (environment.calculate_confusion s.current_threshold))
        s.optimal_binary_classification_test := hrep
    have hopt : (iterate K environment s).1.optimum_kappa_coefficient
        = s.optimum_kappa_coefficient := by
      simp only [iterate, hnot, if_false]
    have hthr : (iterate K environment s).1.optimum_threshold = s.optimum_threshold := by
      simp only [iterate, hnot, if_false]
    have hnew : ∀ k, kappa_at environment s.current_threshold = some k →
        k ≤ s.optimum_kappa_coefficient := by
      intro k hk
      rw [hk] at hrep
      simp only [improves, not_or] at hrep
      exact not_lt.mp hrep.1
    unfold optimum_invariant
    rw [hopt, hthr, (iterate_threshold_data K environment s).1]
    rcases hinv with ⟨h0, hall⟩ | ⟨⟨t0, ht0, hto, hk0⟩, hall⟩
    · left
      refine ⟨h0, ?_⟩
      intro t ht kj hkj
      rw [List.mem_append, List.mem_singleton] at ht
      rcases ht with ht | ht
      · exact hall t ht kj hkj
      · rw [ht] at hkj
        have := hnew kj hkj
        rw [h0] at this
        exact this
    · right
      refine ⟨⟨t0, by simp [ht0], hto, hk0⟩, ?_⟩
      intro t ht kj hkj
      rw [List.mem_append, List.mem_singleton] at ht
      rcases ht with ht | ht
      · exact hall t ht kj hkj
      · rw [ht] at hkj
        exact hnew kj hkj

theorem optimum_invariant_loop (K : KappaCoefficientOptimizationThreshold)
    (environment : SelectionEnvironment) (fuel : Nat) (s s' : SelectionState)
    (stop : StoppingCondition) (h : selection_loop K environment fuel s = some (s', stop))
    (hsep : separated environment s'.threshold_data)
    (hinv : optimum_invariant environment s) :
    optimum_invariant environment s' := by
  induction fuel generalizing s with
  | zero => simp [selection_loop] at h
  | succ n ih =>
    obtain ⟨⟨later, hl⟩, _⟩ := selection_loop_appends K environment (n + 1) s s' stop h
    have hstep := optimum_invariant_iterate K environment s s'.threshold_data hsep
      (by intro t ht; rw [hl]; simp [ht]) (by rw [hl]; simp) hinv
    unfold selection_loop at h
    cases hr : (iterate K environment s).2 with
    | some r =>
      have hit : iterate K environment s = ((iterate K environment s).1, some r) := by
        rw [← hr]
      rw [hit] at h
      simp only [Option.some.injEq, Prod.mk.injEq] at h
      rw [← h.1]
      exact hstep
    | none =>
      have hit : iterate K environment s = ((iterate K environment s).1, none) := by
        rw [← hr]
      rw [hit] at h
      simp only at h
      exact ih _ h hstep

/-- With a positive step the loop ends: from a head of the loop at which the distance to the
maximum threshold is at most n steps, n + 2 passes suffice. -/
theorem selection_loop_ends (K : KappaCoefficientOptimizationThreshold)
    (environment : SelectionEnvironment) (hstep : 0 < K.step) (n : Nat) (s : SelectionState)
    (hn : (K.maximum_threshold - s.current_threshold) / K.step ≤ n) :
    ∃ r, selection_loop K environment (n + 2) s = some r := by
  have heps : (0 : ℚ) < epsilon := by unfold epsilon; positivity
  induction n generalizing s with
  | zero =>
    have hge : K.maximum_threshold ≤ s.current_threshold := by
      have h1 : K.maximum_threshold - s.current_threshold ≤ 0 := by
        have := (div_le_iff₀ hstep).mp hn
        simpa using this
      linarith
    unfold selection_loop
    cases hr : (iterate K environment s).2 with
    | some r =>
      have hit : iterate K environment s = ((iterate K environment s).1, some r) := by
        rw [← hr]
      rw [hit]
      exact ⟨_, rfl⟩
    | none =>
      have hit : iterate K environment s = ((iterate K environment s).1, none) := by
        rw [← hr]
      rw [hit]
      simp only
      have hcur : (iterate K environment s).1.current_threshold = K.maximum_threshold := by
        rw [(iterate_threshold_data K environment s).2.2]
        exact min_eq_left (by linarith)
      obtain ⟨stop, hstop⟩ := iterate_stops K environment (iterate K environment s).1
        (by rw [hcur]; simpa using heps)
      unfold selection_loop
      have hit2 : iterate K environment (iterate K environment s).1
          = ((iterate K environment (iterate K environment s).1).1, some stop) := by
        rw [← hstop]
      rw [hit2]
      exact ⟨_, rfl⟩
  | succ n ih =>
    unfold selection_loop
    cases hr : (iterate K environment s).2 with
    | some r =>
      have hit : iterate K environment s = ((iterate K environment s).1, some r) := by
        rw [← hr]
      rw [hit]
      exact ⟨_, rfl⟩
    | none =>
      have hit : iterate K environment s = ((iterate K environment s).1, none) := by
        rw [← hr]
      rw [hit]
      simp only
      apply ih
      rw [(iterate_threshold_data K environment s).2.2]
      have h1 : K.maximum_threshold - s.current_threshold ≤ (↑(n + 1) : ℚ) * K.step :=
        (div_le_iff₀ hstep).mp hn
      rw [div_le_iff₀ hstep]
      push_cast at h1
      rcases min_cases K.maximum_threshold (s.current_threshold + K.step) with ⟨h2, _⟩ | ⟨h2, _⟩
      · rw [h2]
        have : (0 : ℚ) ≤ (n : ℚ) * K.step := by positivity
        linarith
      · rw [h2]
        linarith

/-- C21. The code at the settings 1/4, 3/4, 1/4 and four selection instances whose confusion
matrix has the rows (0, 2) and (2, 0) at every threshold: each of the three evaluated
thresholds 1/4, 1/2 and 3/4 has the kappa coefficient -1, which is neither above the 0.0 that
`optimum_kappa_coefficient` starts at nor within machine epsilon of it, so the optimum is never
assigned: the results carry the final threshold 0, which is not among the recorded thresholds,
and the final function value 0, which is the kappa coefficient of none of them. -/
theorem perform_threshold_selection_unevaluated_optimum :
    (KappaCoefficientOptimizationThreshold.mk (1 / 4) (3 / 4) (1 / 4) false true
        false).perform_threshold_selection
      ⟨4, fun _ => ⟨0, 2, 2, 0⟩, fun c => List.replicate 15 (((c.c01 + c.c10 : Nat) : ℚ) / 4)⟩ 3
      = some ⟨[1 / 4, 1 / 2, 3 / 4], [], [some (-1), some (-1), some (-1)],
          .AlgorithmFinished, 3, 0, 0, 0⟩ ∧
    (0 : ℚ) ∉ [(1 : ℚ) / 4, 1 / 2, 3 / 4] ∧
    (∀ t, kappa_at
      ⟨4, fun _ => ⟨0, 2, 2, 0⟩, fun c => List.replicate 15 (((c.c01 + c.c10 : Nat) : ℚ) / 4)⟩ t
      = some (-1)) ∧
    ¬ ((-1 : ℚ) > 0) ∧ ¬ (|(-1 : ℚ) - 0| < epsilon) := by
  refine ⟨by decide!, by decide!, fun t => ?_, by norm_num, ?_⟩
  · show kappa_coefficient 4 ⟨0, 2, 2, 0⟩ = some (-1)
    decide!
  · unfold epsilon
    norm_num

/-- Over exact arithmetic, when one of the evaluated thresholds has a positive kappa coefficient
and no two of them have kappa coefficients that differ by less than machine epsilon without
being equal, the final threshold is one of the thresholds recorded in `threshold_data`, the
final function value is the kappa coefficient computed at that threshold, and no evaluated
threshold has a larger kappa coefficient; with a positive step some number of passes gives a
result. -/
theorem perform_threshold_selection_optimum (K : KappaCoefficientOptimizationThreshold)
    (environment : SelectionEnvironment) :
    (∀ fuel results, K.perform_threshold_selection environment fuel = some results →
      (∃ t, t ∈ results.threshold_data ∧ ∃ k, kappa_at environment t = some k ∧ 0 < k) →
      (∀ t, t ∈ results.threshold_data → ∀ t', t' ∈ results.threshold_data → ∀ k k',
        kappa_at environment t = some k → kappa_at environment t' = some k' → k ≠ k' →
        epsilon ≤ |k - k'|) →
      (∃ t, t ∈ results.threshold_data ∧ results.final_threshold = t ∧
        kappa_at environment t = some results.final_function_value) ∧
      (∀ t, t ∈ results.threshold_data → ∀ k, kappa_at environment t = some k →
        k ≤ results.final_function_value)) ∧
    (0 < K.step →
      ∃ fuel results, K.perform_threshold_selection environment fuel = some results) := by
  constructor
  · intro fuel results hres hpos hsep
    unfold perform_threshold_selection at hres
    cases hl : selection_loop K environment fuel (initial_state K) with
    | none => rw [hl] at hres; cases hres
    | some r =>
      obtain ⟨s, stop⟩ := r
      rw [hl] at hres
      simp only [Option.some.injEq] at hres
      subst hres
      simp only at hpos hsep ⊢
      have hinv := optimum_invariant_loop K environment fuel (initial_state K) s stop hl hsep
        (Or.inl ⟨rfl, fun t ht => by simp [initial_state] at ht⟩)
      rcases hinv with ⟨_, hall⟩ | ⟨hex, hall⟩
      · obtain ⟨t, ht, k, hk, hkpos⟩ := hpos
        have := hall t ht k hk
        linarith
      · exact ⟨hex, hall⟩
  · intro hstep
    obtain ⟨⟨s, stop⟩, hr⟩ := selection_loop_ends K environment hstep
      ⌈(K.maximum_threshold - K.minimum_threshold) / K.step⌉₊ (initial_state K)
      (Nat.le_ceil _)
    refine ⟨⌈(K.maximum_threshold - K.minimum_threshold) / K.step⌉₊ + 2,
      { threshold_data := s.threshold_data
        binary_classification_test_data := s.binary_classification_test_data
        function_data := s.function_data
        stopping_condition := stop
        iterations_number := s.iterations
        final_threshold := s.optimum_threshold
        final_function_value := s.optimum_kappa_coefficient
        decision_threshold := s.optimum_threshold }, ?_⟩
    unfold perform_threshold_selection
    rw [hr]

/-- The settings 1/4, 3/4, 1/4 and eight instances whose confusion matrix has the rows (2, 2),
(2, 2) at the threshold 1/4, (3, 1), (1, 3) at 1/2 and (3, 1), (2, 2) at 3/4: the kappa
coefficients are 0, 1/2 and 1/4, and the results carry the threshold 1/2 and the value 1/2. -/
theorem perform_threshold_selection_optimum_example :
    (KappaCoefficientOptimizationThreshold.mk (1 / 4) (3 / 4) (1 / 4) false true
        false).perform_threshold_selection
      ⟨8, fun t => if t = 1 / 4 then ⟨2, 2, 2, 2⟩ else if t = 1 / 2 then ⟨3, 1, 1, 3⟩
          else ⟨3, 1, 2, 2⟩,
        fun c => List.replicate 15 (((c.c01 + c.c10 : Nat) : ℚ) / 8)⟩ 3
      = some ⟨[1 / 4, 1 / 2, 3 / 4], [], [some 0, some (1 / 2), some (1 / 4)],
          .AlgorithmFinished, 3, 1 / 2, 1 / 2, 1 / 2⟩ ∧
    ∀ t, t ∈ [(1 : ℚ) / 4, 1 / 2, 3 / 4] → ∀ k,
      kappa_at ⟨8, fun t => if t = 1 / 4 then ⟨2, 2, 2, 2⟩ else if t = 1 / 2 then ⟨3, 1, 1, 3⟩
          else ⟨3, 1, 2, 2⟩,
        fun c => List.replicate 15 (((c.c01 + c.c10 : Nat) : ℚ) / 8)⟩ t = some k →
      k ≤ 1 / 2 :=
  have hrun : (KappaCoefficientOptimizationThreshold.mk (1 / 4) (3 / 4) (1 / 4) false true
        false).perform_threshold_selection
      ⟨8, fun t => if t = 1 / 4 then ⟨2, 2, 2, 2⟩ else if t = 1 / 2 then ⟨3, 1, 1, 3⟩
          else ⟨3, 1, 2, 2⟩,
        fun c => List.replicate 15 (((c.c01 + c.c10 : Nat) : ℚ) / 8)⟩ 3
      = some ⟨[1 / 4, 1 / 2, 3 / 4], [], [some 0, some (1 / 2), some (1 / 4)],
          .AlgorithmFinished, 3, 1 / 2, 1 / 2, 1 / 2⟩ := by decide!
  ⟨hrun, ((perform_threshold_selection_optimum _ _).1 3 _ hrun
    ⟨1 / 2, by simp, 1 / 2, by decide!, by norm_num⟩
    (by
      intro t ht t' ht' k k' hk hk' hne
      have h1 : (1 : ℚ) / 4 ≤ |k - k'| := by
        simp only [List.mem_cons, List.mem_singleton, List.not_mem_nil, or_false] at ht ht'
        have e1 : kappa_at ⟨8, fun t => if t = 1 / 4 then ⟨2, 2, 2, 2⟩
            else if t = 1 / 2 then ⟨3, 1, 1, 3⟩ else ⟨3, 1, 2, 2⟩,
            fun c => List.replicate 15 (((c.c01 + c.c10 : Nat) : ℚ) / 8)⟩ (1 / 4)
            = some 0 := by decide!
        have e2 : kappa_at ⟨8, fun t => if t = 1 / 4 then ⟨2, 2, 2, 2⟩
            else if t = 1 / 2 then ⟨3, 1, 1, 3⟩ else ⟨3, 1, 2, 2⟩,
            fun c => List.replicate 15 (((c.c01 + c.c10 : Nat) : ℚ) / 8)⟩ (1 / 2)
            = some (1 / 2) := by decide!
        have e3 : kappa_at ⟨8, fun t => if t = 1 / 4 then ⟨2, 2, 2, 2⟩
            else if t = 1 / 2 then ⟨3, 1, 1, 3⟩ else ⟨3, 1, 2, 2⟩,
            fun c => List.replicate 15 (((c.c01 + c.c10 : Nat) : ℚ) / 8)⟩ (3 / 4)
            = some (1 / 4) := by decide!
        rcases ht with rfl | rfl | rfl <;> rcases ht' with rfl | rfl | rfl <;>
          simp only [e1, e2, e3, Option.some.injEq] at hk hk' <;> subst hk <;> subst hk' <;>
          first
            | exact absurd rfl hne
            | norm_num [abs_of_pos, abs_of_neg]
      have h2 : epsilon ≤ 1 / 4 := by unfold epsilon; norm_num
      exact le_trans h2 h1)).2⟩

end KappaCoefficientOptimizationThreshold

/-! ## The kappa coefficient of a confusion matrix -/

namespace KappaCoefficientOptimizationThreshold

/-- With a number of instances that is not zero only the last division can fail. -/
theorem kappa_coefficient_eq (N : Nat) (c : ConfusionMatrix) (hN : 0 < N) :
    kappa_coefficient N c
      = divide (((c.c00 + c.c11 : Nat) : ℚ) / N - chance_agreement N c)
          (1 - chance_agreement N c) := by
  have hN0 : (N : ℚ) ≠ 0 := by exact_mod_cast hN.ne'
  simp only [kappa_coefficient, divide, if_neg hN0, chance_agreement, bind, Option.bind]

/-- The denominator `1 - pe` written over the square of the number of instances. -/
theorem one_sub_chance_agreement (N : Nat) (c : ConfusionMatrix) (hN : 0 < N)
    (hsum : c.c00 + c.c01 + c.c10 + c.c11 = N) :
    1 - chance_agreement N c
      = (((c.c00 + c.c01 : Nat) : ℚ) * ((c.c01 + c.c11 : Nat) : ℚ)
          + ((c.c00 + c.c10 : Nat) : ℚ) * ((c.c10 + c.c11 : Nat) : ℚ)) / ((N : ℚ) * N) := by
  have hN0 : (N : ℚ) ≠ 0 := by exact_mod_cast hN.ne'
  have hs : ((c.c00 : ℚ) + c.c01 + c.c10 + c.c11) = N := by exact_mod_cast hsum
  unfold chance_agreement
  simp only
  push_cast
  rw [← hs] at hN0 ⊢
  field_simp
  ring

/-- The chance agreement is 1 exactly when all instances are in one cell of the diagonal. -/
theorem chance_agreement_eq_one_iff (N : Nat) (c : ConfusionMatrix) (hN : 0 < N)
    (hsum : c.c00 + c.c01 + c.c10 + c.c11 = N) :
    1 - chance_agreement N c = 0 ↔ (c.c00 = N ∨ c.c11 = N) := by
  have hNq : (0 : ℚ) < (N : ℚ) * N := by
    have : (0 : ℚ) < N := by exact_mod_cast hN
    positivity
  rw [one_sub_chance_agreement N c hN hsum, div_eq_zero_iff]
  constructor
  · rintro (h | h)
    · have h' : (c.c00 + c.c01) * (c.c01 + c.c11) + (c.c00 + c.c10) * (c.c10 + c.c11) = 0 := by
        exact_mod_cast h
      have h1 : (c.c00 + c.c01) * (c.c01 + c.c11) = 0 := by omega
      have h2 : (c.c00 + c.c10) * (c.c10 + c.c11) = 0 := by omega
      rcases Nat.mul_eq_zero.mp h1 with a | a <;> rcases Nat.mul_eq_zero.mp h2 with b | b
      · right; omega
      · omega
      · omega
      · left; omega
    · exact absurd h hNq.ne'
  · rintro (h | h)
    · left
      have h1 : c.c01 = 0 := by omega
      have h2 : c.c10 = 0 := by omega
      have h3 : c.c11 = 0 := by omega
      rw [h1, h2, h3]
      simp
    · left
      have h1 : c.c01 = 0 := by omega
      have h2 : c.c10 = 0 := by omega
      have h3 : c.c00 = 0 := by omega
      rw [h1, h2, h3]
      simp

theorem one_sub_chance_agreement_nonneg (N : Nat) (c : ConfusionMatrix) (hN : 0 < N)
    (hsum : c.c00 + c.c01 + c.c10 + c.c11 = N) : 0 ≤ 1 - chance_agreement N c := by
  rw [one_sub_chance_agreement N c hN hsum]
  positivity

/-- A computed kappa coefficient is at most 1, and is 1 exactly when both off-diagonal entries
are zero. -/
theorem kappa_coefficient_le_one (N : Nat) (c : ConfusionMatrix) (hN : 0 < N)
    (hsum : c.c00 + c.c01 + c.c10 + c.c11 = N) (k : ℚ) (hk : kappa_coefficient N c = some k) :
    k ≤ 1 ∧ (k = 1 ↔ c.c01 = 0 ∧ c.c10 = 0) := by
  rw [kappa_coefficient_eq N c hN] at hk
  unfold divide at hk
  split_ifs at hk with h0
  simp only [Option.some.injEq] at hk
  have hpos : 0 < 1 - chance_agreement N c :=
    lt_of_le_of_ne (one_sub_chance_agreement_nonneg N c hN hsum) (Ne.symm h0)
  have hNq : (0 : ℚ) < N := by exact_mod_cast hN
  have hs : ((c.c00 : ℚ) + c.c01 + c.c10 + c.c11) = N := by exact_mod_cast hsum
  have hpo : 1 - ((c.c00 + c.c11 : Nat) : ℚ) / N = ((c.c01 + c.c10 : Nat) : ℚ) / N := by
    push_cast
    field_simp
    linarith
  have hpo0 : 0 ≤ 1 - ((c.c00 + c.c11 : Nat) : ℚ) / N := by
    rw [hpo]; positivity
  subst hk
  constructor
  · rw [div_le_one hpos]
    linarith
  · rw [div_eq_one_iff_eq h0]
    constructor
    · intro h
      have h1 : ((c.c01 + c.c10 : Nat) : ℚ) / N = 0 := by rw [← hpo]; linarith
      rw [div_eq_zero_iff] at h1
      rcases h1 with h1 | h1
      · have : c.c01 + c.c10 = 0 := by exact_mod_cast h1
        omega
      · exact absurd h1 hNq.ne'
    · rintro ⟨h1, h2⟩
      have h3 : 1 - ((c.c00 + c.c11 : Nat) : ℚ) / N = 0 := by
        rw [hpo, h1, h2]; simp
      linarith

/-- A perfect confusion matrix with both diagonal entries non-zero has the kappa coefficient
1. -/
theorem kappa_coefficient_perfect (N : Nat) (c : ConfusionMatrix) (hN : 0 < N)
    (hsum : c.c00 + c.c01 + c.c10 + c.c11 = N) (h01 : c.c01 = 0) (h10 : c.c10 = 0)
    (h00 : 0 < c.c00) (h11 : 0 < c.c11) : kappa_coefficient N c = some 1 := by
  have hne : 1 - chance_agreement N c ≠ 0 := by
    intro h
    rcases (chance_agreement_eq_one_iff N c hN hsum).mp h with h | h <;> omega
  have hk : kappa_coefficient N c
      = some ((((c.c00 + c.c11 : Nat) : ℚ) / N - chance_agreement N c)
          / (1 - chance_agreement N c)) := by
    rw [kappa_coefficient_eq N c hN]
    unfold divide
    rw [if_neg hne]
  rw [hk]
  congr 1
  exact ((kappa_coefficient_le_one N c hN hsum _ hk).2).mpr ⟨h01, h10⟩

end KappaCoefficientOptimizationThreshold

/-! ## The passes of the threshold selection loop -/

namespace KappaCoefficientOptimizationThreshold

theorem min_cap_add (M a b : ℚ) (hb : 0 ≤ b) : min M (min M a + b) = min M (a + b) := by
  rcases le_total M a with h | h
  · rw [min_eq_left h, min_eq_left (by linarith), min_eq_left (by linarith)]
  · rw [min_eq_right h]

theorem iterate_stop_eq (K : KappaCoefficientOptimizationThreshold)
    (environment : SelectionEnvironment) (s : SelectionState) :
    (iterate K environment s).2
      = if (environment.calculate_confusion s.current_threshold).c01 = 0 ∧
          (environment.calculate_confusion s.current_threshold).c10 = 0 then
          some .PerfectConfusionMatrix
        else if |s.current_threshold - K.maximum_threshold| < epsilon then
          some .AlgorithmFinished
        else none := rfl

theorem iterate_optimum (K : KappaCoefficientOptimizationThreshold)
    (environment : SelectionEnvironment) (s : SelectionState) :
    (improves (kappa_at environment s.current_threshold) s.optimum_kappa_coefficient
        (environment.calculate_binary_classification_test
          (environment.calculate_confusion s.current_threshold))
        s.optimal_binary_classification_test →
      (iterate K environment s).1.optimum_kappa_coefficient
        = (kappa_at environment s.current_threshold).getD 0 ∧
      (iterate K environment s).1.optimum_threshold = s.current_threshold) ∧
    (¬ improves (kappa_at environment s.current_threshold) s.optimum_kappa_coefficient
        (environment.calculate_binary_classification_test
          (environment.calculate_confusion s.current_threshold))
        s.optimal_binary_classification_test →
      (iterate K environment s).1.optimum_kappa_coefficient = s.optimum_kappa_coefficient ∧
      (iterate K environment s).1.optimum_threshold = s.optimum_threshold) := by
  unfold kappa_at
  constructor
  · intro h
    simp only [iterate, h, if_true, and_self]
  · intro h
    simp only [iterate, h, if_false, and_self]

/-- More passes than the loop needs change nothing. -/
theorem selection_loop_mono (K : KappaCoefficientOptimizationThreshold)
    (environment : SelectionEnvironment) (fuel extra : Nat) (s : SelectionState)
    (r : SelectionState × StoppingCondition)
    (h : selection_loop K environment fuel s = some r) :
    selection_loop K environment (fuel + extra) s = some r := by
  induction fuel generalizing s with
  | zero => simp [selection_loop] at h
  | succ n ih =>
    rw [Nat.succ_add]
    unfold selection_loop at h ⊢
    cases hr : (iterate K environment s).2 with
    | some stop =>
      have hit : iterate K environment s = ((iterate K environment s).1, some stop) := by
        rw [← hr]
      rw [hit] at h ⊢
      exact h
    | none =>
      have hit : iterate K environment s = ((iterate K environment s).1, none) := by
        rw [← hr]
      rw [hit] at h ⊢
      exact ih _ h

/-- The result of the loop does not depend on the number of passes allowed. -/
theorem selection_loop_unique (K : KappaCoefficientOptimizationThreshold)
    (environment : SelectionEnvironment) (fuel fuel' : Nat) (s : SelectionState)
    (r r' : SelectionState × StoppingCondition)
    (h : selection_loop K environment fuel s = some r)
    (h' : selection_loop K environment fuel' s = some r') : r = r' := by
  have h1 := selection_loop_mono K environment fuel fuel' s r h
  have h2 := selection_loop_mono K environment fuel' fuel s r' h'
  rw [Nat.add_comm] at h2
  rw [h1] at h2
  exact Option.some.inj h2

/-- The thresholds the loop records from a head at which the current threshold is at most the
maximum: the current threshold plus k steps, capped at the maximum, for k = 0, ..., m; and m is
at most the number of steps to the maximum. -/
theorem selection_loop_thresholds (K : KappaCoefficientOptimizationThreshold)
    (environment : SelectionEnvironment) (hstep : 0 ≤ K.step) (fuel : Nat)
    (s s' : SelectionState) (stop : StoppingCondition)
    (hle : s.current_threshold ≤ K.maximum_threshold)
    (h : selection_loop K environment fuel s = some (s', stop)) :
    ∃ m, s'.threshold_data = s.threshold_data ++ (List.range (m + 1)).map
          (fun (k : Nat) => min K.maximum_threshold (s.current_threshold + (k : ℚ) * K.step)) ∧
      s'.iterations = s.iterations + (m + 1) ∧
      ∀ n : Nat, 0 < K.step → (K.maximum_threshold - s.current_threshold) / K.step ≤ n →
        m ≤ n := by
  have heps : (0 : ℚ) < epsilon := by unfold epsilon; positivity
  induction fuel generalizing s with
  | zero => simp [selection_loop] at h
  | succ f ih =>
    unfold selection_loop at h
    obtain ⟨hd, hi, hc⟩ := iterate_threshold_data K environment s
    cases hr : (iterate K environment s).2 with
    | some r =>
      have hit : iterate K environment s = ((iterate K environment s).1, some r) := by
        rw [← hr]
      rw [hit] at h
      simp only [Option.some.injEq, Prod.mk.injEq] at h
      obtain ⟨h1, _⟩ := h
      subst h1
      refine ⟨0, ?_, by rw [hi], fun n _ _ => Nat.zero_le n⟩
      rw [hd]
      simp [List.range_succ, hle]
    | none =>
      have hit : iterate K environment s = ((iterate K environment s).1, none) := by
        rw [← hr]
      rw [hit] at h
      simp only at h
      have hle' : (iterate K environment s).1.current_threshold ≤ K.maximum_threshold := by
        rw [hc]; exact min_le_left _ _
      obtain ⟨m, hm, hit', hbound⟩ := ih _ hle' h
      refine ⟨m + 1, ?_, by rw [hit', hi]; omega, ?_⟩
      · rw [hm, hd, hc, List.range_succ_eq_map (m + 1), List.map_cons, List.map_map,
          List.append_assoc]
        congr 1
        simp only [List.singleton_append, Nat.cast_zero, zero_mul, add_zero,
          min_eq_right hle]
        congr 1
        apply List.map_congr_left
        intro k _
        simp only [Function.comp, Nat.succ_eq_add_one]
        rw [min_cap_add _ _ _ (by positivity)]
        congr 1
        push_cast
        ring
      · intro n hpos hn
        have hnear : ¬ |s.current_threshold - K.maximum_threshold| < epsilon := by
          intro hlt
          obtain ⟨st, hst⟩ := iterate_stops K environment s hlt
          rw [hr] at hst
          cases hst
        have hlt : s.current_threshold < K.maximum_threshold := by
          rcases lt_or_eq_of_le hle with h1 | h1
          · exact h1
          · exact absurd (by rw [h1]; simpa using heps) hnear
        have hn' : K.maximum_threshold - s.current_threshold ≤ (n : ℚ) * K.step :=
          (div_le_iff₀ hpos).mp hn
        have hn0 : (0 : ℚ) < n := by
          by_contra hcon
          have hz : (n : ℚ) ≤ 0 := not_lt.mp hcon
          have : (n : ℚ) * K.step ≤ 0 := mul_nonpos_of_nonpos_of_nonneg hz hpos.le
          linarith
        have hn1 : 0 < n := by exact_mod_cast hn0
        obtain ⟨n', rfl⟩ : ∃ n', n = n' + 1 := ⟨n - 1, by omega⟩
        have := hbound n' hpos (by
          rw [div_le_iff₀ hpos, hc]
          push_cast at hn'
          rcases le_total K.maximum_threshold (s.current_threshold + K.step) with h2 | h2
          · rw [min_eq_left h2]
            have : (0 : ℚ) ≤ (n' : ℚ) * K.step := by positivity
            linarith
          · rw [min_eq_right h2]
            linarith)
        omega

/-- A pass that does not meet a perfect confusion matrix leaves the optimum below 1. -/
theorem iterate_optimum_below_one (K : KappaCoefficientOptimizationThreshold)
    (environment : SelectionEnvironment) (s : SelectionState)
    (hN : 0 < environment.selection_instances_number)
    (hsum : (environment.calculate_confusion s.current_threshold).c00
      + (environment.calculate_confusion s.current_threshold).c01
      + (environment.calculate_confusion s.current_threshold).c10
      + (environment.calculate_confusion s.current_threshold).c11
      = environment.selection_instances_number)
    (hperfect : ¬ ((environment.calculate_confusion s.current_threshold).c01 = 0 ∧
      (environment.calculate_confusion s.current_threshold).c10 = 0))
    (hopt : s.optimum_kappa_coefficient < 1) :
    (iterate K environment s).1.optimum_kappa_coefficient < 1 := by
  by_cases hrep : improves (kappa_at environment s.current_threshold)
      s.optimum_kappa_coefficient
      (environment.calculate_binary_classification_test
        (environment.calculate_confusion s.current_threshold))
      s.optimal_binary_classification_test
  · rw [((iterate_optimum K environment s).1 hrep).1]
    cases hk : kappa_at environment s.current_threshold with
    | none => rw [hk] at hrep; exact absurd hrep (by simp [improves])
    | some k =>
      obtain ⟨h1, h2⟩ := kappa_coefficient_le_one _ _ hN hsum k hk
      simp only [Option.getD_some]
      exact lt_of_le_of_ne h1 (fun h => hperfect (h2.mp h))
  · rw [((iterate_optimum K environment s).2 hrep).1]
    exact hopt

/-- When the loop stops on a perfect confusion matrix, that matrix belongs to the last recorded
threshold, and when both its diagonal entries are non-zero the optimum is that threshold with
the kappa coefficient 1. -/
theorem selection_loop_perfect (K : KappaCoefficientOptimizationThreshold)
    (environment : SelectionEnvironment)
    (hN : 0 < environment.selection_instances_number) (fuel : Nat) (s s' : SelectionState)
    (h : selection_loop K environment fuel s = some (s', .PerfectConfusionMatrix))
    (hsum : ∀ t, t ∈ s'.threshold_data →
      (environment.calculate_confusion t).c00 + (environment.calculate_confusion t).c01
        + (environment.calculate_confusion t).c10 + (environment.calculate_confusion t).c11
        = environment.selection_instances_number)
    (hopt : s.optimum_kappa_coefficient < 1) :
    ∃ last, s'.threshold_data.getLast? = some last ∧
      (environment.calculate_confusion last).c01 = 0 ∧
      (environment.calculate_confusion last).c10 = 0 ∧
      (0 < (environment.calculate_confusion last).c00 →
        0 < (environment.calculate_confusion last).c11 →
        kappa_at environment last = some 1 ∧ s'.optimum_kappa_coefficient = 1 ∧
        s'.optimum_threshold = last) := by
  induction fuel generalizing s with
  | zero => simp [selection_loop] at h
  | succ f ih =>
    have hmem : s.current_threshold ∈ s'.threshold_data := by
      obtain ⟨⟨later, hl⟩, _⟩ := selection_loop_appends K environment _ s s' _ h
      rw [hl]; simp
    unfold selection_loop at h
    obtain ⟨hd, _, _⟩ := iterate_threshold_data K environment s
    cases hr : (iterate K environment s).2 with
    | some r =>
      have hit : iterate K environment s = ((iterate K environment s).1, some r) := by
        rw [← hr]
      rw [hit] at h
      simp only [Option.some.injEq, Prod.mk.injEq] at h
      obtain ⟨h1, h2⟩ := h
      subst h1
      subst h2
      have hperfect : (environment.calculate_confusion s.current_threshold).c01 = 0 ∧
          (environment.calculate_confusion s.current_threshold).c10 = 0 := by
        by_contra hnot
        rw [iterate_stop_eq, if_neg hnot] at hr
        split_ifs at hr
        cases hr
      refine ⟨s.current_threshold, by rw [hd]; simp, hperfect.1, hperfect.2, ?_⟩
      intro h00 h11
      have hk : kappa_at environment s.current_threshold = some 1 :=
        kappa_coefficient_perfect _ _ hN (hsum _ hmem) hperfect.1 hperfect.2 h00 h11
      have hrep : improves (kappa_at environment s.current_threshold)
          s.optimum_kappa_coefficient
          (environment.calculate_binary_classification_test
            (environment.calculate_confusion s.current_threshold))
          s.optimal_binary_classification_test := by
        rw [hk]
        exact Or.inl hopt
      obtain ⟨e1, e2⟩ := (iterate_optimum K environment s).1 hrep
      rw [hk] at e1
      exact ⟨hk, e1, e2⟩
    | none =>
      have hit : iterate K environment s = ((iterate K environment s).1, none) := by
        rw [← hr]
      rw [hit] at h
      simp only at h
      have hperfect : ¬ ((environment.calculate_confusion s.current_threshold).c01 = 0 ∧
          (environment.calculate_confusion s.current_threshold).c10 = 0) := by
        intro hp
        rw [iterate_stop_eq, if_pos hp] at hr
        cases hr
      exact ih _ h
        (iterate_optimum_below_one K environment s hN (hsum _ hmem) hperfect hopt)

end KappaCoefficientOptimizationThreshold

/-! ## Termination, the perfect confusion matrix, the defaults and the written step -/

namespace KappaCoefficientOptimizationThreshold

/-- C31. For every step > 0, every minimum and maximum threshold and every confusion-matrix
oracle, the loop of `perform_threshold_selection` ends: the selection returns within
ceil((maximum - minimum)/step) + 2 passes, and what it returns does not depend on the number
of passes allowed. `iterations_number` is the number of entries of `threshold_data`. When
the minimum is at most the maximum, the loop runs at least once and at most
ceil((maximum - minimum)/step) + 1 times, and the k-th evaluated threshold is the minimum plus
k steps, capped at the maximum. -/
theorem perform_threshold_selection_terminates (K : KappaCoefficientOptimizationThreshold)
    (environment : SelectionEnvironment) (hstep : 0 < K.step) :
    (∃ results, K.perform_threshold_selection environment
        (⌈(K.maximum_threshold - K.minimum_threshold) / K.step⌉₊ + 2) = some results) ∧
    (∀ fuel fuel' results results',
      K.perform_threshold_selection environment fuel = some results →
      K.perform_threshold_selection environment fuel' = some results' →
      results = results') ∧
    (∀ fuel results, K.perform_threshold_selection environment fuel = some results →
      results.iterations_number = results.threshold_data.length ∧
      (K.minimum_threshold ≤ K.maximum_threshold →
        0 < results.iterations_number ∧
        results.iterations_number
          ≤ ⌈(K.maximum_threshold - K.minimum_threshold) / K.step⌉₊ + 1 ∧
        results.threshold_data = (List.range results.iterations_number).map
          (fun (k : Nat) =>
            min K.maximum_threshold (K.minimum_threshold + (k : ℚ) * K.step)))) := by
  refine ⟨?_, ?_, ?_⟩
  · obtain ⟨⟨s, stop⟩, hr⟩ := selection_loop_ends K environment hstep
      ⌈(K.maximum_threshold - K.minimum_threshold) / K.step⌉₊ (initial_state K)
      (Nat.le_ceil _)
    unfold perform_threshold_selection
    rw [hr]
    exact ⟨_, rfl⟩
  · intro fuel fuel' results results' h h'
    unfold perform_threshold_selection at h h'
    cases hl : selection_loop K environment fuel (initial_state K) with
    | none => rw [hl] at h; cases h
    | some r =>
      cases hl' : selection_loop K environment fuel' (initial_state K) with
      | none => rw [hl'] at h'; cases h'
      | some r' =>
        have hrr := selection_loop_unique K environment fuel fuel' _ r r' hl hl'
        subst hrr
        rw [hl] at h
        rw [hl'] at h'
        rw [h] at h'
        exact Option.some.inj h'
  · intro fuel results hres
    unfold perform_threshold_selection at hres
    cases hl : selection_loop K environment fuel (initial_state K) with
    | none => rw [hl] at hres; cases hres
    | some r =>
      obtain ⟨s, stop⟩ := r
      rw [hl] at hres
      simp only [Option.some.injEq] at hres
      subst hres
      simp only
      obtain ⟨_, hcount⟩ := selection_loop_appends K environment fuel _ s stop hl
      refine ⟨by simpa [initial_state] using hcount, ?_⟩
      intro hle
      obtain ⟨m, hm, hit, hbound⟩ :=
        selection_loop_thresholds K environment hstep.le fuel _ s stop hle hl
      have hit' : s.iterations = m + 1 := by simpa [initial_state] using hit
      refine ⟨by omega, ?_, ?_⟩
      · have := hbound ⌈(K.maximum_threshold - K.minimum_threshold) / K.step⌉₊ hstep
          (Nat.le_ceil _)
        omega
      · rw [hit', hm]
        simp [initial_state]

/-- C31, at the settings 1/4, 3/4, 1/4 and a confusion matrix with the rows (1, 1), (1, 1) at
every threshold: the thresholds 1/4, 1/2 and 3/4 are evaluated, in three passes, and three is
ceil((3/4 - 1/4)/(1/4)) + 1. -/
theorem perform_threshold_selection_terminates_witness :
    (KappaCoefficientOptimizationThreshold.mk (1 / 4) (3 / 4) (1 / 4) false true
        false).perform_threshold_selection
      ⟨4, fun _ => ⟨1, 1, 1, 1⟩, fun c => List.replicate 15 (((c.c01 + c.c10 : Nat) : ℚ) / 4)⟩ 3
      = some ⟨[1 / 4, 1 / 2, 3 / 4], [], [some 0, some 0, some 0],
          .AlgorithmFinished, 3, 1 / 4, 0, 1 / 4⟩ ∧
    (3 : Nat) ≤ ⌈((3 : ℚ) / 4 - 1 / 4) / (1 / 4)⌉₊ + 1 ∧
    [(1 : ℚ) / 4, 1 / 2, 3 / 4]
      = (List.range 3).map (fun (k : Nat) => min ((3 : ℚ) / 4) (1 / 4 + (k : ℚ) * (1 / 4))) :=
  have hrun : (KappaCoefficientOptimizationThreshold.mk (1 / 4) (3 / 4) (1 / 4) false true
        false).perform_threshold_selection
      ⟨4, fun _ => ⟨1, 1, 1, 1⟩, fun c => List.replicate 15 (((c.c01 + c.c10 : Nat) : ℚ) / 4)⟩ 3
      = some ⟨[1 / 4, 1 / 2, 3 / 4], [], [some 0, some 0, some 0],
          .AlgorithmFinished, 3, 1 / 4, 0, 1 / 4⟩ := by decide!
  ⟨hrun,
    ((((perform_threshold_selection_terminates ⟨1 / 4, 3 / 4, 1 / 4, false, true, false⟩
      ⟨4, fun _ => ⟨1, 1, 1, 1⟩, fun c => List.replicate 15 (((c.c01 + c.c10 : Nat) : ℚ) / 4)⟩
      (by norm_num)).2.2 3 _ hrun).2 (by norm_num)).2).1,
    ((((perform_threshold_selection_terminates ⟨1 / 4, 3 / 4, 1 / 4, false, true, false⟩
      ⟨4, fun _ => ⟨1, 1, 1, 1⟩, fun c => List.replicate 15 (((c.c01 + c.c10 : Nat) : ℚ) / 4)⟩
      (by norm_num)).2.2 3 _ hrun).2 (by norm_num)).2).2⟩

/-- C32. When every evaluated confusion matrix sums to the number N > 0 of selection
instances and `perform_threshold_selection` stops with PerfectConfusionMatrix, the matrix of
the last evaluated threshold has both off-diagonal entries zero, and when both its diagonal
entries are non-zero the kappa coefficient of that last pass is exactly 1, the final function
value is 1 and the final threshold is the last evaluated threshold. And for every confusion
matrix that sums to N > 0 with a chance agreement other than 1, the computed coefficient
(po - pe)/(1 - pe) is at most 1, and is 1 exactly when both off-diagonal entries are zero. -/
theorem perfect_confusion_matrix_kappa_one (K : KappaCoefficientOptimizationThreshold)
    (environment : SelectionEnvironment) (fuel : Nat)
    (results : KappaCoefficientOptimizationThresholdResults)
    (hN : 0 < environment.selection_instances_number)
    (hres : K.perform_threshold_selection environment fuel = some results)
    (hsum : ∀ t, t ∈ results.threshold_data →
      (environment.calculate_confusion t).c00 + (environment.calculate_confusion t).c01
        + (environment.calculate_confusion t).c10 + (environment.calculate_confusion t).c11
        = environment.selection_instances_number)
    (hstop : results.stopping_condition = .PerfectConfusionMatrix) :
    (∃ last, results.threshold_data.getLast? = some last ∧
      (environment.calculate_confusion last).c01 = 0 ∧
      (environment.calculate_confusion last).c10 = 0 ∧
      (0 < (environment.calculate_confusion last).c00 →
        0 < (environment.calculate_confusion last).c11 →
        kappa_at environment last = some 1 ∧ results.final_function_value = 1 ∧
        results.final_threshold = last)) ∧
    (∀ (N : Nat) (c : ConfusionMatrix), 0 < N → c.c00 + c.c01 + c.c10 + c.c11 = N →
      chance_agreement N c ≠ 1 →
      ∃ k, kappa_coefficient N c = some k ∧
        k = (((c.c00 + c.c11 : Nat) : ℚ) / N - chance_agreement N c)
          / (1 - chance_agreement N c) ∧
        k ≤ 1 ∧ (k = 1 ↔ c.c01 = 0 ∧ c.c10 = 0)) := by
  constructor
  · unfold perform_threshold_selection at hres
    cases hl : selection_loop K environment fuel (initial_state K) with
    | none => rw [hl] at hres; cases hres
    | some r =>
      obtain ⟨s, stop⟩ := r
      rw [hl] at hres
      simp only [Option.some.injEq] at hres
      subst hres
      simp only at hsum hstop ⊢
      subst hstop
      exact selection_loop_perfect K environment hN fuel _ s hl hsum
        (by simp [initial_state])
  · intro N c hN0 hc hpe
    have hne : 1 - chance_agreement N c ≠ 0 := fun h => hpe (by linarith)
    have hk : kappa_coefficient N c
        = some ((((c.c00 + c.c11 : Nat) : ℚ) / N - chance_agreement N c)
            / (1 - chance_agreement N c)) := by
      rw [kappa_coefficient_eq N c hN0]
      unfold divide
      rw [if_neg hne]
    exact ⟨_, hk, rfl, kappa_coefficient_le_one N c hN0 hc _ hk⟩

/-- C32, at the settings 1/4, 3/4, 1/4 and four instances whose confusion matrix has the rows
(1, 1), (1, 1) at the threshold 1/4 and (2, 0), (0, 2) from there on: the selection stops at
1/2 with PerfectConfusionMatrix, the final function value 1 and the final threshold 1/2. -/
theorem perfect_confusion_matrix_kappa_one_witness :
    (KappaCoefficientOptimizationThreshold.mk (1 / 4) (3 / 4) (1 / 4) false true
        false).perform_threshold_selection
      ⟨4, fun t => if t = 1 / 4 then ⟨1, 1, 1, 1⟩ else ⟨2, 0, 0, 2⟩,
        fun c => List.replicate 15 (((c.c01 + c.c10 : Nat) : ℚ) / 4)⟩ 2
      = some ⟨[1 / 4, 1 / 2], [], [some 0, some 1], .PerfectConfusionMatrix, 2, 1 / 2, 1,
          1 / 2⟩ ∧
    ∃ last, [(1 : ℚ) / 4, 1 / 2].getLast? = some last ∧
      (if last = 1 / 4 then ConfusionMatrix.mk 1 1 1 1 else ⟨2, 0, 0, 2⟩).c01 = 0 ∧
      (if last = 1 / 4 then ConfusionMatrix.mk 1 1 1 1 else ⟨2, 0, 0, 2⟩).c10 = 0 :=
  have hrun : (KappaCoefficientOptimizationThreshold.mk (1 / 4) (3 / 4) (1 / 4) false true
        false).perform_threshold_selection
      ⟨4, fun t => if t = 1 / 4 then ⟨1, 1, 1, 1⟩ else ⟨2, 0, 0, 2⟩,
        fun c => List.replicate 15 (((c.c01 + c.c10 : Nat) : ℚ) / 4)⟩ 2
      = some ⟨[1 / 4, 1 / 2], [], [some 0, some 1], .PerfectConfusionMatrix, 2, 1 / 2, 1,
          1 / 2⟩ := by decide!
  ⟨hrun,
    (perfect_confusion_matrix_kappa_one _ _ 2 _ (by decide) hrun
      (by
        intro t ht
        simp only [List.mem_cons, List.mem_singleton, List.not_mem_nil, or_false] at ht
        rcases ht with rfl | rfl
        · decide!
        · decide!)
      rfl).1.imp (fun _ h => ⟨h.1, h.2.1, h.2.2.1⟩)⟩

/-- C33. The code at four selection instances and the confusion matrix with the rows (4, 0)
and (0, 0), whose entries sum to 4: `prA` and `prB` are 1, the chance agreement `pe` is 1, the
numerator `po - pe` is 0 and the denominator `1 - pe` is 0, so the kappa coefficient is the
quotient of zero by zero; the same holds with all four instances in the other diagonal cell.
With the settings 1/4, 3/4, 1/4 the selection then stops on this perfect confusion matrix with
no finite kappa coefficient recorded and the final threshold 0, which it never evaluated. -/
theorem kappa_coefficient_divides_by_zero :
    chance_agreement 4 ⟨4, 0, 0, 0⟩ = 1 ∧
    ((4 + 0 : Nat) : ℚ) / (4 : Nat) - chance_agreement 4 ⟨4, 0, 0, 0⟩ = 0 ∧
    1 - chance_agreement 4 ⟨4, 0, 0, 0⟩ = 0 ∧
    kappa_coefficient 4 ⟨4, 0, 0, 0⟩ = none ∧
    1 - chance_agreement 4 ⟨0, 0, 0, 4⟩ = 0 ∧
    kappa_coefficient 4 ⟨0, 0, 0, 4⟩ = none ∧
    (KappaCoefficientOptimizationThreshold.mk (1 / 4) (3 / 4) (1 / 4) false true
        false).perform_threshold_selection
      ⟨4, fun _ => ⟨4, 0, 0, 0⟩, fun c => List.replicate 15 (((c.c01 + c.c10 : Nat) : ℚ) / 4)⟩ 1
      = some ⟨[1 / 4], [], [none], .PerfectConfusionMatrix, 1, 0, 0, 0⟩ := by
  refine ⟨by decide!, by decide!, by decide!, by decide!, by decide!, by decide!, by decide!⟩

/-- C34. `to_XML` writes the step under the name `Step`, `write_XML` writes it under the name
`Strep`: among the elements `write_XML` pushes there is none named `Step`, and `from_XML`,
given these elements inside a `KappaCoefficientOptimizationThreshold` element, leaves the step
of the receiving object as it was. With the settings 1, 3, 2 written in the build without
debug checks and read into an object with the default settings, the document of `to_XML`
gives the step 2 and the elements of `write_XML` give the step 1/1000. -/
theorem write_XML_step_not_restored :
    (∀ (format : TextFormat) (K : KappaCoefficientOptimizationThreshold),
      (to_XML format K).elements.map (fun element => element.name)
        = ["KappaCoefficientOptimizationThreshold"] ∧
      (to_XML format K).elements.map
          (fun element => element.children.map (fun child => child.name))
        = [["MinimumThreshold", "MaximumThreshold", "Step"]] ∧
      (write_XML format K).map (fun element => element.name)
        = ["MinimumThreshold", "MaximumThreshold", "Strep", "ReserveFunctionData"] ∧
      FirstChildElement (write_XML format K) "Step" = none) ∧
    (∀ (format : TextFormat) (debug : Bool)
        (receiver K : KappaCoefficientOptimizationThreshold),
      (XMLKappaDocumentText.read format
        ⟨[⟨"KappaCoefficientOptimizationThreshold", write_XML format K⟩]⟩).root_element.map
          (fun root_element => root_element.step) = some none ∧
      (from_XML debug receiver (XMLKappaDocumentText.read format
        ⟨[⟨"KappaCoefficientOptimizationThreshold", write_XML format K⟩]⟩)).object.step
        = receiver.step) ∧
    from_XML false ⟨0, 1, 1 / 1000, false, false, false⟩
        (XMLKappaDocumentText.read TextFormat.decimal
          (to_XML TextFormat.decimal ⟨1, 3, 2, false, true, false⟩))
      = ⟨⟨1, 3, 2, false, false, false⟩, none, []⟩ ∧
    from_XML false ⟨0, 1, 1 / 1000, false, false, false⟩
        (XMLKappaDocumentText.read TextFormat.decimal
          ⟨[⟨"KappaCoefficientOptimizationThreshold",
            write_XML TextFormat.decimal ⟨1, 3, 2, false, true, false⟩⟩]⟩)
      = ⟨⟨1, 3, 1 / 1000, false, true, false⟩, none, []⟩ := by
  refine ⟨fun format K => ⟨rfl, rfl, rfl, ?_⟩, fun format debug receiver K => ⟨?_, ?_⟩,
    by decide!, by decide!⟩
  · simp [FirstChildElement, write_XML, List.find?]
  · simp [XMLKappaDocumentText.read, FirstChildElement, write_XML, List.find?]
  · simp only [XMLKappaDocumentText.read, FirstChildElement, write_XML, List.find?, from_XML]
    simp [andThen, from_XML_setting, try_catch, set_minimum_threshold, set_maximum_threshold,
      set_reserve_function_data]
    split_ifs <;> rfl

/-- C35. After `set_default` the minimum threshold is 0, the maximum threshold is 1 and the
step is 1/1000; with the debug checks enabled `set_minimum_threshold(get_minimum_threshold())`
and `set_maximum_threshold(get_maximum_threshold())` then throw, since the setters reject 0 and
1, and `set_step(get_step())` returns. -/
theorem set_default_outside_setter_domain (K : KappaCoefficientOptimizationThreshold) :
    (set_default K).minimum_threshold = 0 ∧ (set_default K).maximum_threshold = 1 ∧
    (set_default K).step = 1 / 1000 ∧
    set_minimum_threshold true (set_default K) (get_minimum_threshold (set_default K))
      = ⟨set_default K, some (.logic_error .kappa_minimum_threshold), []⟩ ∧
    set_maximum_threshold true (set_default K) (get_maximum_threshold (set_default K))
      = ⟨set_default K, some (.logic_error .kappa_maximum_threshold), []⟩ ∧
    set_step true (set_default K) (get_step (set_default K)) = ⟨set_default K, none, []⟩ := by
  refine ⟨rfl, rfl, rfl, ?_, ?_, ?_⟩
  · simp [set_minimum_threshold, get_minimum_threshold, set_default]
  · simp [set_maximum_threshold, get_maximum_threshold, set_default]
  · have h : ¬ ((1 : ℚ) / 1000 ≤ 0 ∨ (1 : ℚ) / 1000 ≥ 1) := by norm_num
    simp only [set_step, get_step, set_default, true_and, if_neg h]

end KappaCoefficientOptimizationThreshold
end OpenNN
